import Mathlib

/-!
# Solar simulator: replay engine and metrics projector

A shallow embedding of `src/TP-Jour4/src/solar-simulator`:

* `src/config/farms.js`            : `FARMS_CONFIG`, `ANOMALY_TYPES`
* `src/services/dataPlayer.js`     : class `DataPlayer`
* `src/services/metricsExporter.js`: `updateFarmMetrics`
* `src/services/csvLoader.js`      : `indexByHour`, the statistics of the loader
* `src/index.js`                   : the guard of `POST /control/jump`
* `tests/calculations.test.js`     : `calculateTheoreticalPower`

Modelling conventions.

* A JavaScript number is a `JSNum`: `NaN`, the two infinities, or a finite value held as an
  exact rational.  Every finite double is a rational, and all arithmetic the engine performs on
  a cursor (`+ 1`, `%`, `Math.min`, `Math.max`) is exact on the integers and halves used below.
  The quotients, products, sums and differences of the metrics projector and of the theoretical
  power are rounded to the nearest double, ties to even (`JSNum.round`), and a decimal literal
  of the source is the double nearest to it.  Negative zero is identified with zero.
* A plain object is the list of its own properties (`Obj`), first binding wins; a read falls back
  on the names every plain object inherits from `Object.prototype` (`Lookup.inherited`).  The
  accessor behaviour of the name `__proto__` on writes is modelled for the statistics of the
  loader only (`Obj.assign`).
* The method `set` of a prom-client gauge raises a `TypeError` for a value whose `typeof` is not
  `number`; `metricsExporter.js` catches nothing, so a projection ends at the first such call
  (`untilRaise`).
* The wall clock is an explicit argument (`Clock`), read once per call.
* The timer created by `start` is a flag; a tick is a call of `advanceToNext`.
-/

namespace SolarSimulator

/-! ## JavaScript numbers -/

/-- A JavaScript number: not-a-number, an infinity, or a finite value. -/
inductive JSNum where
  | nan
  | negInf
  | fin (q : ℚ)
  | posInf
  deriving DecidableEq

namespace JSNum

/-- The number literal `n`. -/
def ofNat (n : Nat) : JSNum := fin (n : ℚ)

/-- Rounding towards zero, as the remainder operator does. -/
def trunc (q : ℚ) : ℤ := if 0 ≤ q then ⌊q⌋ else ⌈q⌉

/-- Numeric `a + b`. -/
def add : JSNum → JSNum → JSNum
  | fin a, fin b => fin (a + b)
  | nan, _ => nan
  | _, nan => nan
  | posInf, negInf => nan
  | negInf, posInf => nan
  | posInf, _ => posInf
  | _, posInf => posInf
  | negInf, _ => negInf
  | _, negInf => negInf

/-- The remainder `a % b`: sign of the dividend, `NaN` for a zero divisor or an infinite
dividend, the dividend itself for an infinite divisor. -/
def mod : JSNum → JSNum → JSNum
  | fin a, fin b => if b = 0 then nan else fin (a - b * (trunc (a / b) : ℚ))
  | fin a, posInf => fin a
  | fin a, negInf => fin a
  | _, _ => nan

/-- The function `Math.min(a, b)`. -/
def min : JSNum → JSNum → JSNum
  | fin a, fin b => fin (Min.min a b)
  | nan, _ => nan
  | _, nan => nan
  | negInf, _ => negInf
  | _, negInf => negInf
  | posInf, b => b
  | a, posInf => a

/-- The function `Math.max(a, b)`. -/
def max : JSNum → JSNum → JSNum
  | fin a, fin b => fin (Max.max a b)
  | nan, _ => nan
  | _, nan => nan
  | posInf, _ => posInf
  | _, posInf => posInf
  | negInf, b => b
  | a, negInf => a

/-- The comparison `a < b` (false as soon as one side is `NaN`). -/
def lt : JSNum → JSNum → Bool
  | fin a, fin b => decide (a < b)
  | nan, _ => false
  | _, nan => false
  | negInf, negInf => false
  | negInf, _ => true
  | _, negInf => false
  | posInf, _ => false
  | _, posInf => true

/-- The integer nearest to `q`, the even one when `q` lies halfway between two integers. -/
def roundHalfEven (q : ℚ) : ℤ :=
  if q - ⌊q⌋ < 1 / 2 then ⌊q⌋
  else if 1 / 2 < q - ⌊q⌋ then ⌊q⌋ + 1
  else if ⌊q⌋ % 2 = 0 then ⌊q⌋ else ⌊q⌋ + 1

/-- The exponent `e` of the binade of a double: `2 ^ e ≤ |x| < 2 ^ (e + 1)`, held at `-1022`
for the subnormal values. -/
def binade (x : ℚ) : ℤ := Max.max (Int.log 2 |x|) (-1022)

/-- The distance between neighbouring doubles in the binade of `x`: 53 significant bits. -/
def ulp (x : ℚ) : ℚ := (2 : ℚ) ^ (binade x - 52)

/-- The double nearest to a non-negative `y`, ties to even, before the test for overflow. -/
def roundMagnitude (y : ℚ) : ℚ := (roundHalfEven (y / ulp y) : ℚ) * ulp y

/-- The double nearest to `x`, ties to even, before the test for overflow. -/
def roundQ (x : ℚ) : ℚ := if 0 ≤ x then roundMagnitude x else -roundMagnitude (-x)

/-- The rounding of an exact result to a double: the nearest double, ties to even, and an
infinity when the rounded magnitude is beyond the largest double. -/
def round (x : ℚ) : JSNum :=
  if (2 : ℚ) ^ (1024 : ℕ) ≤ |roundQ x| then (if 0 < x then posInf else negInf)
  else fin (roundQ x)

/-- Numeric `a + b` on doubles: the exact sum, rounded. -/
def plus : JSNum → JSNum → JSNum
  | fin a, fin b => round (a + b)
  | nan, _ => nan
  | _, nan => nan
  | posInf, negInf => nan
  | negInf, posInf => nan
  | posInf, _ => posInf
  | _, posInf => posInf
  | negInf, _ => negInf
  | _, negInf => negInf

/-- Numeric `a - b` on doubles: the exact difference, rounded. -/
def minus : JSNum → JSNum → JSNum
  | fin a, fin b => round (a - b)
  | nan, _ => nan
  | _, nan => nan
  | posInf, posInf => nan
  | negInf, negInf => nan
  | posInf, _ => posInf
  | _, posInf => negInf
  | negInf, _ => negInf
  | _, negInf => posInf

/-- Numeric `a / b` on doubles: the exact quotient, rounded. -/
def div : JSNum → JSNum → JSNum
  | fin a, fin b =>
      if b = 0 then (if a = 0 then nan else if 0 < a then posInf else negInf)
      else round (a / b)
  | nan, _ => nan
  | _, nan => nan
  | fin _, _ => fin 0
  | posInf, fin b => if 0 ≤ b then posInf else negInf
  | negInf, fin b => if 0 ≤ b then negInf else posInf
  | _, _ => nan

/-- Numeric `a * b` on doubles: the exact product, rounded. -/
def mul : JSNum → JSNum → JSNum
  | fin a, fin b => round (a * b)
  | nan, _ => nan
  | _, nan => nan
  | fin a, posInf => if a = 0 then nan else if 0 < a then posInf else negInf
  | fin a, negInf => if a = 0 then nan else if 0 < a then negInf else posInf
  | posInf, fin b => if b = 0 then nan else if 0 < b then posInf else negInf
  | negInf, fin b => if b = 0 then nan else if 0 < b then negInf else posInf
  | posInf, posInf => posInf
  | negInf, negInf => posInf
  | posInf, negInf => negInf
  | negInf, posInf => negInf

/-- Truthiness of a number: everything but `0` and `NaN`. -/
def truthy : JSNum → Bool
  | nan => false
  | fin q => decide (q ≠ 0)
  | _ => true

/-- The number is an integer that indexes an array of length `len`. -/
def isArrayIndex (n : JSNum) (len : Nat) : Prop :=
  ∃ k : Nat, k < len ∧ n = ofNat k

end JSNum

/-! ## Plain objects -/

/-- The own properties of a plain object, in insertion order; the first binding of a key is the
property. -/
abbrev Obj (α : Type) := List (String × α)

/-- The result of the property read `o[k]`. -/
inductive Lookup (α : Type) where
  | own (v : α)
  | inherited (name : String)
  | absent
  deriving DecidableEq

/-- The names a plain object inherits from `Object.prototype`. -/
def objectPrototypeKeys : List String :=
  ["constructor", "__defineGetter__", "__defineSetter__", "hasOwnProperty",
   "__lookupGetter__", "__lookupSetter__", "isPrototypeOf", "propertyIsEnumerable",
   "toString", "valueOf", "__proto__", "toLocaleString"]

namespace Obj

variable {α : Type}

/-- The own property `k`, if there is one. -/
def getOwn : Obj α → String → Option α
  | [], _ => none
  | (k', v) :: rest, k => if k' = k then some v else getOwn rest k

/-- The read `o[k]`: the own property, else what `Object.prototype` provides, else `undefined`. -/
def getProp (o : Obj α) (k : String) : Lookup α :=
  match getOwn o k with
  | some v => Lookup.own v
  | none => if k ∈ objectPrototypeKeys then Lookup.inherited k else Lookup.absent

/-- The assignment `o[k] = v`: overwrite in place, or append a new property. -/
def setProp : Obj α → String → α → Obj α
  | [], k, v => [(k, v)]
  | (k', v') :: rest, k, v =>
      if k' = k then (k, v) :: rest else (k', v') :: setProp rest k v

/-- The own keys, `Object.keys(o)`, each once. -/
def keys (o : Obj α) : List String := (o.map Prod.fst).dedup

end Obj

/-! ## Records -/

/-- A field value of a record. -/
inductive JSVal where
  | undefined
  | null
  | num (n : JSNum)
  | str (s : String)
  | date (ms : JSNum)
  /-- A function or object found on `Object.prototype` under `name`. -/
  | builtin (name : String)
  deriving DecidableEq

namespace JSVal

/-- Truthiness, as tested by `||` and `!`. -/
def truthy : JSVal → Bool
  | undefined => false
  | null => false
  | num n => n.truthy
  | str s => decide (s ≠ "")
  | date _ => true
  | builtin _ => true

/-- The expression `a || b`. -/
def orElse (a b : JSVal) : JSVal := if a.truthy then a else b

end JSVal

/-- One row of a dataset, or the default record: a plain object. -/
abbrev Record := Obj JSVal

/-- The read `data.k` of a field whose name `Object.prototype` does not define. -/
def Record.field (r : Record) (k : String) : JSVal :=
  match Obj.getOwn r k with
  | some v => v
  | none => JSVal.undefined

/-! ## `config/farms.js` -/

/-- An entry of `FARMS_CONFIG`. -/
structure FarmConfig where
  name : String
  location : String
  latitude : ℚ
  panels : Nat
  capacity_mw : ℚ
  inverters : Nat
  panel_power_w : Nat
  csvFile : String
  deriving DecidableEq

/-- The constant `FARMS_CONFIG`. -/
def FARMS_CONFIG : Obj FarmConfig :=
  [("provence",
      { name := "provence", location := "Marseille", latitude := 433 / 10, panels := 5000,
        capacity_mw := 2, inverters := 4, panel_power_w := 400,
        csvFile := "provence_data.csv" }),
   ("occitanie",
      { name := "occitanie", location := "Montpellier", latitude := 436 / 10, panels := 3500,
        capacity_mw := 14 / 10, inverters := 3, panel_power_w := 400,
        csvFile := "occitanie_data.csv" }),
   ("aquitaine",
      { name := "aquitaine", location := "Bordeaux", latitude := 448 / 10, panels := 4200,
        capacity_mw := 168 / 100, inverters := 4, panel_power_w := 400,
        csvFile := "aquitaine_data.csv" })]

/-- The keys of `ANOMALY_TYPES`, in declaration order. -/
def ANOMALY_TYPES : Obj Nat :=
  [("NORMAL", 0), ("OVERHEAT", 1), ("INVERTER_DOWN", 2), ("DEGRADATION", 3), ("SHADING", 4),
   ("SENSOR_FAIL", 5)]

namespace CONSTANTS

/-- The constant `CONSTANTS.SYSTEM_EFFICIENCY`: the double the literal `0.85` denotes. -/
def SYSTEM_EFFICIENCY : ℚ := JSNum.roundQ (85 / 100)

/-- The constant `CONSTANTS.TEMP_COEFFICIENT`: the double the expression `-0.0035` denotes. -/
def TEMP_COEFFICIENT : ℚ := -JSNum.roundQ (35 / 10000)

/-- The constant `CONSTANTS.REFERENCE_TEMP`. -/
def REFERENCE_TEMP : ℚ := 25

/-- The constant `CONSTANTS.TARIF_RACHAT`: the double the literal `0.18` denotes. -/
def TARIF_RACHAT : ℚ := JSNum.roundQ (18 / 100)

/-- The constant `CONSTANTS.CRITICAL_TEMP`. -/
def CRITICAL_TEMP : ℚ := 65

/-- The constant `CONSTANTS.SCRAPE_INTERVAL_MS`. -/
def SCRAPE_INTERVAL_MS : Nat := 30000

end CONSTANTS

/-! ## `services/dataPlayer.js` -/

/-- One reading of the wall clock. -/
structure Clock where
  /-- The value of `Date.now()`, in milliseconds. -/
  now : Nat
  /-- The value of `new Date().getHours()`. -/
  hours : Nat
  /-- The time value of `new Date(new Date().getFullYear(), 0, 0)`. -/
  yearStart : Int
  deriving DecidableEq

/-- A slot of `currentData`. -/
inductive Cell where
  | null
  | undefined
  | record (r : Record)
  deriving DecidableEq

/-- What `getCurrentData` hands back: a record, or a value found on `Object.prototype`. -/
inductive Current where
  | record (r : Record)
  | builtin (name : String)
  deriving DecidableEq

/-- The members `updateInterval`, `speedFactor` and `mode` of an options object: the argument
of the constructor, where a member that is not given is `undefined`, or the field
`this.options`. -/
structure PlayerOptions where
  updateInterval : JSVal
  speedFactor : JSVal
  mode : JSVal
  deriving DecidableEq

/-- The default argument `options = {}`. -/
def PlayerOptions.empty : PlayerOptions :=
  { updateInterval := JSVal.undefined, speedFactor := JSVal.undefined, mode := JSVal.undefined }

/-- The fields of a `DataPlayer` instance. A dataset is an array of records, or `none` when the
map holds a falsy value (`null`, `undefined`) for the key. -/
structure DataPlayer where
  farmsData : Obj (Option (List Record))
  currentIndex : Obj JSNum
  currentData : Obj Cell
  isPlaying : Bool
  timer : Bool
  lastUpdate : Nat
  options : PlayerOptions

/-- The element read `data[index]`: defined only at an integer inside the array. -/
def arrayGet (data : List Record) : JSNum → Cell
  | JSNum.fin q =>
      if 0 ≤ q ∧ q.den = 1 then
        match data.get? q.num.toNat with
        | some r => Cell.record r
        | none => Cell.undefined
      else Cell.undefined
  | _ => Cell.undefined

/-- The expression `this.currentIndex[farmName] + 1`, then `% length`: a value that is not a
number (a missing or inherited property) makes the sum, hence the remainder, `NaN`. -/
def nextIndex (cur : Lookup JSNum) (length : Nat) : JSNum :=
  match cur with
  | Lookup.own n => JSNum.mod (JSNum.add n (JSNum.ofNat 1)) (JSNum.ofNat length)
  | _ => JSNum.nan

/-- The index used by `data[this.currentIndex[farmName]]`. -/
def indexValue : Lookup JSNum → JSNum
  | Lookup.own n => n
  | _ => JSNum.nan

/-- The method `getDefaultData(farmName)`. -/
def getDefaultData (farmName : String) (clock : Clock) : Record :=
  let config := Obj.getProp FARMS_CONFIG farmName
  [("farm_name", JSVal.str farmName),
   ("timestamp", JSVal.date (JSNum.ofNat clock.now)),
   ("hour", JSVal.num (JSNum.ofNat clock.hours)),
   ("day_of_year",
      JSVal.num (JSNum.fin ((⌊(((clock.now : ℚ) - (clock.yearStart : ℚ)) / 86400000)⌋ : ℤ) : ℚ))),
   ("irradiance_wm2", JSVal.num (JSNum.ofNat 0)),
   ("ambient_temp_c", JSVal.num (JSNum.ofNat 20)),
   ("panel_temp_c", JSVal.num (JSNum.ofNat 20)),
   ("power_production_kw", JSVal.num (JSNum.ofNat 0)),
   ("theoretical_power_kw", JSVal.num (JSNum.ofNat 0)),
   ("efficiency_percent", JSVal.num (JSNum.ofNat 0)),
   ("inverter_1_status", JSVal.num (JSNum.ofNat 1)),
   ("inverter_2_status", JSVal.num (JSNum.ofNat 1)),
   ("inverter_3_status", JSVal.num (JSNum.ofNat 1)),
   ("inverter_4_status",
      match config with
      | Lookup.own c => if 4 ≤ c.inverters then JSVal.num (JSNum.ofNat 1) else JSVal.undefined
      | _ => JSVal.undefined),
   ("daily_revenue_eur", JSVal.num (JSNum.ofNat 0)),
   ("anomaly_type", JSVal.str "NORMAL"),
   ("anomaly_severity", JSVal.str "low")]

/-- The constructor `new DataPlayer(farmsData, options)`; `now` is the clock at construction. -/
def DataPlayer.create (farmsData : Obj (Option (List Record))) (options : PlayerOptions)
    (now : Nat) : DataPlayer :=
  { farmsData := farmsData
    currentIndex := (Obj.keys FARMS_CONFIG).foldl (fun o k => Obj.setProp o k (JSNum.ofNat 0)) []
    currentData := (Obj.keys FARMS_CONFIG).foldl (fun o k => Obj.setProp o k Cell.null) []
    isPlaying := false
    timer := false
    lastUpdate := now
    options :=
      { updateInterval :=
          JSVal.orElse options.updateInterval
            (JSVal.num (JSNum.ofNat CONSTANTS.SCRAPE_INTERVAL_MS))
        speedFactor := JSVal.orElse options.speedFactor (JSVal.num (JSNum.ofNat 120))
        mode := JSVal.orElse options.mode (JSVal.str "sequential") } }

/-- The constructor `new DataPlayer(farmsData)`; `now` is the clock at construction. -/
def DataPlayer.new (farmsData : Obj (Option (List Record))) (now : Nat) : DataPlayer :=
  DataPlayer.create farmsData PlayerOptions.empty now

namespace DataPlayer

/-- The body of the loop of `updateCurrentData` for one key. -/
def updateCurrentDataStep (p : DataPlayer) (clock : Clock) (cd : Obj Cell) (farmName : String) :
    Obj Cell :=
  match Obj.getProp p.farmsData farmName with
  | Lookup.own (some (r :: rs)) =>
      Obj.setProp cd farmName (arrayGet (r :: rs) (indexValue (Obj.getProp p.currentIndex farmName)))
  | _ => Obj.setProp cd farmName (Cell.record (getDefaultData farmName clock))

/-- The method `updateCurrentData()`. -/
def updateCurrentData (p : DataPlayer) (clock : Clock) : DataPlayer :=
  { p with
    currentData := (Obj.keys p.farmsData).foldl (updateCurrentDataStep p clock) p.currentData }

/-- The body of the first loop of `advanceToNext` for one key. -/
def advanceStep (p : DataPlayer) (ci : Obj JSNum) (farmName : String) : Obj JSNum :=
  match Obj.getProp p.farmsData farmName with
  | Lookup.own (some (r :: rs)) =>
      Obj.setProp ci farmName (nextIndex (Obj.getProp ci farmName) (r :: rs).length)
  | _ => ci

/-- The method `advanceToNext()`. -/
def advanceToNext (p : DataPlayer) (clock : Clock) : DataPlayer :=
  let p1 := { p with currentIndex := (Obj.keys p.farmsData).foldl (advanceStep p) p.currentIndex }
  { updateCurrentData p1 clock with lastUpdate := clock.now }

/-- The method `start()`. -/
def start (p : DataPlayer) (clock : Clock) : DataPlayer :=
  if p.isPlaying then p
  else { updateCurrentData { p with isPlaying := true } clock with timer := true }

/-- The method `stop()`. -/
def stop (p : DataPlayer) : DataPlayer :=
  { p with timer := false, isPlaying := false }

/-- The body of the loop of `jumpToIndex` for one key. -/
def jumpStep (p : DataPlayer) (index : JSNum) (ci : Obj JSNum) (farmName : String) : Obj JSNum :=
  match Obj.getProp p.farmsData farmName with
  | Lookup.own (some (r :: rs)) =>
      Obj.setProp ci farmName
        (JSNum.max (JSNum.ofNat 0) (JSNum.min index (JSNum.ofNat ((r :: rs).length - 1))))
  | _ => ci

/-- The method `jumpToIndex(index)`. -/
def jumpToIndex (p : DataPlayer) (index : JSNum) (clock : Clock) : DataPlayer :=
  updateCurrentData
    { p with currentIndex := (Obj.keys p.farmsData).foldl (jumpStep p index) p.currentIndex } clock

/-- The method `getCurrentData(farmName)`. -/
def getCurrentData (p : DataPlayer) (farmName : String) (clock : Clock) : Current :=
  match Obj.getProp p.currentData farmName with
  | Lookup.own (Cell.record r) => Current.record r
  | Lookup.inherited name => Current.builtin name
  | _ => Current.record (getDefaultData farmName clock)

/-- The method `getAllCurrentData()`. -/
def getAllCurrentData (p : DataPlayer) (clock : Clock) : Obj Current :=
  (Obj.keys FARMS_CONFIG).foldl (fun result k => Obj.setProp result k (getCurrentData p k clock)) []

end DataPlayer

/-- The guard of `POST /control/jump`: the body's `index` is a number and not `< 0`. -/
def jumpAccepts (index : JSNum) : Bool := !(JSNum.lt index (JSNum.ofNat 0))

/-! ## `services/metricsExporter.js` -/

/-- One call `gauge.set(labels, value)`: the gauge's metric name, the labels, the value passed. -/
structure Observation where
  metric : String
  labels : List (String × String)
  value : JSVal
  deriving DecidableEq

/-- The template literal that builds `statusKey` from the loop counter. -/
def statusKey (i : Nat) : String := "inverter_" ++ toString i ++ "_status"

/-- The comparison `data[statusKey] !== 0`. -/
def isActiveStatus (v : JSVal) : Bool := decide (v ≠ JSVal.num (JSNum.ofNat 0))

/-- The second loop of `updateFarmMetrics`: the final `activeInverters` for `inverters`
configured inverters. -/
def activeInverters (data : Record) (inverters : Nat) : Nat :=
  ((List.range inverters).filter (fun j => isActiveStatus (Record.field data (statusKey (j + 1))))).length

/-- The literal `severityMap`. -/
def severityMap : Obj JSNum :=
  [("low", JSNum.ofNat 0), ("medium", JSNum.ofNat 1), ("high", JSNum.ofNat 2)]

/-- The property name a value is converted to when it is used as a key. Numbers, dates and
functions render as text that names no property of `severityMap` or of `Object.prototype`; for
them the result is `none`. -/
def propertyKey : JSVal → Option String
  | JSVal.str s => some s
  | JSVal.undefined => some "undefined"
  | JSVal.null => some "null"
  | _ => none

/-- The expression `severityMap[data.anomaly_severity] || 0`. -/
def severityLevel (severity : JSVal) : JSVal :=
  match propertyKey severity with
  | none => JSVal.num (JSNum.ofNat 0)
  | some k =>
    match Obj.getProp severityMap k with
    | Lookup.own n => JSVal.orElse (JSVal.num n) (JSVal.num (JSNum.ofNat 0))
    | Lookup.inherited name => JSVal.builtin name
    | Lookup.absent => JSVal.num (JSNum.ofNat 0)

/-- The observations of the anomaly loop, one per key of `ANOMALY_TYPES`. -/
def anomalyObservations (farmName : String) (anomalyType : JSVal) : List Observation :=
  (Obj.keys ANOMALY_TYPES).map (fun type =>
    { metric := "solar_anomaly_active"
      labels := [("farm", farmName), ("type", type)]
      value := JSVal.num (JSNum.ofNat (if JSVal.str type = anomalyType then 1 else 0)) })

/-- The observations of the first inverter loop. -/
def inverterObservations (farmName : String) (data : Record) (inverters : Nat) :
    List Observation :=
  (List.range inverters).map (fun j =>
    let v := Record.field data (statusKey (j + 1))
    { metric := "solar_inverter_status"
      labels := [("farm", farmName), ("inverter_id", toString (j + 1))]
      value := if v ≠ JSVal.undefined then v else JSVal.num (JSNum.ofNat 1) })

/-- The test `typeof value === 'number'`. -/
def JSVal.isNumber : JSVal → Bool
  | JSVal.num _ => true
  | _ => false

/-- The calls of `set` in the body of `updateFarmMetrics(farmName, data)`, in program order,
each with the arguments it is given when control reaches it. `data` is `none` for a falsy
argument. A `config` inherited from `Object.prototype` is truthy and has none of the
configuration fields. -/
def setCalls (farmName : String) (data : Option Record) (clock : Clock) :
    List Observation :=
  let gauge (metric : String) (value : JSVal) : Observation :=
    { metric := metric, labels := [("farm", farmName)], value := value }
  let zero := JSVal.num (JSNum.ofNat 0)
  match Obj.getProp FARMS_CONFIG farmName, data with
  | Lookup.absent, _ => []
  | _, none => []
  | config, some data =>
    let inverters : Nat := match config with
      | Lookup.own c => c.inverters
      | _ => 0
    let invertersValue : JSNum := match config with
      | Lookup.own c => JSNum.ofNat c.inverters
      | _ => JSNum.nan
    let availability :=
      JSNum.mul (JSNum.div (JSNum.ofNat (activeInverters data inverters)) invertersValue)
        (JSNum.ofNat 100)
    let anomalyType := JSVal.orElse (Record.field data "anomaly_type") (JSVal.str "NORMAL")
    [ gauge "solar_power_production_kw" (JSVal.orElse (Record.field data "power_production_kw") zero),
      gauge "solar_power_theoretical_kw" (JSVal.orElse (Record.field data "theoretical_power_kw") zero),
      gauge "solar_irradiance_wm2" (JSVal.orElse (Record.field data "irradiance_wm2") zero),
      gauge "solar_panel_temperature_celsius" (JSVal.orElse (Record.field data "panel_temp_c") zero),
      gauge "solar_ambient_temperature_celsius" (JSVal.orElse (Record.field data "ambient_temp_c") zero),
      gauge "solar_efficiency_percent" (JSVal.orElse (Record.field data "efficiency_percent") zero),
      gauge "solar_daily_revenue_euros" (JSVal.orElse (Record.field data "daily_revenue_eur") zero) ]
    ++ inverterObservations farmName data inverters
    ++ [ gauge "solar_availability_percent" (JSVal.num availability) ]
    ++ anomalyObservations farmName anomalyType
    ++ [ gauge "solar_anomaly_severity" (severityLevel (Record.field data "anomaly_severity")),
         gauge "solar_panel_count"
           (match config with
            | Lookup.own c => JSVal.num (JSNum.ofNat c.panels)
            | _ => JSVal.undefined),
         gauge "solar_capacity_mw"
           (match config with
            | Lookup.own c => JSVal.num (JSNum.fin c.capacity_mw)
            | _ => JSVal.undefined),
         gauge "solar_last_update_timestamp"
           (JSVal.num (JSNum.div (JSNum.ofNat clock.now) (JSNum.ofNat 1000))),
         gauge "solar_simulated_hour" (JSVal.orElse (Record.field data "hour") zero),
         gauge "solar_simulated_day" (JSVal.orElse (Record.field data "day_of_year") zero) ]

/-- The calls made out of a sequence of calls of `set`. The method `set` of a prom-client gauge
raises a `TypeError` when `typeof value` is not `number`, and nothing in `metricsExporter.js`
catches it: the calls made are those up to the first one whose value is not a number, that
call included. -/
def untilRaise : List Observation → List Observation
  | [] => []
  | o :: rest => if o.value.isNumber then o :: untilRaise rest else [o]

/-- A sequence of calls made holds a call that raised. -/
def raised (calls : List Observation) : Bool := calls.any (fun o => !o.value.isNumber)

/-- The function `updateFarmMetrics(farmName, data)`: the calls of `set` it makes, in order.
A call whose value is not a number raises and is the last one. -/
def updateFarmMetrics (farmName : String) (data : Option Record) (clock : Clock) :
    List Observation :=
  untilRaise (setCalls farmName data clock)

/-- The calls made on the gauge named `metric`. -/
def observationsOf (metric : String) (obs : List Observation) : List Observation :=
  obs.filter (fun o => o.metric = metric)

/-- The six calls of `set` on the anomaly gauge for `farmName`, in the key order of
`ANOMALY_TYPES`, with the value `value k` for kind `k`. -/
def anomalySnapshot (farmName : String) (value : String → Nat) : List Observation :=
  ["NORMAL", "OVERHEAT", "INVERTER_DOWN", "DEGRADATION", "SHADING", "SENSOR_FAIL"].map
    (fun k =>
      { metric := "solar_anomaly_active"
        labels := [("farm", farmName), ("type", k)]
        value := JSVal.num (JSNum.ofNat (value k)) })

/-- The numeric fields `updateFarmMetrics` reads with `|| 0`, each with the name of the gauge it
feeds. -/
def numericGauges : List (String × String) :=
  [("power_production_kw", "solar_power_production_kw"),
   ("theoretical_power_kw", "solar_power_theoretical_kw"),
   ("irradiance_wm2", "solar_irradiance_wm2"),
   ("panel_temp_c", "solar_panel_temperature_celsius"),
   ("ambient_temp_c", "solar_ambient_temperature_celsius"),
   ("efficiency_percent", "solar_efficiency_percent"),
   ("daily_revenue_eur", "solar_daily_revenue_euros"),
   ("hour", "solar_simulated_hour"),
   ("day_of_year", "solar_simulated_day")]

/-- The argument `data` that `updateAllMetrics` hands on for one entry: a record, or an inherited
value, which is truthy and has none of the record fields. -/
def Current.asData : Current → Option Record
  | Current.record r => some r
  | Current.builtin _ => some []

/-- The numeric fields whose gauges are set before the inverter loop. -/
def productionGauges : List (String × String) :=
  [("power_production_kw", "solar_power_production_kw"),
   ("theoretical_power_kw", "solar_power_theoretical_kw"),
   ("irradiance_wm2", "solar_irradiance_wm2"),
   ("panel_temp_c", "solar_panel_temperature_celsius"),
   ("ambient_temp_c", "solar_ambient_temperature_celsius"),
   ("efficiency_percent", "solar_efficiency_percent"),
   ("daily_revenue_eur", "solar_daily_revenue_euros")]

/-- The function `updateAllMetrics(allData)`: the calls of `set` it makes, in order. The loop
ends with the call that raises. -/
def updateAllMetrics (allData : Obj Current) (clock : Clock) : List Observation :=
  (Obj.keys allData).foldl
    (fun calls farmName =>
      if raised calls then calls
      else
        match Obj.getOwn allData farmName with
        | some data => calls ++ updateFarmMetrics farmName (Current.asData data) clock
        | none => calls)
    []

/-- A non-negative number: a finite value that is at least 0, or positive infinity. -/
def JSNum.nonNegative : JSNum → Bool
  | JSNum.fin q => decide (0 ≤ q)
  | JSNum.posInf => true
  | _ => false

/-! ## `DataPlayer`: status and reachable states -/

/-- The object returned by `getStatus()`. -/
structure Status where
  isPlaying : Bool
  lastUpdate : Nat
  indices : Obj JSNum
  totalRecords : Obj Nat
  deriving DecidableEq

/-- The method `getStatus()`. -/
def DataPlayer.getStatus (p : DataPlayer) : Status :=
  { isPlaying := p.isPlaying
    lastUpdate := p.lastUpdate
    indices := p.currentIndex
    totalRecords :=
      (Obj.keys p.farmsData).foldl
        (fun o k =>
          match Obj.getOwn p.farmsData k with
          | some (some v) => Obj.setProp o k v.length
          | _ => Obj.setProp o k 0)
        [] }

/-- The engine states that calls of `start`, `stop`, `advanceToNext` and `jumpToIndex` produce
from a newly constructed `DataPlayer` over `farmsData`. -/
inductive Reachable (farmsData : Obj (Option (List Record))) : DataPlayer → Prop where
  | construct (options : PlayerOptions) (now : Nat) :
      Reachable farmsData (DataPlayer.create farmsData options now)
  | start (p : DataPlayer) (clock : Clock) :
      Reachable farmsData p → Reachable farmsData (DataPlayer.start p clock)
  | stop (p : DataPlayer) : Reachable farmsData p → Reachable farmsData (DataPlayer.stop p)
  | advanceToNext (p : DataPlayer) (clock : Clock) :
      Reachable farmsData p → Reachable farmsData (DataPlayer.advanceToNext p clock)
  | jumpToIndex (p : DataPlayer) (index : JSNum) (clock : Clock) :
      Reachable farmsData p → Reachable farmsData (DataPlayer.jumpToIndex p index clock)

/-- The slot of `farm` holds what `updateCurrentData` computes from the present cursor: the
element `data[cursor]` of a non-empty dataset, a default record otherwise. Nothing is asked of
a name that is not a key of the dataset map. -/
def DataPlayer.Materialized (p : DataPlayer) (farm : String) : Prop :=
  match Obj.getProp p.farmsData farm with
  | Lookup.own (some (r :: rs)) =>
      Obj.getProp p.currentData farm
        = Lookup.own (arrayGet (r :: rs) (indexValue (Obj.getProp p.currentIndex farm)))
  | Lookup.own _ =>
      ∃ clock : Clock,
        Obj.getProp p.currentData farm = Lookup.own (Cell.record (getDefaultData farm clock))
  | _ => True

/-- The callback `start()` hands to `setInterval`: at a tick it runs `advanceToNext`, and it is
run only while the interval is held, that is until `stop()` clears it. -/
def DataPlayer.tick (p : DataPlayer) (clock : Clock) : DataPlayer :=
  if p.timer then DataPlayer.advanceToNext p clock else p

/-- A read of the engine serves the materialized state: `getCurrentData` returns `data[c]` for
a key whose dataset is non-empty and whose cursor is the integer `c` inside it, and a default
record for a key whose dataset is empty or falsy. -/
def DataPlayer.ServesCurrent (p : DataPlayer) : Prop :=
  ∀ (farm : String) (later : Clock),
    (∀ (data : List Record) (c : Nat),
      Obj.getProp p.farmsData farm = Lookup.own (some data) → c < data.length →
      Obj.getProp p.currentIndex farm = Lookup.own (JSNum.ofNat c) →
      ∃ r : Record, data.get? c = some r
        ∧ DataPlayer.getCurrentData p farm later = Current.record r)
    ∧ (∀ d : Option (List Record),
      Obj.getProp p.farmsData farm = Lookup.own d → d = none ∨ d = some [] →
      ∃ clock : Clock,
        DataPlayer.getCurrentData p farm later = Current.record (getDefaultData farm clock))

/-! ## `index.js`: route handlers -/

/-- The function `updateMetrics()` of `index.js`; `dataPlayer` is `none` while it is `null`. -/
def updateMetrics (dataPlayer : Option DataPlayer) (clock : Clock) : List Observation :=
  match dataPlayer with
  | none => []
  | some p => updateAllMetrics (DataPlayer.getAllCurrentData p clock) clock

/-- What `POST /control/jump` sends. -/
inductive JumpResponse where
  /-- Status 400 with the error `Index invalide`. -/
  | badRequest
  /-- Status 503, the simulator is not constructed. -/
  | notReady
  /-- Status 200 with `newIndex` and `currentData`. -/
  | ok (newIndex : JSNum) (currentData : Obj Current)
  deriving DecidableEq

/-- The status code of a response of `POST /control/jump`. -/
def JumpResponse.status : JumpResponse → Nat
  | JumpResponse.badRequest => 400
  | JumpResponse.notReady => 503
  | JumpResponse.ok _ _ => 200

/-- The effect of one request on `POST /control/jump`: the response, the engine afterwards, the
argument of the call `jumpToIndex(index)` when it is made, and the calls of `set` made by
`updateMetrics()`. -/
structure JumpOutcome where
  response : JumpResponse
  dataPlayer : Option DataPlayer
  jumpedTo : Option JSNum
  metrics : List Observation

/-- The handler of `POST /control/jump`. `index` is the `index` member of the parsed body,
`undefined` when the body has none; a member that is not a number fails `typeof index`. The
response after the jump is the one the handler sends when `updateMetrics()` returns. -/
def postControlJump (index : JSVal) (dataPlayer : Option DataPlayer) (clock : Clock) :
    JumpOutcome :=
  let reject : JumpOutcome :=
    { response := JumpResponse.badRequest, dataPlayer := dataPlayer, jumpedTo := none,
      metrics := [] }
  match index with
  | JSVal.num n =>
    if jumpAccepts n then
      match dataPlayer with
      | none =>
        { response := JumpResponse.notReady, dataPlayer := none, jumpedTo := none, metrics := [] }
      | some p =>
        let p1 := DataPlayer.jumpToIndex p n clock
        { response := JumpResponse.ok n (DataPlayer.getAllCurrentData p1 clock)
          dataPlayer := some p1
          jumpedTo := some n
          metrics := updateMetrics (some p1) clock }
    else reject
  | _ => reject

/-- What `GET /data/:farm` sends. -/
inductive DataFarmResponse where
  /-- Status 404 with the error and `availableFarms`. -/
  | notFound (availableFarms : List String)
  /-- Status 503, the simulator is not constructed. -/
  | notReady
  /-- Status 200 with the value of `getCurrentData(farm)`. -/
  | ok (data : Current)
  deriving DecidableEq

/-- The status code of a response of `GET /data/:farm`. -/
def DataFarmResponse.status : DataFarmResponse → Nat
  | DataFarmResponse.notFound _ => 404
  | DataFarmResponse.notReady => 503
  | DataFarmResponse.ok _ => 200

/-- The handler of `GET /data/:farm`. -/
def getDataFarm (farm : String) (dataPlayer : Option DataPlayer) (clock : Clock) :
    DataFarmResponse :=
  match Obj.getProp FARMS_CONFIG farm with
  | Lookup.absent => DataFarmResponse.notFound (Obj.keys FARMS_CONFIG)
  | _ =>
    match dataPlayer with
    | none => DataFarmResponse.notReady
    | some p => DataFarmResponse.ok (DataPlayer.getCurrentData p farm clock)

/-! ## `services/csvLoader.js` -/

/-- The literal `files` of `loadAllFarms`. -/
def csvFiles : Obj String :=
  [("provence", "provence_data.csv"), ("occitanie", "occitanie_data.csv"),
   ("aquitaine", "aquitaine_data.csv")]

/-- The function `loadAllFarms(dataDir)`. The argument `loadCSV` gives, for a file name, the
outcome of the call `loadCSV(path.join(dataDir, fileName))`: the parsed rows, or the message of
the error it throws, which the `catch` block turns into an empty dataset. -/
def loadAllFarms (loadCSV : String → Except String (List Record)) : Obj (List Record) :=
  csvFiles.foldl
    (fun farms entry =>
      match loadCSV entry.2 with
      | Except.ok records => Obj.setProp farms entry.1 records
      | Except.error _ => Obj.setProp farms entry.1 [])
    [("provence", []), ("occitanie", []), ("aquitaine", [])]

/-- What a probe route sends: the status code and the `status` member of the body. -/
structure ProbeResponse where
  code : Nat
  status : String
  deriving DecidableEq

/-- The handler of `GET /health`. -/
def getHealth (dataPlayer : Option DataPlayer) : ProbeResponse :=
  let healthy : Bool :=
    match dataPlayer with
    | none => false
    | some p => p.isPlaying
  { code := if healthy then 200 else 503, status := if healthy then "healthy" else "unhealthy" }

/-- The handler of `GET /ready`. -/
def getReady (dataPlayer : Option DataPlayer) : ProbeResponse :=
  let ready : Bool :=
    match dataPlayer with
    | none => false
    | some _ => true
  { code := if ready then 200 else 503, status := if ready then "ready" else "not_ready" }

/-! ## Sequences of calls on the engine -/

/-- A call of one of the four mutating methods of `DataPlayer`. -/
inductive Call where
  | start (clock : Clock)
  | stop
  | advanceToNext (clock : Clock)
  | jumpToIndex (index : JSNum) (clock : Clock)

/-- The engine after one call. -/
def DataPlayer.call (p : DataPlayer) : Call → DataPlayer
  | Call.start clock => DataPlayer.start p clock
  | Call.stop => DataPlayer.stop p
  | Call.advanceToNext clock => DataPlayer.advanceToNext p clock
  | Call.jumpToIndex index clock => DataPlayer.jumpToIndex p index clock

/-- The engine after a sequence of calls. -/
def DataPlayer.run (p : DataPlayer) (calls : List Call) : DataPlayer :=
  calls.foldl DataPlayer.call p

/-- Two engines agree on every field other than `options`. -/
def DataPlayer.SameReplay (p q : DataPlayer) : Prop :=
  p.farmsData = q.farmsData ∧ p.currentIndex = q.currentIndex ∧ p.currentData = q.currentData
    ∧ p.isPlaying = q.isPlaying ∧ p.timer = q.timer ∧ p.lastUpdate = q.lastUpdate

/-! ## The metrics registry -/

/-- The values the gauges hold: for each gauge and label set, the observation of the last call
of `set`. -/
abbrev Registry := List Observation

namespace Registry

/-- The value a gauge holds for a label set, if it was ever set. -/
def get : Registry → String → List (String × String) → Option JSVal
  | [], _, _ => none
  | o :: rest, metric, labels =>
      if o.metric = metric ∧ o.labels = labels then some o.value else get rest metric labels

/-- The effect of a call `gauge.set(labels, value)` whose value is a number. -/
def store : Registry → Observation → Registry
  | [], o => [o]
  | x :: rest, o =>
      if x.metric = o.metric ∧ x.labels = o.labels then o :: rest else x :: store rest o

/-- The effect of one call `gauge.set(labels, value)`: a call that raises sets nothing. -/
def set (g : Registry) (o : Observation) : Registry :=
  if o.value.isNumber then store g o else g

/-- The effect of a sequence of calls of `set`. -/
def record (g : Registry) (obs : List Observation) : Registry := obs.foldl set g

/-- The registry states that calls of `updateFarmMetrics` and `resetMetrics` produce from the
empty registry. -/
inductive Reachable : Registry → Prop where
  | empty : Reachable []
  | update (g : Registry) (farmName : String) (data : Option Record) (clock : Clock) :
      Reachable g → Reachable (record g (updateFarmMetrics farmName data clock))

end Registry

/-- The gauges and label sets a sequence of calls of `set` writes. -/
def metricKeys (obs : List Observation) : List (String × List (String × String)) :=
  obs.map (fun o => (o.metric, o.labels))

/-! ## `tests/calculations.test.js` -/

/-- The function `calculateTheoreticalPower(farmName, irradiance, panelTemp)` on two finite
numbers, in the arithmetic of doubles and in the evaluation order of the source. A `config`
inherited from `Object.prototype` has no `panels`, which makes the product `NaN`. -/
def calculateTheoreticalPower (farmName : String) (irradiance panelTemp : ℚ) : JSNum :=
  match Obj.getProp FARMS_CONFIG farmName with
  | Lookup.absent => JSNum.ofNat 0
  | Lookup.inherited _ => JSNum.nan
  | Lookup.own config =>
    let tempFactor :=
      JSNum.plus (JSNum.ofNat 1)
        (JSNum.mul (JSNum.minus (JSNum.fin panelTemp) (JSNum.fin CONSTANTS.REFERENCE_TEMP))
          (JSNum.fin CONSTANTS.TEMP_COEFFICIENT))
    let power :=
      JSNum.mul
        (JSNum.mul
          (JSNum.mul (JSNum.mul (JSNum.ofNat config.panels) (JSNum.ofNat config.panel_power_w))
            (JSNum.div (JSNum.fin irradiance) (JSNum.ofNat 1000)))
          (JSNum.fin CONSTANTS.SYSTEM_EFFICIENCY))
        tempFactor
    JSNum.div power (JSNum.ofNat 1000)

/-! ## `services/csvLoader.js`: statistics and index -/

/-- The text of a value inside a template literal or as a property name: a string is its own
text; `render` gives the text of any other value. -/
def textOf (render : JSVal → String) : JSVal → String
  | JSVal.str s => s
  | v => render v

/-- The expression `value + 1`: addition on a number, concatenation on a text or on a value
that is turned into text. -/
def JSVal.plusOne (render : JSVal → String) : JSVal → JSVal
  | JSVal.num n => JSVal.num (JSNum.add n (JSNum.ofNat 1))
  | JSVal.str s => JSVal.str (s ++ "1")
  | JSVal.undefined => JSVal.num JSNum.nan
  | JSVal.null => JSVal.num (JSNum.ofNat 1)
  | v => JSVal.str (render v ++ "1")

/-- The name under which `getDatasetStats` counts a record: `record.anomaly_type || 'UNKNOWN'`
as a property name. -/
def anomalyKey (render : JSVal → String) (record : Record) : String :=
  textOf render (JSVal.orElse (Record.field record "anomaly_type") (JSVal.str "UNKNOWN"))

/-- The assignment `o[k] = v` of a number or a text to a plain object. Under the name
`__proto__` it reaches the setter inherited from `Object.prototype`, which ignores a value that
is not an object. -/
def Obj.assign {α : Type} (o : Obj α) (k : String) (v : α) : Obj α :=
  if k = "__proto__" then o else Obj.setProp o k v

/-- The two statements of the inner loop of `getDatasetStats` that update `anomalyCounts`. -/
def countAnomaly (render : JSVal → String) (anomalyCounts : Obj JSVal) (record : Record) :
    Obj JSVal :=
  let type := anomalyKey render record
  let previous : JSVal :=
    match Obj.getProp anomalyCounts type with
    | Lookup.own v => JSVal.orElse v (JSVal.num (JSNum.ofNat 0))
    | Lookup.inherited name => JSVal.builtin name
    | Lookup.absent => JSVal.num (JSNum.ofNat 0)
  Obj.assign anomalyCounts type (JSVal.plusOne render previous)

/-- The members `totalRecords`, `recordsPerFarm` and `anomalyCounts` of the object returned by
`getDatasetStats`. The member `dateRange`, on which the other three do not depend, is left
out. -/
structure DatasetStats where
  totalRecords : Nat
  recordsPerFarm : Obj Nat
  anomalyCounts : Obj JSVal
  deriving DecidableEq

/-- The body of the outer loop of `getDatasetStats` for one entry of the dataset map. -/
def datasetStatsStep (render : JSVal → String) (farmsData : Obj (List Record))
    (stats : DatasetStats) (farmName : String) : DatasetStats :=
  match Obj.getOwn farmsData farmName with
  | none => stats
  | some data =>
    { totalRecords := stats.totalRecords + data.length
      recordsPerFarm := Obj.assign stats.recordsPerFarm farmName data.length
      anomalyCounts := data.foldl (countAnomaly render) stats.anomalyCounts }

/-- The function `getDatasetStats(farmsData)` on a map of arrays. -/
def getDatasetStats (render : JSVal → String) (farmsData : Obj (List Record)) : DatasetStats :=
  (Obj.keys farmsData).foldl (datasetStatsStep render farmsData)
    { totalRecords := 0, recordsPerFarm := [], anomalyCounts := [] }

/-- The records of a dataset map in the order `getDatasetStats` visits them. -/
def allRecords (farmsData : Obj (List Record)) : List Record :=
  (Obj.keys farmsData).flatMap (fun farmName => (Obj.getOwn farmsData farmName).getD [])

/-- The anomaly kinds of the records of a dataset map, as `getDatasetStats` names them. -/
def anomalyKinds (render : JSVal → String) (farmsData : Obj (List Record)) : List String :=
  (allRecords farmsData).map (anomalyKey render)

/-- The template literal that builds the key of `indexByHour`. -/
def hourKey (render : JSVal → String) (record : Record) : String :=
  textOf render (Record.field record "day_of_year") ++ "-"
    ++ textOf render (Record.field record "hour")

/-- The function `indexByHour(data)`. The `Map` it returns is the list of its entries in
insertion order; `Obj.getOwn` is `Map.prototype.get` and the number of keys is `size`. -/
def indexByHour (render : JSVal → String) (data : List Record) : Obj Record :=
  data.foldl (fun index record => Obj.setProp index (hourKey render record) record) []

/-- The pair of values `indexByHour` builds its key from. -/
def hourPair (record : Record) : JSVal × JSVal :=
  (Record.field record "day_of_year", Record.field record "hour")

/-- A rendering of values as text that writes a non-negative integer in decimal. -/
def sampleRender : JSVal → String
  | JSVal.num (JSNum.fin q) => toString q.num.toNat
  | _ => "NaN"

/-- The number a list of decimal digit characters writes. -/
def decodeDigits (cs : List Char) : Nat :=
  cs.foldl (fun acc ch => 10 * acc + (ch.toNat - 48)) 0

/-! ## Sample inputs -/

/-- A dataset row that carries only its hour. -/
def sampleRow (h : Nat) : Record := [("hour", JSVal.num (JSNum.ofNat h))]

/-- A dataset map with sequences of length 3, 2 and 0. -/
def sampleFarmsData : Obj (Option (List Record)) :=
  [("provence", some [sampleRow 0, sampleRow 1, sampleRow 2]),
   ("occitanie", some [sampleRow 0, sampleRow 1]),
   ("aquitaine", some [])]

/-- A clock reading: 12:00 on the 100th day of a year starting at time 0. -/
def sampleClock : Clock := { now := 8683200000, hours := 12, yearStart := 0 }

/-- A later clock reading. -/
def laterClock : Clock := { now := 8686800000, hours := 13, yearStart := 0 }

/-- The engine built on the sample map. -/
def samplePlayer : DataPlayer := DataPlayer.new sampleFarmsData 0

/-- A record of a four-inverter installation whose third inverter is down. -/
def sampleInverterRecord : Record :=
  [("inverter_1_status", JSVal.num (JSNum.ofNat 1)),
   ("inverter_2_status", JSVal.num (JSNum.ofNat 1)),
   ("inverter_3_status", JSVal.num (JSNum.ofNat 0)),
   ("inverter_4_status", JSVal.num (JSNum.ofNat 1)),
   ("anomaly_type", JSVal.str "OVERHEAT"),
   ("anomaly_severity", JSVal.str "high")]

/-- The record of the test on missing data: only the name and the power are present. -/
def incompleteRecord : Record :=
  [("farm_name", JSVal.str "occitanie"), ("power_production_kw", JSVal.num (JSNum.ofNat 1000))]

/-- A record with an unparseable power cell and an unparseable status cell, as `loadCSV` casts
them: the text itself for the former, `parseInt`'s `NaN` for the latter. -/
def malformedRecord : Record :=
  [("power_production_kw", JSVal.str "abc"), ("inverter_1_status", JSVal.num JSNum.nan)]

/-- The dataset an installation ends up with: the rows of a load that succeeded, no row for a
load that failed. -/
def rowsOrEmpty : Except String (List Record) → List Record
  | Except.ok records => records
  | Except.error _ => []

/-- A rendering of values as text that writes an integer in decimal, with its sign, as
JavaScript does. -/
def decimalRender : JSVal → String
  | JSVal.num (JSNum.fin q) => toString q.num
  | JSVal.num JSNum.nan => "NaN"
  | JSVal.undefined => "undefined"
  | _ => "?"

/-- A well-typed record of the three-inverter installation: inverters 1 and 2 run, inverter 3
is down. -/
def occitanieRecord : Record :=
  [("power_production_kw", JSVal.num (JSNum.ofNat 800)),
   ("inverter_1_status", JSVal.num (JSNum.ofNat 1)),
   ("inverter_2_status", JSVal.num (JSNum.ofNat 1)),
   ("inverter_3_status", JSVal.num (JSNum.ofNat 0)),
   ("anomaly_type", JSVal.str "INVERTER_DOWN"),
   ("anomaly_severity", JSVal.str "medium")]

/-- A well-typed record of the three-inverter installation in which only inverter 1 runs. -/
def oneOfThreeRecord : Record :=
  [("inverter_1_status", JSVal.num (JSNum.ofNat 1)),
   ("inverter_2_status", JSVal.num (JSNum.ofNat 0)),
   ("inverter_3_status", JSVal.num (JSNum.ofNat 0))]

/-- A record whose power cell is an unparseable text, which `loadCSV` leaves as it is, and
whose four statuses are numbers. -/
def unparsedPowerRecord : Record :=
  [("power_production_kw", JSVal.str "abc"),
   ("inverter_1_status", JSVal.num (JSNum.ofNat 1)),
   ("inverter_2_status", JSVal.num (JSNum.ofNat 1)),
   ("inverter_3_status", JSVal.num (JSNum.ofNat 0)),
   ("inverter_4_status", JSVal.num (JSNum.ofNat 1))]

/-- A record of the three-inverter installation with the statuses 1 and 2 present, the status
3 absent and a status 4, which the installation does not have. -/
def partialStatusRecord : Record :=
  [("inverter_1_status", JSVal.num (JSNum.ofNat 1)),
   ("inverter_2_status", JSVal.num (JSNum.ofNat 0)),
   ("inverter_4_status", JSVal.num (JSNum.ofNat 0))]

/-- The records of the test of `indexByHour`. -/
def hourlyRecords : List Record :=
  [[("day_of_year", JSVal.num (JSNum.ofNat 152)), ("hour", JSVal.num (JSNum.ofNat 10)),
    ("value", JSVal.num (JSNum.ofNat 100))],
   [("day_of_year", JSVal.num (JSNum.ofNat 152)), ("hour", JSVal.num (JSNum.ofNat 11)),
    ("value", JSVal.num (JSNum.ofNat 200))],
   [("day_of_year", JSVal.num (JSNum.ofNat 153)), ("hour", JSVal.num (JSNum.ofNat 10)),
    ("value", JSVal.num (JSNum.ofNat 150))]]

/-- The dataset map of the test of `getDatasetStats`. -/
def statsData : Obj (List Record) :=
  [("provence",
    [[("anomaly_type", JSVal.str "NORMAL"),
      ("timestamp", JSVal.date (JSNum.ofNat 1748736000000))],
     [("anomaly_type", JSVal.str "OVERHEAT"),
      ("timestamp", JSVal.date (JSNum.ofNat 1749945600000))],
     [("anomaly_type", JSVal.str "NORMAL"),
      ("timestamp", JSVal.date (JSNum.ofNat 1751241600000))]]),
   ("occitanie",
    [[("anomaly_type", JSVal.str "NORMAL"),
      ("timestamp", JSVal.date (JSNum.ofNat 1749513600000))]])]

/-- A dataset map with one record whose anomaly kind is the number `0` and one whose anomaly
kind is the empty text. -/
def falsyKindData : Obj (List Record) :=
  [("provence",
    [[("anomaly_type", JSVal.num (JSNum.ofNat 0))], [("anomaly_type", JSVal.str "")]])]

/-- A dataset map with one record whose anomaly kind is the text `constructor`. -/
def inheritedKindData : Obj (List Record) :=
  [("provence", [[("anomaly_type", JSVal.str "constructor")]])]


/-! ## Properties of objects -/

section ObjLemmas

variable {α : Type}

theorem Obj.getOwn_setProp_self (o : Obj α) (k : String) (v : α) :
    Obj.getOwn (Obj.setProp o k v) k = some v := by
  induction o with
  | nil => simp [Obj.setProp, Obj.getOwn]
  | cons hd tl ih =>
    obtain ⟨k', v'⟩ := hd
    by_cases h : k' = k
    · simp [Obj.setProp, Obj.getOwn, h]
    · simp [Obj.setProp, Obj.getOwn, h, ih]

theorem Obj.getOwn_setProp_ne (o : Obj α) (k k' : String) (v : α) (h : k' ≠ k) :
    Obj.getOwn (Obj.setProp o k v) k' = Obj.getOwn o k' := by
  induction o with
  | nil => simp [Obj.setProp, Obj.getOwn, Ne.symm h]
  | cons hd tl ih =>
    obtain ⟨k₀, v₀⟩ := hd
    by_cases h₀ : k₀ = k
    · subst h₀
      simp [Obj.setProp, Obj.getOwn, Ne.symm h]
    · by_cases h₁ : k₀ = k'
      · subst h₁
        simp [Obj.setProp, Obj.getOwn, h₀]
      · simp [Obj.setProp, Obj.getOwn, h₀, h₁, ih]

theorem Obj.getProp_setProp_self (o : Obj α) (k : String) (v : α) :
    Obj.getProp (Obj.setProp o k v) k = Lookup.own v := by
  simp [Obj.getProp, Obj.getOwn_setProp_self]

theorem Obj.getProp_setProp_ne (o : Obj α) (k k' : String) (v : α) (h : k' ≠ k) :
    Obj.getProp (Obj.setProp o k v) k' = Obj.getProp o k' := by
  simp [Obj.getProp, Obj.getOwn_setProp_ne o k k' v h]

theorem Obj.mem_keys_of_getOwn (o : Obj α) (k : String) (v : α)
    (h : Obj.getOwn o k = some v) : k ∈ Obj.keys o := by
  induction o with
  | nil => simp [Obj.getOwn] at h
  | cons hd tl ih =>
    obtain ⟨k', v'⟩ := hd
    by_cases hk : k' = k
    · simp [Obj.keys, hk]
    · simp only [Obj.getOwn, hk, if_false] at h
      have := ih h
      simp only [Obj.keys, List.mem_dedup, List.map_cons, List.mem_cons] at this ⊢
      exact Or.inr this

theorem Obj.mem_keys_of_getProp (o : Obj α) (k : String) (v : α)
    (h : Obj.getProp o k = Lookup.own v) : k ∈ Obj.keys o := by
  unfold Obj.getProp at h
  cases hg : Obj.getOwn o k with
  | none =>
    rw [hg] at h
    by_cases hk : k ∈ objectPrototypeKeys <;> simp [hk] at h
  | some w => exact Obj.mem_keys_of_getOwn o k w hg

theorem Obj.keys_nodup (o : Obj α) : (Obj.keys o).Nodup := List.nodup_dedup _

/-- A loop over keys that only writes the key it visits leaves the other keys alone. -/
theorem Obj.foldl_getProp_of_not_mem (step : Obj α → String → Obj α)
    (hne : ∀ o k k', k' ≠ k → Obj.getProp (step o k) k' = Obj.getProp o k')
    (ks : List String) (o : Obj α) (farm : String) (hfarm : farm ∉ ks) :
    Obj.getProp (ks.foldl step o) farm = Obj.getProp o farm := by
  induction ks generalizing o with
  | nil => rfl
  | cons k ks ih =>
    simp only [List.mem_cons, not_or] at hfarm
    rw [List.foldl_cons, ih _ hfarm.2, hne o k farm hfarm.1]

/-- A loop over distinct keys whose body reads and writes only the key it visits: the final value
at a visited key is the one its own iteration writes. -/
theorem Obj.foldl_getProp_of_mem (step : Obj α → String → Obj α)
    (hne : ∀ o k k', k' ≠ k → Obj.getProp (step o k) k' = Obj.getProp o k')
    (hloc : ∀ o o' k, Obj.getProp o k = Obj.getProp o' k →
      Obj.getProp (step o k) k = Obj.getProp (step o' k) k)
    (ks : List String) (hks : ks.Nodup) (o : Obj α) (farm : String) (hfarm : farm ∈ ks) :
    Obj.getProp (ks.foldl step o) farm = Obj.getProp (step o farm) farm := by
  induction ks generalizing o with
  | nil => simp at hfarm
  | cons k ks ih =>
    rw [List.nodup_cons] at hks
    rw [List.foldl_cons]
    by_cases hk : farm = k
    · subst hk
      exact Obj.foldl_getProp_of_not_mem step hne ks _ farm hks.1
    · have hmem : farm ∈ ks := by
        rcases List.mem_cons.mp hfarm with h | h
        · exact absurd h hk
        · exact h
      rw [ih hks.2 _ hmem]
      exact hloc _ _ _ (hne o k farm hk)

end ObjLemmas

/-! ## Properties of number operations -/

theorem JSNum.mod_ofNat (a len : Nat) (hlen : 0 < len) :
    JSNum.mod (JSNum.ofNat a) (JSNum.ofNat len) = JSNum.ofNat (a % len) := by
  have hq : (len : ℚ) ≠ 0 := by exact_mod_cast hlen.ne'
  have hnn : (0 : ℚ) ≤ (a : ℚ) / (len : ℚ) := by positivity
  simp only [JSNum.mod, JSNum.ofNat, hq, if_false, JSNum.trunc, hnn, if_true,
    Rat.floor_natCast_div_natCast]
  congr 1
  have h := Nat.mod_add_div a len
  have h' : ((a % len : ℕ) : ℚ) + (len : ℚ) * ((a / len : ℕ) : ℚ) = (a : ℚ) := by
    exact_mod_cast h
  have e : (((a : ℤ) / (len : ℤ) : ℤ) : ℚ) = ((a / len : ℕ) : ℚ) := by norm_cast
  rw [e]
  linarith

theorem JSNum.add_ofNat (a b : Nat) :
    JSNum.add (JSNum.ofNat a) (JSNum.ofNat b) = JSNum.ofNat (a + b) := by
  simp [JSNum.add, JSNum.ofNat]

theorem arrayGet_of_not_natural (data : List Record) (q : ℚ) (h : ∀ k : ℕ, q ≠ (k : ℚ)) :
    arrayGet data (JSNum.fin q) = Cell.undefined := by
  simp only [arrayGet]
  split_ifs with hc
  · exfalso
    obtain ⟨h0, hden⟩ := hc
    have hq : ((q.num : ℤ) : ℚ) = q := (Rat.den_eq_one_iff q).mp hden
    have hnum : 0 ≤ q.num := Rat.num_nonneg.mpr h0
    apply h q.num.toNat
    have : ((q.num.toNat : ℤ) : ℚ) = q := by rw [Int.toNat_of_nonneg hnum]; exact hq
    rw [← this]
    norm_cast
  · rfl

theorem half_ne_natural (k : ℕ) : (1 / 2 : ℚ) ≠ (k : ℚ) := by
  intro hk
  have h1 : (1 : ℚ) = 2 * (k : ℚ) := by linarith
  have h2 : (1 : ℕ) = 2 * k := by exact_mod_cast h1
  omega

/-! ## The cursor loops of the replay engine -/

theorem DataPlayer.advanceStep_ne (p : DataPlayer) (o : Obj JSNum) (k k' : String) (h : k' ≠ k) :
    Obj.getProp (DataPlayer.advanceStep p o k) k' = Obj.getProp o k' := by
  unfold DataPlayer.advanceStep
  split
  · exact Obj.getProp_setProp_ne _ _ _ _ h
  · rfl

theorem DataPlayer.advanceStep_loc (p : DataPlayer) (o o' : Obj JSNum) (k : String)
    (h : Obj.getProp o k = Obj.getProp o' k) :
    Obj.getProp (DataPlayer.advanceStep p o k) k
      = Obj.getProp (DataPlayer.advanceStep p o' k) k := by
  unfold DataPlayer.advanceStep
  split
  · rw [Obj.getProp_setProp_self, Obj.getProp_setProp_self, h]
  · exact h

theorem DataPlayer.jumpStep_ne (p : DataPlayer) (i : JSNum) (o : Obj JSNum) (k k' : String)
    (h : k' ≠ k) :
    Obj.getProp (DataPlayer.jumpStep p i o k) k' = Obj.getProp o k' := by
  unfold DataPlayer.jumpStep
  split
  · exact Obj.getProp_setProp_ne _ _ _ _ h
  · rfl

theorem DataPlayer.jumpStep_loc (p : DataPlayer) (i : JSNum) (o o' : Obj JSNum) (k : String)
    (h : Obj.getProp o k = Obj.getProp o' k) :
    Obj.getProp (DataPlayer.jumpStep p i o k) k
      = Obj.getProp (DataPlayer.jumpStep p i o' k) k := by
  unfold DataPlayer.jumpStep
  split
  · rw [Obj.getProp_setProp_self, Obj.getProp_setProp_self]
  · exact h

theorem DataPlayer.updateCurrentDataStep_ne (p : DataPlayer) (clock : Clock) (o : Obj Cell)
    (k k' : String) (h : k' ≠ k) :
    Obj.getProp (DataPlayer.updateCurrentDataStep p clock o k) k' = Obj.getProp o k' := by
  unfold DataPlayer.updateCurrentDataStep
  split <;> exact Obj.getProp_setProp_ne _ _ _ _ h

theorem DataPlayer.updateCurrentDataStep_loc (p : DataPlayer) (clock : Clock) (o o' : Obj Cell)
    (k : String) (_h : Obj.getProp o k = Obj.getProp o' k) :
    Obj.getProp (DataPlayer.updateCurrentDataStep p clock o k) k
      = Obj.getProp (DataPlayer.updateCurrentDataStep p clock o' k) k := by
  unfold DataPlayer.updateCurrentDataStep
  split <;> rw [Obj.getProp_setProp_self, Obj.getProp_setProp_self]

/-- One call of `advanceToNext` on an installation with a non-empty dataset. -/
theorem DataPlayer.advanceToNext_cursor (p : DataPlayer) (clock : Clock) (farm : String)
    (r : Record) (rs : List Record)
    (hdata : Obj.getProp p.farmsData farm = Lookup.own (some (r :: rs))) :
    Obj.getProp (DataPlayer.advanceToNext p clock).currentIndex farm
      = Lookup.own (nextIndex (Obj.getProp p.currentIndex farm) (r :: rs).length) := by
  have hmem := Obj.mem_keys_of_getProp _ _ _ hdata
  show Obj.getProp ((Obj.keys p.farmsData).foldl (DataPlayer.advanceStep p) p.currentIndex) farm
      = _
  rw [Obj.foldl_getProp_of_mem _ (DataPlayer.advanceStep_ne p) (DataPlayer.advanceStep_loc p)
    _ (Obj.keys_nodup _) _ _ hmem]
  simp only [DataPlayer.advanceStep, hdata, Obj.getProp_setProp_self]

/-- One call of `jumpToIndex` on an installation with a non-empty dataset. -/
theorem DataPlayer.jumpToIndex_cursor (p : DataPlayer) (i : JSNum) (clock : Clock)
    (farm : String) (r : Record) (rs : List Record)
    (hdata : Obj.getProp p.farmsData farm = Lookup.own (some (r :: rs))) :
    Obj.getProp (DataPlayer.jumpToIndex p i clock).currentIndex farm
      = Lookup.own (JSNum.max (JSNum.ofNat 0)
          (JSNum.min i (JSNum.ofNat ((r :: rs).length - 1)))) := by
  have hmem := Obj.mem_keys_of_getProp _ _ _ hdata
  show Obj.getProp ((Obj.keys p.farmsData).foldl (DataPlayer.jumpStep p i) p.currentIndex) farm
      = _
  rw [Obj.foldl_getProp_of_mem _ (DataPlayer.jumpStep_ne p i) (DataPlayer.jumpStep_loc p i)
    _ (Obj.keys_nodup _) _ _ hmem]
  simp only [DataPlayer.jumpStep, hdata, Obj.getProp_setProp_self]

/-- A loop of `jumpToIndex` or `advanceToNext` leaves the cursor of an installation without
data where it was. -/
theorem DataPlayer.jumpToIndex_cursor_of_empty (p : DataPlayer) (i : JSNum) (clock : Clock)
    (farm : String)
    (hdata : ∀ r rs, Obj.getProp p.farmsData farm ≠ Lookup.own (some (r :: rs))) :
    Obj.getProp (DataPlayer.jumpToIndex p i clock).currentIndex farm
      = Obj.getProp p.currentIndex farm := by
  show Obj.getProp ((Obj.keys p.farmsData).foldl (DataPlayer.jumpStep p i) p.currentIndex) farm
      = _
  by_cases hmem : farm ∈ Obj.keys p.farmsData
  · rw [Obj.foldl_getProp_of_mem _ (DataPlayer.jumpStep_ne p i) (DataPlayer.jumpStep_loc p i)
      _ (Obj.keys_nodup _) _ _ hmem]
    unfold DataPlayer.jumpStep
    split
    · rename_i r rs h
      exact absurd h (hdata r rs)
    · rfl
  · exact Obj.foldl_getProp_of_not_mem _ (DataPlayer.jumpStep_ne p i) _ _ _ hmem

/-- What `updateCurrentData` stores for a key of the dataset map. -/
theorem DataPlayer.updateCurrentData_cell (p : DataPlayer) (clock : Clock) (farm : String)
    (hmem : farm ∈ Obj.keys p.farmsData) :
    Obj.getProp (DataPlayer.updateCurrentData p clock).currentData farm
      = Obj.getProp (DataPlayer.updateCurrentDataStep p clock p.currentData farm) farm := by
  show Obj.getProp ((Obj.keys p.farmsData).foldl (DataPlayer.updateCurrentDataStep p clock)
      p.currentData) farm = _
  exact Obj.foldl_getProp_of_mem _ (DataPlayer.updateCurrentDataStep_ne p clock)
    (DataPlayer.updateCurrentDataStep_loc p clock) _ (Obj.keys_nodup _) _ _ hmem

/-- What `updateCurrentData` stores for a key whose dataset is empty or falsy. -/
theorem DataPlayer.updateCurrentData_of_empty (p : DataPlayer) (clock : Clock) (farm : String)
    (d : Option (List Record)) (hd : Obj.getProp p.farmsData farm = Lookup.own d)
    (hempty : d = none ∨ d = some []) :
    Obj.getProp (DataPlayer.updateCurrentData p clock).currentData farm
      = Lookup.own (Cell.record (getDefaultData farm clock)) := by
  rw [DataPlayer.updateCurrentData_cell p clock farm (Obj.mem_keys_of_getProp _ _ _ hd)]
  unfold DataPlayer.updateCurrentDataStep
  simp only [hd]
  rcases hempty with h | h <;> simp [h, Obj.getProp_setProp_self]


/-! ## Rounding to the nearest double -/

section Rounding

open JSNum

theorem roundHalfEven_sub_le (q : ℚ) : |(roundHalfEven q : ℚ) - q| ≤ 1 / 2 := by
  have h1 := Int.floor_le q
  have h2 := Int.lt_floor_add_one q
  unfold roundHalfEven
  split_ifs with ha hb hc
  · rw [abs_le]; constructor <;> linarith
  · rw [abs_le]; push_cast; constructor <;> linarith
  · rw [abs_le]; constructor <;> linarith
  · rw [abs_le]; push_cast; constructor <;> linarith

theorem roundHalfEven_eq_of_abs_lt (q : ℚ) (m : ℤ) (h : |q - m| < 1 / 2) :
    roundHalfEven q = m := by
  have h1 := roundHalfEven_sub_le q
  rw [abs_le] at h1
  rw [abs_lt] at h
  have h2 : ((roundHalfEven q - m : ℤ) : ℚ) < 1 := by push_cast; linarith
  have h3 : (-1 : ℚ) < ((roundHalfEven q - m : ℤ) : ℚ) := by push_cast; linarith
  have h4 : roundHalfEven q - m < 1 := by exact_mod_cast h2
  have h5 : -1 < roundHalfEven q - m := by exact_mod_cast h3
  omega

theorem roundHalfEven_intCast (m : ℤ) : roundHalfEven (m : ℚ) = m :=
  roundHalfEven_eq_of_abs_lt _ m (by simp)

theorem roundHalfEven_mono {x y : ℚ} (h : x ≤ y) : roundHalfEven x ≤ roundHalfEven y := by
  have hf : ⌊x⌋ ≤ ⌊y⌋ := Int.floor_le_floor h
  have hx1 := Int.floor_le x
  have hx2 := Int.lt_floor_add_one x
  have hy1 := Int.floor_le y
  have hy2 := Int.lt_floor_add_one y
  rcases hf.lt_or_eq with hlt | heq
  · have hxle : roundHalfEven x ≤ ⌊x⌋ + 1 := by
      unfold roundHalfEven; split_ifs <;> omega
    have hyge : ⌊y⌋ ≤ roundHalfEven y := by
      unfold roundHalfEven; split_ifs <;> omega
    omega
  · unfold roundHalfEven
    rw [← heq]
    have hq : (⌊y⌋ : ℚ) = ⌊x⌋ := by rw [heq]
    split_ifs <;> first | omega | (exfalso; linarith)

theorem binade_ge (x : ℚ) : -1022 ≤ binade x := le_max_right _ _

theorem ulp_pos (x : ℚ) : 0 < ulp x := by
  unfold ulp; positivity

theorem log_two_eq {y : ℚ} {e : ℤ} (hlo : (2 : ℚ) ^ e ≤ y) (hhi : y < (2 : ℚ) ^ (e + 1)) :
    Int.log 2 y = e := by
  have hy : 0 < y := lt_of_lt_of_le (by positivity) hlo
  have h1 : e ≤ Int.log 2 y := by
    rw [← Int.zpow_le_iff_le_log (by norm_num) hy]; simpa using hlo
  have h2 : Int.log 2 y < e + 1 := by
    rw [← Int.lt_zpow_iff_log_lt (by norm_num) hy]; simpa using hhi
  omega

theorem binade_eq {x : ℚ} {e : ℤ} (he : -1022 ≤ e) (hlo : (2 : ℚ) ^ e ≤ |x|)
    (hhi : |x| < (2 : ℚ) ^ (e + 1)) : binade x = e := by
  unfold binade
  rw [log_two_eq hlo hhi]
  exact max_eq_left he

theorem binade_of_small {x : ℚ} (hx : x ≠ 0) (h : |x| < (2 : ℚ) ^ (-1021 : ℤ)) :
    binade x = -1022 := by
  unfold binade
  apply max_eq_right
  have hpos : 0 < |x| := abs_pos.mpr hx
  have : Int.log 2 |x| < -1021 := by
    rw [← Int.lt_zpow_iff_log_lt (by norm_num) hpos]; simpa using h
  omega

theorem binade_mono {x y : ℚ} (hx : 0 < |x|) (h : |x| ≤ |y|) : binade x ≤ binade y := by
  unfold binade
  exact max_le_max (Int.log_mono_right hx h) le_rfl

/-- Below the end of its binade. -/
theorem abs_lt_zpow_binade (x : ℚ) : |x| < (2 : ℚ) ^ (binade x + 1) := by
  have h := Int.lt_zpow_succ_log_self (b := 2) (by norm_num) |x|
  have h' : |x| < (2 : ℚ) ^ (Int.log 2 |x| + 1) := by simpa using h
  refine lt_of_lt_of_le h' ?_
  apply zpow_le_zpow_right₀ (by norm_num)
  have := le_max_left (Int.log 2 |x|) (-1022)
  unfold binade; omega

/-- Above the start of its binade, when it is not the subnormal one. -/
theorem zpow_binade_le_abs {x : ℚ} (hx : x ≠ 0) (h : -1022 < binade x) :
    (2 : ℚ) ^ binade x ≤ |x| := by
  unfold binade at h ⊢
  have hlog : (-1022 : ℤ) < Int.log 2 |x| := by
    rcases le_total (Int.log 2 |x|) (-1022) with h1 | h1
    · rw [max_eq_right h1] at h; exact absurd h (lt_irrefl _)
    · rw [max_eq_left h1] at h; exact h
  rw [max_eq_left hlog.le]
  have hpos : 0 < |x| := abs_pos.mpr hx
  have := Int.zpow_log_le_self (b := 2) (by norm_num) hpos
  simpa using this

theorem ulp_mul_two_pow (x : ℚ) (k : ℕ) :
    ((2 ^ k : ℤ) : ℚ) * ulp x = (2 : ℚ) ^ (binade x - 52 + k) := by
  unfold ulp
  rw [zpow_add₀ (by norm_num : (2 : ℚ) ≠ 0), zpow_natCast]
  push_cast
  ring

theorem roundMagnitude_zero : roundMagnitude 0 = 0 := by
  simp [roundMagnitude, roundHalfEven]

theorem roundMagnitude_nonneg {y : ℚ} (hy : 0 ≤ y) : 0 ≤ roundMagnitude y := by
  unfold roundMagnitude
  apply mul_nonneg _ (ulp_pos y).le
  have : roundHalfEven 0 ≤ roundHalfEven (y / ulp y) :=
    roundHalfEven_mono (div_nonneg hy (ulp_pos y).le)
  have h0 : roundHalfEven 0 = 0 := by simpa using roundHalfEven_intCast 0
  rw [h0] at this
  exact_mod_cast this

theorem roundMagnitude_mono {x y : ℚ} (hx : 0 ≤ x) (h : x ≤ y) :
    roundMagnitude x ≤ roundMagnitude y := by
  rcases hx.eq_or_lt with h0 | hpos
  · rw [← h0, roundMagnitude_zero]; exact roundMagnitude_nonneg (h0 ▸ h)
  have hy : 0 < y := lt_of_lt_of_le hpos h
  have hb : binade x ≤ binade y :=
    binade_mono (by rwa [abs_of_pos hpos]) (by rwa [abs_of_pos hpos, abs_of_pos hy])
  rcases hb.lt_or_eq with hlt | heq
  · -- different binades
    have hx1 : x < (2 : ℚ) ^ (binade x + 1) := by
      have := abs_lt_zpow_binade x; rwa [abs_of_pos hpos] at this
    have hy1 : (2 : ℚ) ^ binade y ≤ y := by
      have := zpow_binade_le_abs hy.ne' (lt_of_le_of_lt (binade_ge x) hlt)
      rwa [abs_of_pos hy] at this
    have hmid : (2 : ℚ) ^ (binade x + 1) ≤ (2 : ℚ) ^ binade y :=
      zpow_le_zpow_right₀ (by norm_num) (by omega)
    have e53 : ((2 ^ 53 : ℤ) : ℚ) * ulp x = (2 : ℚ) ^ (binade x + 1) := by
      rw [ulp_mul_two_pow]; congr 1; push_cast; ring
    have e52 : ((2 ^ 52 : ℤ) : ℚ) * ulp y = (2 : ℚ) ^ binade y := by
      rw [ulp_mul_two_pow]; congr 1; push_cast; ring
    have hxr : roundMagnitude x ≤ (2 : ℚ) ^ (binade x + 1) := by
      unfold roundMagnitude
      have hq : x / ulp x ≤ ((2 ^ 53 : ℤ) : ℚ) := by
        rw [div_le_iff₀ (ulp_pos x), e53]; exact hx1.le
      have := roundHalfEven_mono hq
      rw [roundHalfEven_intCast] at this
      have h2 : ((roundHalfEven (x / ulp x) : ℤ) : ℚ) ≤ ((2 ^ 53 : ℤ) : ℚ) := by
        exact_mod_cast this
      calc (roundHalfEven (x / ulp x) : ℚ) * ulp x ≤ ((2 ^ 53 : ℤ) : ℚ) * ulp x :=
            mul_le_mul_of_nonneg_right h2 (ulp_pos x).le
        _ = (2 : ℚ) ^ (binade x + 1) := e53
    have hyr : (2 : ℚ) ^ binade y ≤ roundMagnitude y := by
      unfold roundMagnitude
      have hq : ((2 ^ 52 : ℤ) : ℚ) ≤ y / ulp y := by
        rw [le_div_iff₀ (ulp_pos y), e52]; exact hy1
      have := roundHalfEven_mono hq
      rw [roundHalfEven_intCast] at this
      have h2 : ((2 ^ 52 : ℤ) : ℚ) ≤ ((roundHalfEven (y / ulp y) : ℤ) : ℚ) := by
        exact_mod_cast this
      calc (2 : ℚ) ^ binade y = ((2 ^ 52 : ℤ) : ℚ) * ulp y := e52.symm
        _ ≤ (roundHalfEven (y / ulp y) : ℚ) * ulp y :=
            mul_le_mul_of_nonneg_right h2 (ulp_pos y).le
    linarith
  · -- same binade
    have hu : ulp x = ulp y := by unfold ulp; rw [heq]
    unfold roundMagnitude
    rw [hu]
    apply mul_le_mul_of_nonneg_right _ (ulp_pos y).le
    have := roundHalfEven_mono (div_le_div_of_nonneg_right h (ulp_pos y).le)
    exact_mod_cast this

theorem roundQ_mono {x y : ℚ} (h : x ≤ y) : roundQ x ≤ roundQ y := by
  unfold roundQ
  by_cases hx : 0 ≤ x
  · have hy : 0 ≤ y := le_trans hx h
    rw [if_pos hx, if_pos hy]
    exact roundMagnitude_mono hx h
  · rw [if_neg hx]
    push_neg at hx
    by_cases hy : 0 ≤ y
    · rw [if_pos hy]
      have h1 := roundMagnitude_nonneg (y := -x) (by linarith)
      have h2 := roundMagnitude_nonneg hy
      linarith
    · rw [if_neg hy]
      push_neg at hy
      have := roundMagnitude_mono (x := -y) (y := -x) (by linarith) (by linarith)
      linarith

theorem roundQ_of_nonneg {x : ℚ} (h : 0 ≤ x) : roundQ x = roundMagnitude x := by
  simp [roundQ, h]

theorem roundQ_neg (x : ℚ) : roundQ (-x) = -roundQ x := by
  unfold roundQ
  rcases lt_trichotomy x 0 with h | h | h
  · have h1 : 0 ≤ -x := by linarith
    have h2 : ¬ (0 ≤ x) := by linarith
    simp [h1, h2]
  · subst h; simp [roundMagnitude_zero]
  · have h1 : ¬ (0 ≤ -x) := by linarith
    have h2 : 0 ≤ x := by linarith
    simp [h1, h2]

theorem roundQ_zero : roundQ 0 = 0 := by
  simp [roundQ, roundMagnitude_zero]

theorem roundQ_nonneg {x : ℚ} (h : 0 ≤ x) : 0 ≤ roundQ x := by
  rw [roundQ_of_nonneg h]; exact roundMagnitude_nonneg h

/-- Evaluation of a rounding: the binade `e` of `y` and the integer `m` nearest to
`y / 2 ^ (e - 52)`. -/
theorem roundQ_eval {y : ℚ} (e m : ℤ) (he : -1022 ≤ e) (hlo : (2 : ℚ) ^ e ≤ y)
    (hhi : y < (2 : ℚ) ^ (e + 1)) (hm : |y / (2 : ℚ) ^ (e - 52) - m| < 1 / 2) :
    roundQ y = (m : ℚ) * (2 : ℚ) ^ (e - 52) := by
  have hy : 0 < y := lt_of_lt_of_le (by positivity) hlo
  have hb : binade y = e := binade_eq he (by rwa [abs_of_pos hy]) (by rwa [abs_of_pos hy])
  rw [roundQ_of_nonneg hy.le]
  unfold roundMagnitude ulp
  rw [hb, roundHalfEven_eq_of_abs_lt _ m hm]

/-- A value with at most 53 significant bits in the normal range is its own rounding. -/
theorem roundQ_exact {y : ℚ} (e m : ℤ) (he : -1022 ≤ e) (hlo : (2 : ℚ) ^ e ≤ y)
    (hhi : y < (2 : ℚ) ^ (e + 1)) (hy : y = (m : ℚ) * (2 : ℚ) ^ (e - 52)) :
    roundQ y = y := by
  rw [roundQ_eval e m he hlo hhi, ← hy]
  have hp : (0 : ℚ) < (2 : ℚ) ^ (e - 52) := by positivity
  rw [hy, mul_div_assoc, div_self hp.ne']
  simp

theorem roundQ_two_zpow (k : ℤ) (hk : -1022 ≤ k) : roundQ ((2 : ℚ) ^ k) = (2 : ℚ) ^ k := by
  apply roundQ_exact k (2 ^ 52) hk le_rfl
  · exact zpow_lt_zpow_right₀ (by norm_num) (by omega)
  · have h52 : ((2 ^ 52 : ℤ) : ℚ) = (2 : ℚ) ^ (52 : ℤ) := by norm_num
    rw [h52, ← zpow_add₀ (by norm_num)]
    congr 1; ring

theorem roundQ_le_two_zpow {x : ℚ} (k : ℤ) (hk : -1022 ≤ k) (h : x ≤ (2 : ℚ) ^ k) :
    roundQ x ≤ (2 : ℚ) ^ k := by
  have := roundQ_mono h
  rwa [roundQ_two_zpow k hk] at this

theorem two_zpow_le_roundQ {x : ℚ} (k : ℤ) (hk : -1022 ≤ k) (h : (2 : ℚ) ^ k ≤ x) :
    (2 : ℚ) ^ k ≤ roundQ x := by
  have := roundQ_mono h
  rwa [roundQ_two_zpow k hk] at this

theorem abs_roundQ_le_two_zpow {x : ℚ} (k : ℤ) (hk : -1022 ≤ k) (h : |x| ≤ (2 : ℚ) ^ k) :
    |roundQ x| ≤ (2 : ℚ) ^ k := by
  rw [abs_le] at h ⊢
  constructor
  · have := roundQ_le_two_zpow (x := -x) k hk (by linarith)
    rw [roundQ_neg] at this; linarith
  · exact roundQ_le_two_zpow k hk h.2

/-- In the normal range a rounding moves a value by at most the fraction `2 ^ -53` of it. -/
theorem roundQ_error {x : ℚ} (h : (2 : ℚ) ^ (-1022 : ℤ) ≤ |x|) :
    |roundQ x - x| ≤ (2 : ℚ) ^ (-53 : ℤ) * |x| := by
  have key : ∀ y : ℚ, (2 : ℚ) ^ (-1022 : ℤ) ≤ y →
      |roundMagnitude y - y| ≤ (2 : ℚ) ^ (-53 : ℤ) * y := by
    intro y hy
    have hpos : 0 < y := lt_of_lt_of_le (by positivity) hy
    have hlog : (-1022 : ℤ) ≤ Int.log 2 y := by
      rw [← Int.zpow_le_iff_le_log (by norm_num) hpos]; simpa using hy
    have hb : binade y = Int.log 2 y := by
      unfold binade; rw [abs_of_pos hpos]; exact max_eq_left hlog
    have hle : (2 : ℚ) ^ binade y ≤ y := by
      rw [hb]
      have := Int.zpow_log_le_self (b := 2) (by norm_num) hpos
      simpa using this
    have hu := ulp_pos y
    have h1 := roundHalfEven_sub_le (y / ulp y)
    have h2 : roundMagnitude y - y = ((roundHalfEven (y / ulp y) : ℚ) - y / ulp y) * ulp y := by
      unfold roundMagnitude
      field_simp
    rw [h2, abs_mul, abs_of_pos hu]
    have h3 : ulp y = (2 : ℚ) ^ (-52 : ℤ) * (2 : ℚ) ^ binade y := by
      unfold ulp
      rw [← zpow_add₀ (by norm_num)]
      congr 1; ring
    calc |(roundHalfEven (y / ulp y) : ℚ) - y / ulp y| * ulp y ≤ 1 / 2 * ulp y :=
          mul_le_mul_of_nonneg_right h1 hu.le
      _ = (2 : ℚ) ^ (-53 : ℤ) * (2 : ℚ) ^ binade y := by
          rw [h3, ← mul_assoc]
          congr 1
          norm_num
      _ ≤ (2 : ℚ) ^ (-53 : ℤ) * y := mul_le_mul_of_nonneg_left hle (by positivity)
  rcases le_or_lt 0 x with hx | hx
  · rw [abs_of_nonneg hx] at h ⊢
    rw [roundQ_of_nonneg hx]
    exact key x h
  · rw [abs_of_neg hx] at h ⊢
    have : roundQ x = -roundMagnitude (-x) := by
      unfold roundQ; rw [if_neg (by linarith)]
    rw [this]
    have := key (-x) h
    rw [show -roundMagnitude (-x) - x = -(roundMagnitude (-x) - -x) by ring, abs_neg]
    exact this

theorem round_of_lt {x : ℚ} (h : |roundQ x| < (2 : ℚ) ^ (1024 : ℕ)) :
    JSNum.round x = JSNum.fin (roundQ x) := by
  unfold JSNum.round
  rw [if_neg (not_le.mpr h)]

theorem round_eval {y : ℚ} (e m : ℤ) (he : -1022 ≤ e) (he' : e ≤ 1022)
    (hlo : (2 : ℚ) ^ e ≤ y) (hhi : y < (2 : ℚ) ^ (e + 1))
    (hm : |y / (2 : ℚ) ^ (e - 52) - m| < 1 / 2) :
    JSNum.round y = JSNum.fin ((m : ℚ) * (2 : ℚ) ^ (e - 52)) := by
  have hr := roundQ_eval e m he hlo hhi hm
  rw [round_of_lt, hr]
  have h1 : |roundQ y| ≤ (2 : ℚ) ^ (e + 1) :=
    abs_roundQ_le_two_zpow (e + 1) (by omega)
      (by rw [abs_of_pos (lt_of_lt_of_le (by positivity) hlo)]; exact hhi.le)
  have h2 : (2 : ℚ) ^ (e + 1) ≤ (2 : ℚ) ^ (1023 : ℤ) :=
    zpow_le_zpow_right₀ (by norm_num) (by omega)
  have h3 : (2 : ℚ) ^ (1023 : ℤ) < (2 : ℚ) ^ (1024 : ℕ) := by
    rw [← zpow_natCast]
    exact zpow_lt_zpow_right₀ (by norm_num) (by norm_num)
  linarith

theorem round_zero : JSNum.round 0 = JSNum.fin 0 := by
  simp [JSNum.round, roundQ_zero]

theorem round_of_abs_le {x : ℚ} (k : ℤ) (hk : -1022 ≤ k) (hk' : k ≤ 1023)
    (h : |x| ≤ (2 : ℚ) ^ k) : JSNum.round x = JSNum.fin (roundQ x) := by
  apply round_of_lt
  have h1 := abs_roundQ_le_two_zpow k hk h
  have h2 : (2 : ℚ) ^ k ≤ (2 : ℚ) ^ (1023 : ℤ) :=
    zpow_le_zpow_right₀ (by norm_num) hk'
  have h3 : (2 : ℚ) ^ (1023 : ℤ) < (2 : ℚ) ^ (1024 : ℕ) := by
    rw [← zpow_natCast]
    exact zpow_lt_zpow_right₀ (by norm_num) (by norm_num)
  linarith

theorem roundQ_eq {y v : ℚ} (e m : ℤ) (he : -1022 ≤ e) (hlo : (2 : ℚ) ^ e ≤ y)
    (hhi : y < (2 : ℚ) ^ (e + 1)) (hm : |y / (2 : ℚ) ^ (e - 52) - m| < 1 / 2)
    (hv : v = (m : ℚ) * (2 : ℚ) ^ (e - 52)) : roundQ y = v := by
  rw [hv]; exact roundQ_eval e m he hlo hhi hm

theorem round_eq {y v : ℚ} (e m : ℤ) (he : -1022 ≤ e) (he' : e ≤ 1022)
    (hlo : (2 : ℚ) ^ e ≤ y) (hhi : y < (2 : ℚ) ^ (e + 1))
    (hm : |y / (2 : ℚ) ^ (e - 52) - m| < 1 / 2)
    (hv : v = (m : ℚ) * (2 : ℚ) ^ (e - 52)) : JSNum.round y = JSNum.fin v := by
  rw [hv]; exact round_eval e m he he' hlo hhi hm

/-- In the normal range a positive value and its rounding are in the ratio `1 ± 2 ^ -53`. -/
theorem roundQ_between {x : ℚ} (h : (2 : ℚ) ^ (-1022 : ℤ) ≤ x) :
    (1 - (2 : ℚ) ^ (-53 : ℤ)) * x ≤ roundQ x ∧ roundQ x ≤ (1 + (2 : ℚ) ^ (-53 : ℤ)) * x := by
  have hx : 0 < x := lt_of_lt_of_le (by positivity) h
  have := roundQ_error (x := x) (by rwa [abs_of_pos hx])
  rw [abs_of_pos hx, abs_le] at this
  constructor <;> nlinarith [this.1, this.2]

end Rounding


/-! ## Claims -/

/-- C1. For an installation whose dataset has length `L > 0` and whose cursor is an integer
`c0` with `0 ≤ c0 < L`, after `N` consecutive calls of `advanceToNext` (one per clock reading
in `clocks`) the cursor is `(c0 + N) mod L`; with `N = L` it is `c0` again. The statement is
per installation: nothing is assumed about the other datasets of the map. -/
theorem advanceToNext_cursor_cyclic (p : DataPlayer) (farm : String) (data : List Record)
    (c0 : Nat) (clocks : List Clock)
    (hdata : Obj.getProp p.farmsData farm = Lookup.own (some data))
    (hc0 : c0 < data.length)
    (hcur : Obj.getProp p.currentIndex farm = Lookup.own (JSNum.ofNat c0)) :
    Obj.getProp (clocks.foldl DataPlayer.advanceToNext p).currentIndex farm
        = Lookup.own (JSNum.ofNat ((c0 + clocks.length) % data.length))
    ∧ (clocks.length = data.length →
        Obj.getProp (clocks.foldl DataPlayer.advanceToNext p).currentIndex farm
          = Lookup.own (JSNum.ofNat c0)) := by
  have hpos : 0 < data.length := Nat.lt_of_le_of_lt (Nat.zero_le _) hc0
  have main : ∀ (clocks : List Clock) (p : DataPlayer) (c : Nat), c < data.length →
      Obj.getProp p.farmsData farm = Lookup.own (some data) →
      Obj.getProp p.currentIndex farm = Lookup.own (JSNum.ofNat c) →
      Obj.getProp (clocks.foldl DataPlayer.advanceToNext p).currentIndex farm
        = Lookup.own (JSNum.ofNat ((c + clocks.length) % data.length)) := by
    intro clocks
    induction clocks with
    | nil =>
      intro p c hc _ hcur
      simpa [Nat.mod_eq_of_lt hc] using hcur
    | cons clock clocks ih =>
      intro p c hc hdata hcur
      rw [List.foldl_cons]
      have hstep : Obj.getProp (DataPlayer.advanceToNext p clock).currentIndex farm
          = Lookup.own (JSNum.ofNat ((c + 1) % data.length)) := by
        cases hd : data with
        | nil => rw [hd] at hpos; exact absurd hpos (Nat.lt_irrefl 0)
        | cons r rs =>
          rw [hd] at hdata
          rw [DataPlayer.advanceToNext_cursor p clock farm r rs hdata, hcur]
          simp only [nextIndex, JSNum.add_ofNat]
          rw [JSNum.mod_ofNat _ _ (List.length_pos.mpr (List.cons_ne_nil r rs))]
      have hfd : Obj.getProp (DataPlayer.advanceToNext p clock).farmsData farm
          = Lookup.own (some data) := hdata
      rw [ih (DataPlayer.advanceToNext p clock) ((c + 1) % data.length)
        (Nat.mod_lt _ hpos) hfd hstep]
      congr 2
      rw [Nat.mod_add_mod, List.length_cons]
      congr 1
      omega
  refine ⟨main clocks p c0 hc0 hdata hcur, fun hlen => ?_⟩
  rw [main clocks p c0 hc0 hdata hcur, hlen, Nat.add_mod_right, Nat.mod_eq_of_lt hc0]

theorem advanceToNext_cursor_cyclic_witness :
    (Obj.getProp (List.foldl DataPlayer.advanceToNext samplePlayer
        [sampleClock, sampleClock, laterClock, laterClock]).currentIndex "provence"
      = Lookup.own (JSNum.ofNat ((0 + 4) % 3)))
    ∧ (Obj.getProp (List.foldl DataPlayer.advanceToNext samplePlayer
        [sampleClock, sampleClock, laterClock, laterClock]).currentIndex "occitanie"
      = Lookup.own (JSNum.ofNat ((0 + 4) % 2))) :=
  ⟨(advanceToNext_cursor_cyclic samplePlayer "provence" [sampleRow 0, sampleRow 1, sampleRow 2] 0
      [sampleClock, sampleClock, laterClock, laterClock] (by decide) (by decide) (by decide)).1,
   (advanceToNext_cursor_cyclic samplePlayer "occitanie" [sampleRow 0, sampleRow 1] 0
      [sampleClock, sampleClock, laterClock, laterClock] (by decide) (by decide) (by decide)).1⟩

/-- C2. After `jumpToIndex(i)` an installation whose dataset has length `L > 0` has cursor
`max(0, min(i, L - 1))`, for every finite `i` (negative, fractional or beyond the end) and for
the two infinities, without wrapping; an installation whose dataset is empty or falsy keeps its
cursor, and `getCurrentData` returns for it the default record that the jump materialized. -/
theorem jumpToIndex_cursor_clamped (p : DataPlayer) (clock : Clock) (farm : String)
    (d : Option (List Record)) (hd : Obj.getProp p.farmsData farm = Lookup.own d) :
    (∀ data : List Record, d = some data → 0 < data.length →
      (∀ q : ℚ, Obj.getProp (DataPlayer.jumpToIndex p (JSNum.fin q) clock).currentIndex farm
          = Lookup.own (JSNum.fin (Max.max 0 (Min.min q ((data.length : ℚ) - 1)))))
      ∧ Obj.getProp (DataPlayer.jumpToIndex p JSNum.posInf clock).currentIndex farm
          = Lookup.own (JSNum.ofNat (data.length - 1))
      ∧ Obj.getProp (DataPlayer.jumpToIndex p JSNum.negInf clock).currentIndex farm
          = Lookup.own (JSNum.ofNat 0))
    ∧ ((d = none ∨ d = some []) → ∀ i : JSNum,
        Obj.getProp (DataPlayer.jumpToIndex p i clock).currentIndex farm
          = Obj.getProp p.currentIndex farm
        ∧ ∀ later : Clock, DataPlayer.getCurrentData (DataPlayer.jumpToIndex p i clock) farm later
          = Current.record (getDefaultData farm clock)) := by
  constructor
  · intro data hdata hlen
    subst hdata
    cases data with
    | nil => exact absurd hlen (Nat.lt_irrefl 0)
    | cons r rs =>
      refine ⟨fun q => ?_, ?_, ?_⟩
      · rw [DataPlayer.jumpToIndex_cursor p _ clock farm r rs hd]
        simp [JSNum.max, JSNum.min, JSNum.ofNat]
      · rw [DataPlayer.jumpToIndex_cursor p _ clock farm r rs hd]
        simp [JSNum.max, JSNum.min, JSNum.ofNat]
      · rw [DataPlayer.jumpToIndex_cursor p _ clock farm r rs hd]
        simp [JSNum.max, JSNum.min, JSNum.ofNat]
  · intro hempty i
    have hne : ∀ r rs, Obj.getProp p.farmsData farm ≠ Lookup.own (some (r :: rs)) := by
      intro r rs h
      rw [hd] at h
      rcases hempty with h' | h' <;> simp [h'] at h
    refine ⟨DataPlayer.jumpToIndex_cursor_of_empty p i clock farm hne, fun later => ?_⟩
    have hmem : farm ∈ Obj.keys p.farmsData := Obj.mem_keys_of_getProp _ _ _ hd
    have hcell : Obj.getProp (DataPlayer.jumpToIndex p i clock).currentData farm
        = Lookup.own (Cell.record (getDefaultData farm clock)) := by
      refine (DataPlayer.updateCurrentData_cell
        ⟨p.farmsData, (Obj.keys p.farmsData).foldl (DataPlayer.jumpStep p i) p.currentIndex,
          p.currentData, p.isPlaying, p.timer, p.lastUpdate, p.options⟩ clock farm hmem).trans ?_
      unfold DataPlayer.updateCurrentDataStep
      simp only [hd]
      rcases hempty with h' | h' <;> simp [h', Obj.getProp_setProp_self]
    simp [DataPlayer.getCurrentData, hcell]

theorem jumpToIndex_cursor_clamped_witness :
    (Obj.getProp (DataPlayer.jumpToIndex samplePlayer (JSNum.fin 7) sampleClock).currentIndex
        "provence" = Lookup.own (JSNum.fin (Max.max 0 (Min.min 7 (((3 : ℕ) : ℚ) - 1)))))
    ∧ (DataPlayer.getCurrentData (DataPlayer.jumpToIndex samplePlayer (JSNum.fin 7) sampleClock)
        "aquitaine" laterClock = Current.record (getDefaultData "aquitaine" sampleClock)) :=
  ⟨((jumpToIndex_cursor_clamped samplePlayer sampleClock "provence"
      (some [sampleRow 0, sampleRow 1, sampleRow 2]) (by decide)).1
        [sampleRow 0, sampleRow 1, sampleRow 2] rfl (by decide)).1 7,
   (((jumpToIndex_cursor_clamped samplePlayer sampleClock "aquitaine" (some []) (by decide)).2
      (Or.inr rfl)) (JSNum.fin 7)).2 laterClock⟩

/-- C3. The cursor invariant is broken by a jump the route accepts: `POST /control/jump` lets
the index `0.5` through, `jumpToIndex(0.5)` stores `0.5` as the cursor of a dataset of length 3,
which is no array index, and the record materialized from it is `undefined`. -/
theorem jumpToIndex_fractional_cursor :
    jumpAccepts (JSNum.fin (1 / 2)) = true
    ∧ Obj.getProp (DataPlayer.jumpToIndex samplePlayer (JSNum.fin (1 / 2)) sampleClock).currentIndex
        "provence" = Lookup.own (JSNum.fin (1 / 2))
    ∧ ¬ JSNum.isArrayIndex (JSNum.fin (1 / 2)) 3
    ∧ Obj.getProp (DataPlayer.jumpToIndex samplePlayer (JSNum.fin (1 / 2)) sampleClock).currentData
        "provence" = Lookup.own Cell.undefined := by
  have hdata : Obj.getProp samplePlayer.farmsData "provence"
      = Lookup.own (some (sampleRow 0 :: [sampleRow 1, sampleRow 2])) := by decide
  have hcur : Obj.getProp
      (DataPlayer.jumpToIndex samplePlayer (JSNum.fin (1 / 2)) sampleClock).currentIndex
        "provence" = Lookup.own (JSNum.fin (1 / 2)) := by
    rw [DataPlayer.jumpToIndex_cursor samplePlayer _ sampleClock "provence" _ _ hdata]
    norm_num [JSNum.max, JSNum.min, JSNum.ofNat]
  refine ⟨?_, hcur, ?_, ?_⟩
  · norm_num [jumpAccepts, JSNum.lt, JSNum.ofNat]
  · rintro ⟨k, _, hk⟩
    simp only [JSNum.ofNat, JSNum.fin.injEq] at hk
    exact half_ne_natural k hk
  · have hmem : "provence" ∈ Obj.keys samplePlayer.farmsData := by decide
    refine (DataPlayer.updateCurrentData_cell
      ⟨samplePlayer.farmsData,
        (Obj.keys samplePlayer.farmsData).foldl
          (DataPlayer.jumpStep samplePlayer (JSNum.fin (1 / 2))) samplePlayer.currentIndex,
        samplePlayer.currentData, samplePlayer.isPlaying, samplePlayer.timer,
        samplePlayer.lastUpdate, samplePlayer.options⟩ sampleClock "provence" hmem).trans ?_
    have hcur' : Obj.getProp
        ((Obj.keys samplePlayer.farmsData).foldl
          (DataPlayer.jumpStep samplePlayer (JSNum.fin (1 / 2))) samplePlayer.currentIndex)
        "provence" = Lookup.own (JSNum.fin (1 / 2)) := hcur
    simp only [DataPlayer.updateCurrentDataStep, hdata, hcur', indexValue,
      Obj.getProp_setProp_self]
    rw [arrayGet_of_not_natural _ _ half_ne_natural]

/-- C4. For the id `constructor`, which names a property every plain object inherits,
`getCurrentData` returns neither a materialized record nor the default record: it returns the
inherited value, whatever the dataset map, on a new engine and on a running one. -/
theorem getCurrentData_inherited_name (farmsData : Obj (Option (List Record))) (now : Nat)
    (clock : Clock) :
    DataPlayer.getCurrentData (DataPlayer.new farmsData now) "constructor" clock
      = Current.builtin "constructor"
    ∧ DataPlayer.getCurrentData
        (DataPlayer.advanceToNext (DataPlayer.start samplePlayer sampleClock) laterClock)
        "constructor" clock = Current.builtin "constructor" := by
  constructor
  · rfl
  · rfl

/-- C5. Whatever the dataset map and the engine state, `getAllCurrentData()` has exactly the
keys of `FARMS_CONFIG`, each mapped to `getCurrentData` of that key. -/
theorem getAllCurrentData_keys (p : DataPlayer) (clock : Clock) :
    DataPlayer.getAllCurrentData p clock
        = (Obj.keys FARMS_CONFIG).map (fun id => (id, DataPlayer.getCurrentData p id clock))
    ∧ Obj.keys (DataPlayer.getAllCurrentData p clock) = Obj.keys FARMS_CONFIG
    ∧ Obj.keys FARMS_CONFIG = ["provence", "occitanie", "aquitaine"] := by
  refine ⟨rfl, rfl, by decide⟩

/-- C6, as stated, fails: before the first `start()` the slot of `provence` is `null`, so each
call builds the default record from the clock, and two calls at different clock readings
return different records. -/
theorem getCurrentData_differs_with_clock :
    DataPlayer.getCurrentData samplePlayer "provence" sampleClock
      ≠ DataPlayer.getCurrentData samplePlayer "provence" laterClock := by
  intro h
  have e1 : DataPlayer.getCurrentData samplePlayer "provence" sampleClock
      = Current.record (getDefaultData "provence" sampleClock) := rfl
  have e2 : DataPlayer.getCurrentData samplePlayer "provence" laterClock
      = Current.record (getDefaultData "provence" laterClock) := rfl
  rw [e1, e2] at h
  injection h with h
  have hh := congrArg (fun r => Record.field r "hour") h
  simp [Record.field, getDefaultData, Obj.getOwn, JSNum.ofNat, sampleClock, laterClock] at hh

/-- C6 (amended). Two `getCurrentData(id)` calls on the same engine state return the same
record whenever the slot of `id` holds a materialized record; in every case the two results
agree on every field other than `timestamp`, `hour` and `day_of_year`, the three fields the
default record takes from the clock at call time. -/
theorem getCurrentData_repeatable (p : DataPlayer) (farm : String) (c1 c2 : Clock) :
    (∀ r : Record, Obj.getProp p.currentData farm = Lookup.own (Cell.record r) →
      DataPlayer.getCurrentData p farm c1 = Current.record r
      ∧ DataPlayer.getCurrentData p farm c2 = Current.record r)
    ∧ (∀ r1 r2 : Record, DataPlayer.getCurrentData p farm c1 = Current.record r1 →
        DataPlayer.getCurrentData p farm c2 = Current.record r2 →
        ∀ k : String, k ≠ "timestamp" → k ≠ "hour" → k ≠ "day_of_year" →
          Record.field r1 k = Record.field r2 k) := by
  constructor
  · intro r hr
    simp [DataPlayer.getCurrentData, hr]
  · intro r1 r2 h1 h2 k hk1 hk2 hk3
    have key : Record.field (getDefaultData farm c1) k = Record.field (getDefaultData farm c2) k := by
      simp [Record.field, getDefaultData, Obj.getOwn, Ne.symm hk1, Ne.symm hk2, Ne.symm hk3]
    unfold DataPlayer.getCurrentData at h1 h2
    cases hslot : Obj.getProp p.currentData farm with
    | own cell =>
      rw [hslot] at h1 h2
      cases cell with
      | record r =>
        simp only [Current.record.injEq] at h1 h2
        rw [← h1, ← h2]
      | null =>
        simp only [Current.record.injEq] at h1 h2
        rw [← h1, ← h2]
        exact key
      | undefined =>
        simp only [Current.record.injEq] at h1 h2
        rw [← h1, ← h2]
        exact key
    | inherited name =>
      rw [hslot] at h1
      simp at h1
    | absent =>
      rw [hslot] at h1 h2
      simp only [Current.record.injEq] at h1 h2
      rw [← h1, ← h2]
      exact key

theorem getCurrentData_repeatable_witness :
    (DataPlayer.getCurrentData (DataPlayer.start samplePlayer sampleClock) "provence" sampleClock
        = Current.record (sampleRow 0)
      ∧ DataPlayer.getCurrentData (DataPlayer.start samplePlayer sampleClock) "provence" laterClock
        = Current.record (sampleRow 0))
    ∧ Record.field (getDefaultData "provence" sampleClock) "panel_temp_c"
        = Record.field (getDefaultData "provence" laterClock) "panel_temp_c" :=
  ⟨(getCurrentData_repeatable (DataPlayer.start samplePlayer sampleClock) "provence"
      sampleClock laterClock).1 (sampleRow 0) (by decide),
   (getCurrentData_repeatable samplePlayer "provence" sampleClock laterClock).2
      (getDefaultData "provence" sampleClock) (getDefaultData "provence" laterClock) rfl rfl
      "panel_temp_c" (by decide) (by decide) (by decide)⟩

/-- C7, as stated, fails: the record materialized for the empty dataset of `aquitaine` has
ambient and panel temperature 20, not 0. -/
theorem default_record_temperature_not_zero :
    ∃ r : Record,
      Obj.getProp (DataPlayer.start samplePlayer sampleClock).currentData "aquitaine"
        = Lookup.own (Cell.record r)
      ∧ Record.field r "ambient_temp_c" ≠ JSVal.num (JSNum.ofNat 0)
      ∧ Record.field r "panel_temp_c" ≠ JSVal.num (JSNum.ofNat 0) := by
  refine ⟨getDefaultData "aquitaine" sampleClock, ?_, ?_, ?_⟩
  · exact DataPlayer.updateCurrentData_of_empty
      ⟨samplePlayer.farmsData, samplePlayer.currentIndex, samplePlayer.currentData, true,
        samplePlayer.timer, samplePlayer.lastUpdate, samplePlayer.options⟩ sampleClock "aquitaine" (some [])
      (by decide) (Or.inr rfl)
  · simp [Record.field, getDefaultData, Obj.getOwn, JSNum.ofNat]
  · simp [Record.field, getDefaultData, Obj.getOwn, JSNum.ofNat]

/-- C7 (amended). For an installation whose dataset is empty or falsy, the record materialized
by `updateCurrentData` (hence by `start`, `advanceToNext` and `jumpToIndex`) is the default
record, in
which irradiance, instantaneous power, theoretical power, efficiency and daily revenue are 0,
ambient and panel temperature are 20, the anomaly kind is `NORMAL` and the severity `low`. -/
theorem empty_dataset_default_record (p : DataPlayer) (clock : Clock) (farm : String)
    (d : Option (List Record)) (hd : Obj.getProp p.farmsData farm = Lookup.own d)
    (hempty : d = none ∨ d = some []) :
    Obj.getProp (DataPlayer.updateCurrentData p clock).currentData farm
        = Lookup.own (Cell.record (getDefaultData farm clock))
    ∧ (p.isPlaying = false → Obj.getProp (DataPlayer.start p clock).currentData farm
        = Lookup.own (Cell.record (getDefaultData farm clock)))
    ∧ Obj.getProp (DataPlayer.advanceToNext p clock).currentData farm
        = Lookup.own (Cell.record (getDefaultData farm clock))
    ∧ (∀ i : JSNum, Obj.getProp (DataPlayer.jumpToIndex p i clock).currentData farm
        = Lookup.own (Cell.record (getDefaultData farm clock)))
    ∧ Record.field (getDefaultData farm clock) "irradiance_wm2" = JSVal.num (JSNum.ofNat 0)
    ∧ Record.field (getDefaultData farm clock) "ambient_temp_c" = JSVal.num (JSNum.ofNat 20)
    ∧ Record.field (getDefaultData farm clock) "panel_temp_c" = JSVal.num (JSNum.ofNat 20)
    ∧ Record.field (getDefaultData farm clock) "power_production_kw" = JSVal.num (JSNum.ofNat 0)
    ∧ Record.field (getDefaultData farm clock) "theoretical_power_kw" = JSVal.num (JSNum.ofNat 0)
    ∧ Record.field (getDefaultData farm clock) "efficiency_percent" = JSVal.num (JSNum.ofNat 0)
    ∧ Record.field (getDefaultData farm clock) "daily_revenue_eur" = JSVal.num (JSNum.ofNat 0)
    ∧ Record.field (getDefaultData farm clock) "anomaly_type" = JSVal.str "NORMAL"
    ∧ Record.field (getDefaultData farm clock) "anomaly_severity" = JSVal.str "low" := by
  refine ⟨DataPlayer.updateCurrentData_of_empty p clock farm d hd hempty, fun hstop => ?_, ?_,
    fun i => ?_, rfl, rfl, rfl, rfl, rfl, rfl, rfl, rfl, rfl⟩
  · simp only [DataPlayer.start, hstop, Bool.false_eq_true, if_false]
    exact DataPlayer.updateCurrentData_of_empty
      ⟨p.farmsData, p.currentIndex, p.currentData, true, p.timer, p.lastUpdate, p.options⟩
      clock farm d hd hempty
  · exact DataPlayer.updateCurrentData_of_empty
      ⟨p.farmsData, (Obj.keys p.farmsData).foldl (DataPlayer.advanceStep p) p.currentIndex,
        p.currentData, p.isPlaying, p.timer, p.lastUpdate, p.options⟩ clock farm d hd hempty
  · exact DataPlayer.updateCurrentData_of_empty
      ⟨p.farmsData, (Obj.keys p.farmsData).foldl (DataPlayer.jumpStep p i) p.currentIndex,
        p.currentData, p.isPlaying, p.timer, p.lastUpdate, p.options⟩ clock farm d hd hempty

theorem empty_dataset_default_record_witness :
    Obj.getProp (DataPlayer.updateCurrentData samplePlayer sampleClock).currentData "aquitaine"
        = Lookup.own (Cell.record (getDefaultData "aquitaine" sampleClock))
    ∧ Record.field (getDefaultData "aquitaine" sampleClock) "ambient_temp_c"
        = JSVal.num (JSNum.ofNat 20) :=
  ⟨(empty_dataset_default_record samplePlayer sampleClock "aquitaine" (some []) (by decide)
      (Or.inr rfl)).1,
   (empty_dataset_default_record samplePlayer sampleClock "aquitaine" (some []) (by decide)
      (Or.inr rfl)).2.2.2.2.2.1⟩


/-! ## Materialized records and reachable states -/

theorem arrayGet_ofNat (data : List Record) (c : Nat) :
    arrayGet data (JSNum.ofNat c)
      = match data.get? c with
        | some r => Cell.record r
        | none => Cell.undefined := by
  simp [arrayGet, JSNum.ofNat]

theorem DataPlayer.Materialized_congr (p q : DataPlayer) (farm : String)
    (hfd : p.farmsData = q.farmsData) (hci : p.currentIndex = q.currentIndex)
    (hcd : p.currentData = q.currentData) (h : DataPlayer.Materialized q farm) :
    DataPlayer.Materialized p farm := by
  unfold DataPlayer.Materialized at h ⊢
  rw [hfd, hci, hcd]
  exact h

/-- After `updateCurrentData` every slot of the dataset map is materialized. -/
theorem DataPlayer.updateCurrentData_materialized (p : DataPlayer) (clock : Clock)
    (farm : String) : DataPlayer.Materialized (DataPlayer.updateCurrentData p clock) farm := by
  unfold DataPlayer.Materialized
  have hfd : (DataPlayer.updateCurrentData p clock).farmsData = p.farmsData := rfl
  have hci : (DataPlayer.updateCurrentData p clock).currentIndex = p.currentIndex := rfl
  rw [hfd, hci]
  cases h : Obj.getProp p.farmsData farm with
  | own d =>
    have hmem := Obj.mem_keys_of_getProp _ _ _ h
    have hcell := DataPlayer.updateCurrentData_cell p clock farm hmem
    unfold DataPlayer.updateCurrentDataStep at hcell
    rw [h] at hcell
    cases d with
    | none =>
      simp only [Obj.getProp_setProp_self] at hcell
      exact ⟨clock, hcell⟩
    | some data =>
      cases data with
      | nil =>
        simp only [Obj.getProp_setProp_self] at hcell
        exact ⟨clock, hcell⟩
      | cons r rs =>
        simp only [Obj.getProp_setProp_self] at hcell
        exact hcell
  | inherited name => trivial
  | absent => trivial

theorem DataPlayer.start_of_playing (p : DataPlayer) (clock : Clock)
    (h : p.isPlaying = true) : DataPlayer.start p clock = p := by
  simp [DataPlayer.start, h]

theorem DataPlayer.start_materialized (p : DataPlayer) (clock : Clock)
    (h : p.isPlaying = false) (farm : String) :
    DataPlayer.Materialized (DataPlayer.start p clock) farm := by
  have hstart : DataPlayer.start p clock
      = { DataPlayer.updateCurrentData { p with isPlaying := true } clock with timer := true } := by
    simp [DataPlayer.start, h]
  rw [hstart]
  exact DataPlayer.Materialized_congr _
    (DataPlayer.updateCurrentData { p with isPlaying := true } clock) farm rfl rfl rfl
    (DataPlayer.updateCurrentData_materialized _ clock farm)

theorem DataPlayer.advanceToNext_materialized (p : DataPlayer) (clock : Clock) (farm : String) :
    DataPlayer.Materialized (DataPlayer.advanceToNext p clock) farm :=
  DataPlayer.Materialized_congr _
    (DataPlayer.updateCurrentData
      { p with currentIndex :=
          (Obj.keys p.farmsData).foldl (DataPlayer.advanceStep p) p.currentIndex } clock)
    farm rfl rfl rfl (DataPlayer.updateCurrentData_materialized _ clock farm)

theorem DataPlayer.jumpToIndex_materialized (p : DataPlayer) (i : JSNum) (clock : Clock)
    (farm : String) : DataPlayer.Materialized (DataPlayer.jumpToIndex p i clock) farm :=
  DataPlayer.updateCurrentData_materialized _ clock farm

/-- In a reachable state that is Playing, every slot of the dataset map is materialized. -/
theorem Reachable.materialized_of_playing (farmsData : Obj (Option (List Record)))
    (p : DataPlayer) (h : Reachable farmsData p) :
    p.isPlaying = true → ∀ farm : String, DataPlayer.Materialized p farm := by
  induction h with
  | construct options now =>
    intro hp
    simp [DataPlayer.create] at hp
  | start p clock _ ih =>
    intro hp farm
    by_cases hplay : p.isPlaying = true
    · rw [DataPlayer.start_of_playing p clock hplay]
      exact ih hplay farm
    · exact DataPlayer.start_materialized p clock (by simpa using hplay) farm
  | stop p _ _ =>
    intro hp
    simp [DataPlayer.stop] at hp
  | advanceToNext p clock _ _ =>
    intro _ farm
    exact DataPlayer.advanceToNext_materialized p clock farm
  | jumpToIndex p i clock _ _ =>
    intro _ farm
    exact DataPlayer.jumpToIndex_materialized p i clock farm

theorem DataPlayer.servesCurrent_of_materialized (p : DataPlayer)
    (h : ∀ farm : String, DataPlayer.Materialized p farm) : DataPlayer.ServesCurrent p := by
  intro farm later
  have hm := h farm
  unfold DataPlayer.Materialized at hm
  constructor
  · intro data c hdata hc hcur
    rw [hdata] at hm
    cases data with
    | nil => exact absurd hc (Nat.not_lt_zero c)
    | cons r rs =>
      simp only [hcur, indexValue, arrayGet_ofNat] at hm
      cases hget : (r :: rs).get? c with
      | none =>
        rw [List.get?_eq_none] at hget
        omega
      | some r' =>
        rw [hget] at hm
        exact ⟨r', rfl, by simp [DataPlayer.getCurrentData, hm]⟩
  · intro d hd hempty
    rw [hd] at hm
    rcases hempty with rfl | rfl
    · obtain ⟨clock, hclock⟩ := hm
      exact ⟨clock, by simp [DataPlayer.getCurrentData, hclock]⟩
    · obtain ⟨clock, hclock⟩ := hm
      exact ⟨clock, by simp [DataPlayer.getCurrentData, hclock]⟩

/-- C14. Called in the Stopped state, `start()` sets the playing flag and the timer, leaves the
cursors and the dataset map as they are and materializes the slot of every key of the dataset
map; called in the Playing state it returns the engine state unchanged. -/
theorem start_effect (p : DataPlayer) (clock : Clock) :
    (p.isPlaying = false →
      (DataPlayer.start p clock).isPlaying = true
      ∧ (DataPlayer.start p clock).timer = true
      ∧ (DataPlayer.start p clock).currentIndex = p.currentIndex
      ∧ (DataPlayer.start p clock).farmsData = p.farmsData
      ∧ ∀ farm : String, DataPlayer.Materialized (DataPlayer.start p clock) farm)
    ∧ (p.isPlaying = true → DataPlayer.start p clock = p) := by
  constructor
  · intro h
    refine ⟨?_, ?_, ?_, ?_, fun farm => DataPlayer.start_materialized p clock h farm⟩
    all_goals simp [DataPlayer.start, h, DataPlayer.updateCurrentData]
  · exact DataPlayer.start_of_playing p clock

theorem start_effect_witness :
    ((DataPlayer.start samplePlayer sampleClock).isPlaying = true
      ∧ (DataPlayer.start samplePlayer sampleClock).currentIndex = samplePlayer.currentIndex)
    ∧ DataPlayer.start (DataPlayer.start samplePlayer sampleClock) laterClock
        = DataPlayer.start samplePlayer sampleClock :=
  ⟨⟨((start_effect samplePlayer sampleClock).1 rfl).1,
    ((start_effect samplePlayer sampleClock).1 rfl).2.2.1⟩,
   (start_effect (DataPlayer.start samplePlayer sampleClock) laterClock).2 rfl⟩

/-- C15. For every engine state `s`, `stop(s)` has the playing flag cleared and no timer, the
cursors, materialized records, dataset map and last-advance time of `s`, and
`stop(stop(s)) = stop(s)`; with the timer cleared, a tick after `stop` changes nothing. -/
theorem stop_idempotent (s : DataPlayer) :
    (DataPlayer.stop s).isPlaying = false
    ∧ (DataPlayer.stop s).timer = false
    ∧ (DataPlayer.stop s).currentIndex = s.currentIndex
    ∧ (DataPlayer.stop s).currentData = s.currentData
    ∧ (DataPlayer.stop s).farmsData = s.farmsData
    ∧ (DataPlayer.stop s).lastUpdate = s.lastUpdate
    ∧ DataPlayer.stop (DataPlayer.stop s) = DataPlayer.stop s
    ∧ ∀ clock : Clock, DataPlayer.tick (DataPlayer.stop s) clock = DataPlayer.stop s := by
  refine ⟨rfl, rfl, rfl, rfl, rfl, rfl, rfl, fun _ => rfl⟩

/-- C16. A newly constructed `DataPlayer` is Stopped and holds no timer; `advanceToNext` and
`jumpToIndex` return a state with the playing flag they were given, in either state, and
`getStatus` reports that flag. The reads `getCurrentData`, `getAllCurrentData` and `getStatus`
assign no field of the engine, which is why they are functions of the state here. -/
theorem playing_flag_frame (farmsData : Obj (Option (List Record))) (now : Nat)
    (p : DataPlayer) (i : JSNum) (clock : Clock) :
    (DataPlayer.new farmsData now).isPlaying = false
    ∧ (DataPlayer.new farmsData now).timer = false
    ∧ (DataPlayer.advanceToNext p clock).isPlaying = p.isPlaying
    ∧ (DataPlayer.jumpToIndex p i clock).isPlaying = p.isPlaying
    ∧ (DataPlayer.getStatus p).isPlaying = p.isPlaying
    ∧ (DataPlayer.getStatus (DataPlayer.advanceToNext p clock)).isPlaying
        = (DataPlayer.getStatus p).isPlaying
    ∧ (DataPlayer.getStatus (DataPlayer.jumpToIndex p i clock)).isPlaying
        = (DataPlayer.getStatus p).isPlaying := by
  refine ⟨rfl, rfl, rfl, rfl, rfl, rfl, rfl⟩

/-- C17. In every state reached from a new engine, right after `start`, `advanceToNext` or
`jumpToIndex`, `getCurrentData` returns `data[c]` for every key of the dataset map whose
dataset is non-empty and whose cursor is the integer `c` inside it, and a default record for
every key whose dataset is empty or falsy. -/
theorem getCurrentData_after_mutation (farmsData : Obj (Option (List Record)))
    (p : DataPlayer) (hreach : Reachable farmsData p) (i : JSNum) (clock : Clock) :
    DataPlayer.ServesCurrent (DataPlayer.start p clock)
    ∧ DataPlayer.ServesCurrent (DataPlayer.advanceToNext p clock)
    ∧ DataPlayer.ServesCurrent (DataPlayer.jumpToIndex p i clock) := by
  refine ⟨?_, ?_, ?_⟩
  · apply DataPlayer.servesCurrent_of_materialized
    by_cases hplay : p.isPlaying = true
    · rw [DataPlayer.start_of_playing p clock hplay]
      exact Reachable.materialized_of_playing farmsData p hreach hplay
    · exact DataPlayer.start_materialized p clock (by simpa using hplay)
  · exact DataPlayer.servesCurrent_of_materialized _
      (DataPlayer.advanceToNext_materialized p clock)
  · exact DataPlayer.servesCurrent_of_materialized _
      (DataPlayer.jumpToIndex_materialized p i clock)

theorem getCurrentData_after_mutation_witness :
    ∃ r : Record, [sampleRow 0, sampleRow 1, sampleRow 2].get? 0 = some r
      ∧ DataPlayer.getCurrentData (DataPlayer.start samplePlayer sampleClock) "provence"
          laterClock = Current.record r :=
  ((getCurrentData_after_mutation sampleFarmsData samplePlayer (Reachable.construct PlayerOptions.empty 0)
      (JSNum.ofNat 0) sampleClock).1 "provence" laterClock).1
    [sampleRow 0, sampleRow 1, sampleRow 2] 0 (by decide) (by decide) (by decide)

/-! ## Route handlers and the loader -/

theorem jumpAccepts_eq_nonNegative (n : JSNum) (h : n ≠ JSNum.nan) :
    jumpAccepts n = n.nonNegative := by
  cases n with
  | nan => exact absurd rfl h
  | negInf => rfl
  | fin q =>
    by_cases hq : q < 0
    · have : ¬ (0 ≤ q) := not_le.mpr hq
      simp [jumpAccepts, JSNum.lt, JSNum.ofNat, JSNum.nonNegative, hq, this]
    · have : 0 ≤ q := not_lt.mp hq
      simp [jumpAccepts, JSNum.lt, JSNum.ofNat, JSNum.nonNegative, hq, this]
  | posInf => rfl

/-- C18. For every `index` member a JSON body can carry (so not `NaN`), `POST /control/jump`
answers 400 exactly when `index` is not a non-negative number; then the engine is left as it
was and `jumpToIndex` is not called. For a non-negative number it calls `jumpToIndex(index)` on
a constructed engine and answers 200, and answers 503 when there is no engine. -/
theorem postControlJump_guard (index : JSVal) (dataPlayer : Option DataPlayer) (clock : Clock)
    (hjson : index ≠ JSVal.num JSNum.nan) :
    ((postControlJump index dataPlayer clock).response.status = 400
      ↔ ¬ ∃ n : JSNum, index = JSVal.num n ∧ n.nonNegative = true)
    ∧ ((postControlJump index dataPlayer clock).response.status = 400 →
        (postControlJump index dataPlayer clock).dataPlayer = dataPlayer
        ∧ (postControlJump index dataPlayer clock).jumpedTo = none)
    ∧ (∀ (n : JSNum) (p : DataPlayer), index = JSVal.num n → n.nonNegative = true →
        dataPlayer = some p →
        (postControlJump index dataPlayer clock).jumpedTo = some n
        ∧ (postControlJump index dataPlayer clock).dataPlayer
            = some (DataPlayer.jumpToIndex p n clock)
        ∧ (postControlJump index dataPlayer clock).response.status = 200)
    ∧ (∀ n : JSNum, index = JSVal.num n → n.nonNegative = true → dataPlayer = none →
        (postControlJump index dataPlayer clock).response = JumpResponse.notReady) := by
  cases index with
  | num n =>
    have hn : n ≠ JSNum.nan := fun h => hjson (by rw [h])
    have hacc := jumpAccepts_eq_nonNegative n hn
    cases hnn : n.nonNegative with
    | true =>
      rw [hnn] at hacc
      cases dataPlayer with
      | none =>
        simp [postControlJump, hacc, JumpResponse.status, hnn]
      | some p =>
        simp [postControlJump, hacc, JumpResponse.status, hnn]
    | false =>
      rw [hnn] at hacc
      cases dataPlayer <;> simp [postControlJump, hacc, JumpResponse.status, hnn]
  | undefined => simp [postControlJump, JumpResponse.status]
  | null => simp [postControlJump, JumpResponse.status]
  | str s => simp [postControlJump, JumpResponse.status]
  | date ms => simp [postControlJump, JumpResponse.status]
  | builtin name => simp [postControlJump, JumpResponse.status]

theorem postControlJump_guard_witness :
    ((postControlJump (JSVal.str "2") (some samplePlayer) sampleClock).dataPlayer
        = some samplePlayer
      ∧ (postControlJump (JSVal.str "2") (some samplePlayer) sampleClock).jumpedTo = none)
    ∧ (postControlJump (JSVal.num (JSNum.ofNat 2)) (some samplePlayer) sampleClock).jumpedTo
        = some (JSNum.ofNat 2) :=
  ⟨(postControlJump_guard (JSVal.str "2") (some samplePlayer) sampleClock (by decide)).2.1
      (((postControlJump_guard (JSVal.str "2") (some samplePlayer) sampleClock
        (by decide)).1).mpr (by simp)),
   ((postControlJump_guard (JSVal.num (JSNum.ofNat 2)) (some samplePlayer) sampleClock
      (by decide)).2.2.1 (JSNum.ofNat 2) samplePlayer rfl (by decide) rfl).1⟩

/-- C19. `GET /data/:farm` does not answer 404 for every id that is not a key of
`FARMS_CONFIG`: for `constructor`, a name `FARMS_CONFIG` inherits, the handler goes on and
answers 503 without an engine and 200 with the inherited value with one. An id such as
`bretagne` gets the 404 with the three configured ids. -/
theorem getDataFarm_inherited_name (farmsData : Obj (Option (List Record))) (now : Nat)
    (clock : Clock) :
    "constructor" ∉ Obj.keys FARMS_CONFIG
    ∧ getDataFarm "constructor" none clock = DataFarmResponse.notReady
    ∧ getDataFarm "constructor" (some (DataPlayer.new farmsData now)) clock
        = DataFarmResponse.ok (Current.builtin "constructor")
    ∧ (getDataFarm "constructor" (some (DataPlayer.new farmsData now)) clock).status = 200
    ∧ getDataFarm "bretagne" (some (DataPlayer.new farmsData now)) clock
        = DataFarmResponse.notFound ["provence", "occitanie", "aquitaine"] := by
  refine ⟨by decide, rfl, rfl, rfl, rfl⟩

/-- C20. Whatever the outcome of the three loads, `loadAllFarms` returns the map with the keys
`provence`, `occitanie` and `aquitaine`, in this order, each holding the rows of its own load
when that load succeeded and no row when it failed. -/
theorem loadAllFarms_total (loadCSV : String → Except String (List Record)) :
    loadAllFarms loadCSV
      = [("provence", rowsOrEmpty (loadCSV "provence_data.csv")),
         ("occitanie", rowsOrEmpty (loadCSV "occitanie_data.csv")),
         ("aquitaine", rowsOrEmpty (loadCSV "aquitaine_data.csv"))]
    ∧ Obj.keys (loadAllFarms loadCSV) = ["provence", "occitanie", "aquitaine"]
    ∧ Obj.keys (loadAllFarms loadCSV) = Obj.keys FARMS_CONFIG := by
  have main : loadAllFarms loadCSV
      = [("provence", rowsOrEmpty (loadCSV "provence_data.csv")),
         ("occitanie", rowsOrEmpty (loadCSV "occitanie_data.csv")),
         ("aquitaine", rowsOrEmpty (loadCSV "aquitaine_data.csv"))] := by
    cases h1 : loadCSV "provence_data.csv" <;> cases h2 : loadCSV "occitanie_data.csv" <;>
      cases h3 : loadCSV "aquitaine_data.csv" <;>
      simp [loadAllFarms, csvFiles, h1, h2, h3, Obj.setProp, rowsOrEmpty]
  refine ⟨main, ?_, ?_⟩
  · rw [main]; rfl
  · rw [main]; rfl

/-! ## Configuration, probes and the two-state machine -/

/-- The three entries of `FARMS_CONFIG`. -/
theorem FARMS_CONFIG_cases (farm : String) (c : FarmConfig)
    (hc : Obj.getProp FARMS_CONFIG farm = Lookup.own c) :
    (farm, c) ∈ FARMS_CONFIG := by
  simp only [Obj.getProp, FARMS_CONFIG, Obj.getOwn] at hc
  split_ifs at hc <;> simp at hc <;> subst hc <;> simp_all [FARMS_CONFIG]

/-- C23. For every installation of `FARMS_CONFIG`, `capacity_mw` is exactly
`panels * panel_power_w / 1 000 000`, and the configured installations are exactly `provence`,
`occitanie` and `aquitaine`. -/
theorem capacity_coherent (farm : String) (c : FarmConfig)
    (hc : Obj.getProp FARMS_CONFIG farm = Lookup.own c) :
    c.capacity_mw = (c.panels : ℚ) * (c.panel_power_w : ℚ) / 1000000
    ∧ Obj.keys FARMS_CONFIG = ["provence", "occitanie", "aquitaine"]
    ∧ (Obj.keys FARMS_CONFIG).length = 3
    ∧ farm ∈ ["provence", "occitanie", "aquitaine"] := by
  have h := FARMS_CONFIG_cases farm c hc
  simp only [FARMS_CONFIG, List.mem_cons, Prod.mk.injEq, List.mem_singleton,
    List.not_mem_nil, or_false] at h
  refine ⟨?_, by decide, by decide, ?_⟩
  · rcases h with ⟨_, rfl⟩ | ⟨_, rfl⟩ | ⟨_, rfl⟩ <;> norm_num
  · rcases h with ⟨rfl, _⟩ | ⟨rfl, _⟩ | ⟨rfl, _⟩ <;> decide

theorem capacity_coherent_witness :
    ((168 / 100 : ℚ) = ((4200 : ℕ) : ℚ) * ((400 : ℕ) : ℚ) / 1000000)
    ∧ "aquitaine" ∈ ["provence", "occitanie", "aquitaine"] :=
  ⟨(capacity_coherent "aquitaine"
      { name := "aquitaine", location := "Bordeaux", latitude := 448 / 10, panels := 4200,
        capacity_mw := 168 / 100, inverters := 4, panel_power_w := 400,
        csvFile := "aquitaine_data.csv" } rfl).1,
   (capacity_coherent "aquitaine"
      { name := "aquitaine", location := "Bordeaux", latitude := 448 / 10, panels := 4200,
        capacity_mw := 168 / 100, inverters := 4, panel_power_w := 400,
        csvFile := "aquitaine_data.csv" } rfl).2.2.2⟩

/-- C25. `GET /health` answers 200 exactly when the engine exists and its playing flag is set,
and 503 otherwise, so a paused engine is unhealthy; `GET /ready` answers 200 exactly when the
engine exists, and 503 otherwise. -/
theorem probes_status (dataPlayer : Option DataPlayer) :
    ((getHealth dataPlayer).code = 200 ↔ ∃ p, dataPlayer = some p ∧ p.isPlaying = true)
    ∧ ((getHealth dataPlayer).code ≠ 200 → (getHealth dataPlayer).code = 503)
    ∧ (∀ p : DataPlayer, (getHealth (some (DataPlayer.stop p))).code = 503)
    ∧ ((getReady dataPlayer).code = 200 ↔ ∃ p, dataPlayer = some p)
    ∧ ((getReady dataPlayer).code ≠ 200 → (getReady dataPlayer).code = 503) := by
  cases dataPlayer with
  | none => simp [getHealth, getReady, DataPlayer.stop]
  | some p =>
    cases hp : p.isPlaying <;> simp [getHealth, getReady, hp, DataPlayer.stop]

theorem probes_status_witness :
    (getHealth (some (DataPlayer.start samplePlayer sampleClock))).code = 200
    ∧ (getReady none).code = 503 :=
  ⟨((probes_status (some (DataPlayer.start samplePlayer sampleClock))).1).mpr
      ⟨DataPlayer.start samplePlayer sampleClock, rfl, rfl⟩,
   (probes_status none).2.2.2.2 (by decide)⟩

/-- In every reachable state the playing flag and the timer handle go together. -/
theorem Reachable.isPlaying_eq_timer (farmsData : Obj (Option (List Record)))
    (p : DataPlayer) (h : Reachable farmsData p) : p.isPlaying = p.timer := by
  induction h with
  | construct options now => rfl
  | start p clock _ ih =>
    cases hp : p.isPlaying
    · simp [DataPlayer.start, hp, DataPlayer.updateCurrentData]
    · rw [DataPlayer.start_of_playing p clock hp]
      exact ih
  | stop p _ _ => rfl
  | advanceToNext p clock _ ih => exact ih
  | jumpToIndex p i clock _ ih => exact ih

/-- C29. In every state reached from a newly constructed `DataPlayer`, with any options, by
calls of `start`, `stop`, `advanceToNext` and `jumpToIndex`, the playing flag is set exactly
when a timer handle is held. So no handle is held while Stopped, and the only statement that
creates a timer, in `start`, runs when none is held: no handle is ever overwritten. -/
theorem playing_iff_timer (farmsData : Obj (Option (List Record))) (p : DataPlayer)
    (hreach : Reachable farmsData p) :
    (p.isPlaying = true ↔ p.timer = true)
    ∧ (p.isPlaying = false → p.timer = false)
    ∧ (∀ clock : Clock, DataPlayer.start p clock ≠ p → p.timer = false) := by
  have h := Reachable.isPlaying_eq_timer farmsData p hreach
  refine ⟨by rw [h], fun hp => by rw [← h]; exact hp, fun clock hne => ?_⟩
  rw [← h]
  cases hp : p.isPlaying
  · rfl
  · exact absurd (DataPlayer.start_of_playing p clock hp) hne

theorem playing_iff_timer_witness :
    (DataPlayer.stop (DataPlayer.start samplePlayer sampleClock)).isPlaying = false
    ∧ (DataPlayer.stop (DataPlayer.start samplePlayer sampleClock)).timer = false :=
  ⟨rfl,
   (playing_iff_timer sampleFarmsData
    (DataPlayer.stop (DataPlayer.start samplePlayer sampleClock))
    (Reachable.stop _ (Reachable.start _ sampleClock
      (Reachable.construct PlayerOptions.empty 0)))).2.1 rfl⟩


/-! ## Decimal text of a non-negative integer -/

theorem digitChar_ne_dash (k : Nat) (hk : k < 10) : Nat.digitChar k ≠ '-' := by
  interval_cases k <;> decide

theorem digitChar_value (k : Nat) (hk : k < 10) : (Nat.digitChar k).toNat - 48 = k := by
  interval_cases k <;> decide

theorem decodeDigits_append_singleton (pre : List Char) (ch : Char) :
    decodeDigits (pre ++ [ch]) = 10 * decodeDigits pre + (ch.toNat - 48) := by
  simp [decodeDigits, List.foldl_append]

theorem toDigitsCore_spec (fuel : Nat) : ∀ (n : Nat) (ds : List Char), n < fuel →
    ∃ pre : List Char, Nat.toDigitsCore 10 fuel n ds = pre ++ ds ∧ '-' ∉ pre
      ∧ decodeDigits pre = n := by
  induction fuel with
  | zero => intro n ds h; exact absurd h (Nat.not_lt_zero n)
  | succ fuel ih =>
    intro n ds h
    have hmod : n % 10 < 10 := Nat.mod_lt n (by decide)
    by_cases h0 : n / 10 = 0
    · refine ⟨[Nat.digitChar (n % 10)], ?_, ?_, ?_⟩
      · simp [Nat.toDigitsCore, h0]
      · simpa using (digitChar_ne_dash _ hmod).symm
      · have hn : n % 10 = n := by omega
        have hv := digitChar_value _ hmod
        simp only [decodeDigits, List.foldl_cons, List.foldl_nil, hv]
        omega
    · have hlt : n / 10 < fuel := by omega
      obtain ⟨pre, hpre, hdash, hdec⟩ := ih (n / 10) (Nat.digitChar (n % 10) :: ds) hlt
      refine ⟨pre ++ [Nat.digitChar (n % 10)], ?_, ?_, ?_⟩
      · simp [Nat.toDigitsCore, h0, hpre]
      · simp only [List.mem_append, List.mem_singleton, not_or]
        exact ⟨hdash, (digitChar_ne_dash _ hmod).symm⟩
      · rw [decodeDigits_append_singleton, hdec, digitChar_value _ hmod]
        omega

theorem toString_nat_spec (n : Nat) :
    '-' ∉ (toString n).data ∧ decodeDigits (toString n).data = n := by
  obtain ⟨pre, hpre, hdash, hdec⟩ := toDigitsCore_spec (n + 1) n [] (Nat.lt_succ_self n)
  have hdata : (toString n).data = pre := by
    show (Nat.toDigits 10 n).asString.data = pre
    simp [Nat.toDigits, hpre, List.asString]
  rw [hdata]
  exact ⟨hdash, hdec⟩

theorem append_cons_inj_of_not_mem {α : Type} (x : α) :
    ∀ (l1 l2 r1 r2 : List α), x ∉ l1 → x ∉ l2 → l1 ++ x :: r1 = l2 ++ x :: r2 →
      l1 = l2 ∧ r1 = r2 := by
  intro l1
  induction l1 with
  | nil =>
    intro l2 r1 r2 _ h2 h
    cases l2 with
    | nil => simpa using h
    | cons y l2 =>
      simp only [List.nil_append, List.cons_append, List.cons.injEq] at h
      exact absurd (by simp [h.1]) h2
  | cons a l1 ih =>
    intro l2 r1 r2 h1 h2 h
    cases l2 with
    | nil =>
      simp only [List.nil_append, List.cons_append, List.cons.injEq] at h
      exact absurd (by simp [h.1]) h1
    | cons y l2 =>
      simp only [List.cons_append, List.cons.injEq] at h
      have h1' : x ∉ l1 := fun hx => h1 (List.mem_cons_of_mem _ hx)
      have h2' : x ∉ l2 := fun hx => h2 (List.mem_cons_of_mem _ hx)
      obtain ⟨e1, e2⟩ := ih l2 r1 r2 h1' h2' h.2
      exact ⟨by rw [h.1, e1], e2⟩

/-- The text `d-h` of two non-negative integers determines both. -/
theorem dash_key_inj (a b a' b' : Nat)
    (h : toString a ++ "-" ++ toString b = toString a' ++ "-" ++ toString b') :
    a = a' ∧ b = b' := by
  have hd := congrArg String.data h
  simp only [String.data_append] at hd
  rw [List.append_assoc, List.append_assoc] at hd
  obtain ⟨e1, e2⟩ := append_cons_inj_of_not_mem '-' (toString a).data (toString a').data
    (toString b).data (toString b').data (toString_nat_spec a).1 (toString_nat_spec a').1 hd
  constructor
  · rw [← (toString_nat_spec a).2, ← (toString_nat_spec a').2, e1]
  · rw [← (toString_nat_spec b).2, ← (toString_nat_spec b').2, e2]


/-! ## The observations of the metrics projector -/

theorem FARMS_CONFIG_inverters_pos (farm : String) (c : FarmConfig)
    (hc : Obj.getProp FARMS_CONFIG farm = Lookup.own c) : 0 < c.inverters := by
  simp only [Obj.getProp, FARMS_CONFIG, Obj.getOwn] at hc
  split_ifs at hc <;> simp at hc <;> subst hc <;> decide

theorem FARMS_CONFIG_inverters (farm : String) (c : FarmConfig)
    (hc : Obj.getProp FARMS_CONFIG farm = Lookup.own c) :
    c.inverters = 3 ∨ c.inverters = 4 := by
  simp only [Obj.getProp, FARMS_CONFIG, Obj.getOwn] at hc
  split_ifs at hc <;> simp at hc <;> subst hc <;> decide

theorem observationsOf_append (m : String) (xs ys : List Observation) :
    observationsOf m (xs ++ ys) = observationsOf m xs ++ observationsOf m ys := by
  simp [observationsOf]

theorem observationsOf_inverterObservations (m farm : String) (data : Record) (n : Nat)
    (hm : m ≠ "solar_inverter_status") :
    observationsOf m (inverterObservations farm data n) = [] := by
  simp [observationsOf, inverterObservations, List.filter_eq_nil_iff, Ne.symm hm]

theorem observationsOf_anomalyObservations (m farm : String) (kind : JSVal)
    (hm : m ≠ "solar_anomaly_active") :
    observationsOf m (anomalyObservations farm kind) = [] := by
  simp [observationsOf, anomalyObservations, List.filter_eq_nil_iff, Ne.symm hm]

theorem anomalyObservations_eq_snapshot (farm : String) (kind : JSVal) :
    observationsOf "solar_anomaly_active" (anomalyObservations farm kind)
      = anomalySnapshot farm (fun k => if JSVal.str k = kind then 1 else 0) := by
  have hkeys : Obj.keys ANOMALY_TYPES
      = ["NORMAL", "OVERHEAT", "INVERTER_DOWN", "DEGRADATION", "SHADING", "SENSOR_FAIL"] := by
    decide
  simp [observationsOf, anomalyObservations, anomalySnapshot, hkeys]

/-- The count kept by the availability loop is the number of indices `1..n` whose status is
not the number `0`. -/
theorem activeInverters_eq_card (data : Record) (n : Nat) :
    activeInverters data n
      = (Finset.filter (fun i => Record.field data (statusKey i) ≠ JSVal.num (JSNum.ofNat 0))
          (Finset.Icc 1 n)).card := by
  induction n with
  | zero => simp [activeInverters]
  | succ n ih =>
    have hrec : activeInverters data (n + 1)
        = activeInverters data n
          + (if Record.field data (statusKey (n + 1)) ≠ JSVal.num (JSNum.ofNat 0) then 1 else 0) := by
      simp only [activeInverters, List.range_succ, List.filter_append, List.length_append,
        List.filter_cons, List.filter_nil, isActiveStatus]
      split_ifs <;> simp_all
    rw [hrec, ih, ← Nat.Icc_insert_succ_right (by omega : 1 ≤ n + 1), Finset.filter_insert]
    split_ifs with h
    · rw [Finset.card_insert_of_not_mem]
      simp
    · rfl

/-! ### Calls made until one raises -/

theorem untilRaise_of_numbers (l : List Observation)
    (h : ∀ o ∈ l, o.value.isNumber = true) : untilRaise l = l := by
  induction l with
  | nil => rfl
  | cons o l ih =>
    simp only [List.forall_mem_cons] at h
    simp [untilRaise, h.1, ih h.2]

theorem untilRaise_append_of_numbers (a b : List Observation)
    (h : ∀ o ∈ a, o.value.isNumber = true) : untilRaise (a ++ b) = a ++ untilRaise b := by
  induction a with
  | nil => rfl
  | cons o a ih =>
    simp only [List.forall_mem_cons] at h
    simp [untilRaise, h.1, ih h.2]

theorem untilRaise_append_of_raise (a b : List Observation)
    (h : ∃ o ∈ a, o.value.isNumber = false) : untilRaise (a ++ b) = untilRaise a := by
  induction a with
  | nil => simp at h
  | cons o a ih =>
    by_cases ho : o.value.isNumber = true
    · have h' : ∃ x ∈ a, x.value.isNumber = false := by
        obtain ⟨x, hx, hx'⟩ := h
        rcases List.mem_cons.mp hx with rfl | hx
        · rw [ho] at hx'; exact absurd hx' (by simp)
        · exact ⟨x, hx, hx'⟩
      simp [untilRaise, ho, ih h']
    · simp [untilRaise, ho]

/-- The calls made are an initial segment of the calls of the body. -/
theorem untilRaise_initial (l : List Observation) : ∃ rest, l = untilRaise l ++ rest := by
  induction l with
  | nil => exact ⟨[], rfl⟩
  | cons o l ih =>
    by_cases ho : o.value.isNumber = true
    · obtain ⟨rest, hrest⟩ := ih
      refine ⟨rest, ?_⟩
      simp only [untilRaise, ho, if_true, List.cons_append]
      rw [← hrest]
    · exact ⟨l, by simp [untilRaise, ho]⟩

theorem mem_of_mem_untilRaise (l : List Observation) (o : Observation)
    (h : o ∈ untilRaise l) : o ∈ l := by
  obtain ⟨rest, hrest⟩ := untilRaise_initial l
  rw [hrest]
  exact List.mem_append_left _ h

/-- Every call made but the last one carries a number. -/
theorem untilRaise_dropLast (l : List Observation) :
    ∀ o ∈ (untilRaise l).dropLast, o.value.isNumber = true := by
  induction l with
  | nil => simp [untilRaise]
  | cons x l ih =>
    by_cases hx : x.value.isNumber = true
    · simp only [untilRaise, hx, if_true]
      cases hl : untilRaise l with
      | nil => simp
      | cons y ys =>
        rw [List.dropLast_cons₂]
        intro o ho
        rcases List.mem_cons.mp ho with rfl | ho
        · exact hx
        · exact ih o (by rw [hl]; exact ho)
    · simp [untilRaise, hx]

/-- Either no call raises and every call of the body is made, or the last call made is the
one that raises. -/
theorem untilRaise_last (l : List Observation) :
    (untilRaise l = l ∧ ∀ o ∈ l, o.value.isNumber = true)
      ∨ ∃ o, (untilRaise l).getLast? = some o ∧ o.value.isNumber = false := by
  induction l with
  | nil => exact Or.inl ⟨rfl, by simp⟩
  | cons x l ih =>
    by_cases hx : x.value.isNumber = true
    · rcases ih with ⟨h1, h2⟩ | ⟨o, h1, h2⟩
      · left
        refine ⟨by simp [untilRaise, hx, h1], ?_⟩
        intro o ho
        rcases List.mem_cons.mp ho with rfl | ho
        · exact hx
        · exact h2 o ho
      · right
        refine ⟨o, ?_, h2⟩
        simp only [untilRaise, hx, if_true]
        cases hl : untilRaise l with
        | nil => rw [hl] at h1; simp at h1
        | cons y ys =>
          rw [hl] at h1
          rw [List.getLast?_cons_cons]
          exact h1
    · right
      exact ⟨x, by simp [untilRaise, hx], by simpa using hx⟩

theorem observationsOf_untilRaise_nil (m : String) (l : List Observation)
    (h : ∀ o ∈ l, o.metric ≠ m) : observationsOf m (untilRaise l) = [] := by
  simp only [observationsOf, List.filter_eq_nil_iff]
  intro o ho
  simpa using h o (mem_of_mem_untilRaise l o ho)

theorem observationsOf_nil_of_ne (m : String) (l : List Observation)
    (h : ∀ o ∈ l, o.metric ≠ m) : observationsOf m l = [] := by
  simp only [observationsOf, List.filter_eq_nil_iff]
  intro o ho
  simpa using h o ho

theorem untilRaise_eq_of_mem_number (l : List Observation) (o : Observation)
    (h : o ∈ untilRaise l) (hl : o.value.isNumber = false) :
    (untilRaise l).getLast? = some o := by
  induction l with
  | nil => simp [untilRaise] at h
  | cons x l ih =>
    by_cases hx : x.value.isNumber = true
    · simp only [untilRaise, hx, if_true] at h ⊢
      rcases List.mem_cons.mp h with rfl | h
      · rw [hx] at hl; exact absurd hl (by simp)
      · have := ih h
        cases hl' : untilRaise l with
        | nil => rw [hl'] at h; simp at h
        | cons y ys =>
          rw [hl'] at this
          rw [List.getLast?_cons_cons]
          exact this
    · simp only [untilRaise, hx] at h ⊢
      simp at h
      simp [h]


/-! ### The calls of the body -/

theorem observationsOf_inverterObservations_self (farm : String) (data : Record) (n : Nat) :
    observationsOf "solar_inverter_status" (inverterObservations farm data n)
      = inverterObservations farm data n := by
  simp [observationsOf, inverterObservations, List.filter_eq_self]

/-- The body of `updateFarmMetrics` for a configured installation, in five blocks: the seven
production gauges, the inverter loop, the availability, the anomaly loop and the six gauges
that close the body. -/
theorem setCalls_own (farm : String) (c : FarmConfig) (data : Record) (clock : Clock)
    (hc : Obj.getProp FARMS_CONFIG farm = Lookup.own c) :
    setCalls farm (some data) clock
      = productionGauges.map (fun fg =>
          { metric := fg.2, labels := [("farm", farm)],
            value := JSVal.orElse (Record.field data fg.1) (JSVal.num (JSNum.ofNat 0)) })
        ++ inverterObservations farm data c.inverters
        ++ [{ metric := "solar_availability_percent", labels := [("farm", farm)],
              value := JSVal.num
                (JSNum.mul
                  (JSNum.div (JSNum.ofNat (activeInverters data c.inverters))
                    (JSNum.ofNat c.inverters))
                  (JSNum.ofNat 100)) }]
        ++ anomalyObservations farm
            (JSVal.orElse (Record.field data "anomaly_type") (JSVal.str "NORMAL"))
        ++ [{ metric := "solar_anomaly_severity", labels := [("farm", farm)],
              value := severityLevel (Record.field data "anomaly_severity") },
            { metric := "solar_panel_count", labels := [("farm", farm)],
              value := JSVal.num (JSNum.ofNat c.panels) },
            { metric := "solar_capacity_mw", labels := [("farm", farm)],
              value := JSVal.num (JSNum.fin c.capacity_mw) },
            { metric := "solar_last_update_timestamp", labels := [("farm", farm)],
              value := JSVal.num (JSNum.div (JSNum.ofNat clock.now) (JSNum.ofNat 1000)) },
            { metric := "solar_simulated_hour", labels := [("farm", farm)],
              value := JSVal.orElse (Record.field data "hour") (JSVal.num (JSNum.ofNat 0)) },
            { metric := "solar_simulated_day", labels := [("farm", farm)],
              value :=
                JSVal.orElse (Record.field data "day_of_year") (JSVal.num (JSNum.ofNat 0)) }] := by
  simp [setCalls, hc, productionGauges]

/-- The single call of `set` on the gauge of a numeric field carries `data.field || 0`. -/
theorem numeric_gauge_observation (farm : String) (c : FarmConfig) (data : Record)
    (clock : Clock) (hc : Obj.getProp FARMS_CONFIG farm = Lookup.own c) (fg : String × String)
    (hfg : fg ∈ numericGauges) :
    observationsOf fg.2 (setCalls farm (some data) clock)
      = [{ metric := fg.2, labels := [("farm", farm)],
           value := JSVal.orElse (Record.field data fg.1) (JSVal.num (JSNum.ofNat 0)) }] := by
  simp only [numericGauges, List.mem_cons, List.mem_singleton, List.not_mem_nil, or_false] at hfg
  rcases hfg with h | h | h | h | h | h | h | h | h <;> subst h <;>
  · simp only [setCalls, hc, observationsOf_append]
    rw [observationsOf_inverterObservations _ _ _ _ (by decide),
      observationsOf_anomalyObservations _ _ _ (by decide)]
    simp [observationsOf]

theorem anomaly_gauge_observations (farm : String) (c : FarmConfig) (data : Record)
    (clock : Clock) (hc : Obj.getProp FARMS_CONFIG farm = Lookup.own c) :
    observationsOf "solar_anomaly_active" (setCalls farm (some data) clock)
      = anomalySnapshot farm (fun k =>
          if JSVal.str k = JSVal.orElse (Record.field data "anomaly_type") (JSVal.str "NORMAL")
          then 1 else 0) := by
  simp only [setCalls, hc, observationsOf_append,
    observationsOf_inverterObservations _ _ _ _
      (by decide : "solar_anomaly_active" ≠ "solar_inverter_status"),
    anomalyObservations_eq_snapshot]
  simp [observationsOf]

theorem severity_gauge_observation (farm : String) (c : FarmConfig) (data : Record)
    (clock : Clock) (hc : Obj.getProp FARMS_CONFIG farm = Lookup.own c) :
    observationsOf "solar_anomaly_severity" (setCalls farm (some data) clock)
      = [{ metric := "solar_anomaly_severity", labels := [("farm", farm)],
           value := severityLevel (Record.field data "anomaly_severity") }] := by
  simp only [setCalls, hc, observationsOf_append]
  rw [observationsOf_inverterObservations _ _ _ _ (by decide),
    observationsOf_anomalyObservations _ _ _ (by decide)]
  simp [observationsOf]

theorem inverter_gauge_observations (farm : String) (c : FarmConfig) (data : Record)
    (clock : Clock) (hc : Obj.getProp FARMS_CONFIG farm = Lookup.own c) :
    observationsOf "solar_inverter_status" (setCalls farm (some data) clock)
      = inverterObservations farm data c.inverters := by
  simp only [setCalls, hc, observationsOf_append,
    observationsOf_inverterObservations_self]
  rw [observationsOf_anomalyObservations _ _ _ (by decide)]
  simp [observationsOf]

theorem JSVal.isNumber_orElse (v : JSVal) (n : JSNum)
    (h : v = JSVal.undefined ∨ v.isNumber = true) :
    (JSVal.orElse v (JSVal.num n)).isNumber = true := by
  rcases h with h | h
  · subst h
    simp [JSVal.orElse, JSVal.truthy, JSVal.isNumber]
  · unfold JSVal.orElse
    split
    · exact h
    · rfl

theorem JSVal.isNumber_orElse_of_falsy (v : JSVal) (n : JSNum)
    (h : v.truthy = false ∨ v.isNumber = true) :
    (JSVal.orElse v (JSVal.num n)).isNumber = true := by
  rcases h with h | h
  · simp [JSVal.orElse, h, JSVal.isNumber]
  · unfold JSVal.orElse
    split
    · exact h
    · rfl

theorem severityLevel_isNumber (v : JSVal)
    (h : v = JSVal.undefined ∨ ∃ s, s ∈ ["low", "medium", "high"] ∧ v = JSVal.str s) :
    (severityLevel v).isNumber = true := by
  rcases h with h | ⟨s, hs, h⟩
  · subst h; decide
  · subst h
    simp only [List.mem_cons, List.mem_singleton, List.not_mem_nil, or_false] at hs
    rcases hs with rfl | rfl | rfl <;> decide

/-- The values of the seven production gauges are numbers when the fields are falsy or
numbers. -/
theorem productionCalls_numbers (farm : String) (data : Record)
    (hprod : ∀ fg ∈ productionGauges,
      (Record.field data fg.1).truthy = false ∨ (Record.field data fg.1).isNumber = true) :
    ∀ o ∈ productionGauges.map (fun fg =>
        ({ metric := fg.2, labels := [("farm", farm)],
           value := JSVal.orElse (Record.field data fg.1) (JSVal.num (JSNum.ofNat 0)) } :
          Observation)),
      o.value.isNumber = true := by
  intro o ho
  obtain ⟨fg, hfg, rfl⟩ := List.mem_map.mp ho
  exact JSVal.isNumber_orElse_of_falsy _ _ (hprod fg hfg)

/-- The values of the inverter loop are numbers when the statuses are absent or numbers. -/
theorem inverterObservations_numbers (farm : String) (data : Record) (n : Nat)
    (hstatus : ∀ i ∈ List.range' 1 n,
      Record.field data (statusKey i) = JSVal.undefined
        ∨ (Record.field data (statusKey i)).isNumber = true) :
    ∀ x ∈ inverterObservations farm data n, x.value.isNumber = true := by
  intro x hx
  simp only [inverterObservations, List.mem_map, List.mem_range] at hx
  obtain ⟨j, hj, rfl⟩ := hx
  have hmem : j + 1 ∈ List.range' 1 n := by
    simp only [List.mem_range'_1]
    omega
  rcases hstatus (j + 1) hmem with h | h
  · simp [h, JSVal.isNumber]
  · by_cases hu : Record.field data (statusKey (j + 1)) = JSVal.undefined
    · simp [hu, JSVal.isNumber]
    · simp [hu, h]

theorem anomalyObservations_numbers (farm : String) (kind : JSVal) :
    ∀ x ∈ anomalyObservations farm kind, x.value.isNumber = true := by
  intro x hx
  simp only [anomalyObservations, List.mem_map] at hx
  obtain ⟨k, _, rfl⟩ := hx
  rfl

theorem productionCalls_metric (farm : String) (data : Record) (m : String)
    (hm : ∀ fg ∈ productionGauges, fg.2 ≠ m) :
    ∀ o ∈ productionGauges.map (fun fg =>
        ({ metric := fg.2, labels := [("farm", farm)],
           value := JSVal.orElse (Record.field data fg.1) (JSVal.num (JSNum.ofNat 0)) } :
          Observation)),
      o.metric ≠ m := by
  intro o ho
  obtain ⟨fg, hfg, rfl⟩ := List.mem_map.mp ho
  exact hm fg hfg

theorem inverterObservations_metric (farm : String) (data : Record) (n : Nat) :
    ∀ o ∈ inverterObservations farm data n, o.metric = "solar_inverter_status" := by
  intro o ho
  simp only [inverterObservations, List.mem_map] at ho
  obtain ⟨j, _, rfl⟩ := ho
  rfl

theorem anomalyObservations_metric (farm : String) (kind : JSVal) :
    ∀ o ∈ anomalyObservations farm kind, o.metric = "solar_anomaly_active" := by
  intro o ho
  simp only [anomalyObservations, List.mem_map] at ho
  obtain ⟨k, _, rfl⟩ := ho
  rfl

/-- When the fields that are present are well-typed, every value of the body is a number. -/
theorem setCalls_values_are_numbers (farm : String) (c : FarmConfig) (data : Record)
    (clock : Clock) (hc : Obj.getProp FARMS_CONFIG farm = Lookup.own c)
    (hnum : ∀ fg ∈ numericGauges,
      Record.field data fg.1 = JSVal.undefined ∨ (Record.field data fg.1).isNumber = true)
    (hstatus : ∀ i ∈ List.range' 1 c.inverters,
      Record.field data (statusKey i) = JSVal.undefined
        ∨ (Record.field data (statusKey i)).isNumber = true)
    (hsev : Record.field data "anomaly_severity" = JSVal.undefined
      ∨ ∃ s, s ∈ ["low", "medium", "high"] ∧ Record.field data "anomaly_severity" = JSVal.str s)
    (o : Observation) (ho : o ∈ setCalls farm (some data) clock) :
    o.value.isNumber = true := by
  have hn : ∀ fg ∈ numericGauges,
      (JSVal.orElse (Record.field data fg.1) (JSVal.num (JSNum.ofNat 0))).isNumber = true :=
    fun fg hfg => JSVal.isNumber_orElse _ _ (hnum fg hfg)
  have hinv := inverterObservations_numbers farm data c.inverters hstatus
  have hano := anomalyObservations_numbers farm
    (JSVal.orElse (Record.field data "anomaly_type") (JSVal.str "NORMAL"))
  revert o
  simp only [setCalls, hc, List.forall_mem_append, List.forall_mem_cons,
    List.not_mem_nil, false_imp_iff, implies_true, and_true]
  exact ⟨⟨⟨⟨⟨hn ("power_production_kw", "solar_power_production_kw") (by decide),
    hn ("theoretical_power_kw", "solar_power_theoretical_kw") (by decide),
    hn ("irradiance_wm2", "solar_irradiance_wm2") (by decide),
    hn ("panel_temp_c", "solar_panel_temperature_celsius") (by decide),
    hn ("ambient_temp_c", "solar_ambient_temperature_celsius") (by decide),
    hn ("efficiency_percent", "solar_efficiency_percent") (by decide),
    hn ("daily_revenue_eur", "solar_daily_revenue_euros") (by decide)⟩, hinv⟩, rfl⟩, hano⟩,
    severityLevel_isNumber _ hsev, rfl, rfl, rfl,
    hn ("hour", "solar_simulated_hour") (by decide),
    hn ("day_of_year", "solar_simulated_day") (by decide)⟩

/-- On a well-typed record no call raises: the calls made are the calls of the body. -/
theorem updateFarmMetrics_eq_setCalls (farm : String) (c : FarmConfig) (data : Record)
    (clock : Clock) (hc : Obj.getProp FARMS_CONFIG farm = Lookup.own c)
    (hnum : ∀ fg ∈ numericGauges,
      Record.field data fg.1 = JSVal.undefined ∨ (Record.field data fg.1).isNumber = true)
    (hstatus : ∀ i ∈ List.range' 1 c.inverters,
      Record.field data (statusKey i) = JSVal.undefined
        ∨ (Record.field data (statusKey i)).isNumber = true)
    (hsev : Record.field data "anomaly_severity" = JSVal.undefined
      ∨ ∃ s, s ∈ ["low", "medium", "high"] ∧ Record.field data "anomaly_severity" = JSVal.str s) :
    updateFarmMetrics farm (some data) clock = setCalls farm (some data) clock :=
  untilRaise_of_numbers _
    (setCalls_values_are_numbers farm c data clock hc hnum hstatus hsev)

/-- When the production fields are falsy or numbers and the statuses absent or numbers, the
calls made are the production calls, the inverter calls, the availability call, the six anomaly
calls and the calls made out of those that close the body. -/
theorem updateFarmMetrics_reaches_anomalies (farm : String) (c : FarmConfig) (data : Record)
    (clock : Clock) (hc : Obj.getProp FARMS_CONFIG farm = Lookup.own c)
    (hprod : ∀ fg ∈ productionGauges,
      (Record.field data fg.1).truthy = false ∨ (Record.field data fg.1).isNumber = true)
    (hstatus : ∀ i ∈ List.range' 1 c.inverters,
      Record.field data (statusKey i) = JSVal.undefined
        ∨ (Record.field data (statusKey i)).isNumber = true) :
    ∃ closing : List Observation,
      updateFarmMetrics farm (some data) clock
        = productionGauges.map (fun fg =>
            { metric := fg.2, labels := [("farm", farm)],
              value := JSVal.orElse (Record.field data fg.1) (JSVal.num (JSNum.ofNat 0)) })
          ++ inverterObservations farm data c.inverters
          ++ [{ metric := "solar_availability_percent", labels := [("farm", farm)],
                value := JSVal.num
                  (JSNum.mul
                    (JSNum.div (JSNum.ofNat (activeInverters data c.inverters))
                      (JSNum.ofNat c.inverters))
                    (JSNum.ofNat 100)) }]
          ++ anomalyObservations farm
              (JSVal.orElse (Record.field data "anomaly_type") (JSVal.str "NORMAL"))
          ++ closing
      ∧ ∀ o ∈ closing, o.metric ∈ ["solar_anomaly_severity", "solar_panel_count",
          "solar_capacity_mw", "solar_last_update_timestamp", "solar_simulated_hour",
          "solar_simulated_day"] := by
  unfold updateFarmMetrics
  rw [setCalls_own farm c data clock hc]
  refine ⟨untilRaise _, untilRaise_append_of_numbers _ _ ?_, ?_⟩
  · simp only [List.forall_mem_append, List.forall_mem_cons, List.not_mem_nil, false_imp_iff,
      implies_true, and_true]
    exact ⟨⟨⟨productionCalls_numbers farm data hprod,
      inverterObservations_numbers farm data c.inverters hstatus⟩, rfl⟩,
      anomalyObservations_numbers farm _⟩
  · intro o ho
    have := mem_of_mem_untilRaise _ o ho
    simp only [List.mem_cons, List.mem_singleton, List.not_mem_nil, or_false] at this
    rcases this with rfl | rfl | rfl | rfl | rfl | rfl <;> simp


/-! ### The availability in the arithmetic of doubles -/

section Availability

open JSNum

theorem availability_3_0 :
    JSNum.mul (JSNum.div (JSNum.ofNat 0) (JSNum.ofNat 3)) (JSNum.ofNat 100) = JSNum.fin 0 := by
  simp [JSNum.div, JSNum.mul, JSNum.ofNat, round_zero]

theorem availability_3_1 :
    JSNum.mul (JSNum.div (JSNum.ofNat 1) (JSNum.ofNat 3)) (JSNum.ofNat 100)
      = JSNum.fin (2345624805922133 / 70368744177664) := by
  have h1 : JSNum.round ((1 : ℚ) / 3) = JSNum.fin (6004799503160661 / 18014398509481984) :=
    round_eq (-2) 6004799503160661 (by norm_num) (by norm_num) (by norm_num)
      (by norm_num) (by rw [abs_lt]; constructor <;> norm_num) (by norm_num)
  have h2 : JSNum.round ((6004799503160661 / 18014398509481984 : ℚ) * 100) = JSNum.fin (2345624805922133 / 70368744177664) :=
    round_eq (5) 4691249611844266 (by norm_num) (by norm_num) (by norm_num)
      (by norm_num) (by rw [abs_lt]; constructor <;> norm_num) (by norm_num)
  simp only [JSNum.div, JSNum.mul, JSNum.ofNat, Nat.cast_ofNat, Nat.cast_one]
  rw [if_neg (by norm_num), h1]
  exact h2

theorem availability_3_2 :
    JSNum.mul (JSNum.div (JSNum.ofNat 2) (JSNum.ofNat 3)) (JSNum.ofNat 100)
      = JSNum.fin (2345624805922133 / 35184372088832) := by
  have h1 : JSNum.round ((2 : ℚ) / 3) = JSNum.fin (6004799503160661 / 9007199254740992) :=
    round_eq (-1) 6004799503160661 (by norm_num) (by norm_num) (by norm_num)
      (by norm_num) (by rw [abs_lt]; constructor <;> norm_num) (by norm_num)
  have h2 : JSNum.round ((6004799503160661 / 9007199254740992 : ℚ) * 100) = JSNum.fin (2345624805922133 / 35184372088832) :=
    round_eq (6) 4691249611844266 (by norm_num) (by norm_num) (by norm_num)
      (by norm_num) (by rw [abs_lt]; constructor <;> norm_num) (by norm_num)
  simp only [JSNum.div, JSNum.mul, JSNum.ofNat, Nat.cast_ofNat, Nat.cast_one]
  rw [if_neg (by norm_num), h1]
  exact h2

theorem availability_3_3 :
    JSNum.mul (JSNum.div (JSNum.ofNat 3) (JSNum.ofNat 3)) (JSNum.ofNat 100)
      = JSNum.fin (100) := by
  have h1 : JSNum.round ((3 : ℚ) / 3) = JSNum.fin (1) :=
    round_eq (0) 4503599627370496 (by norm_num) (by norm_num) (by norm_num)
      (by norm_num) (by rw [abs_lt]; constructor <;> norm_num) (by norm_num)
  have h2 : JSNum.round ((1 : ℚ) * 100) = JSNum.fin (100) :=
    round_eq (6) 7036874417766400 (by norm_num) (by norm_num) (by norm_num)
      (by norm_num) (by rw [abs_lt]; constructor <;> norm_num) (by norm_num)
  simp only [JSNum.div, JSNum.mul, JSNum.ofNat, Nat.cast_ofNat, Nat.cast_one]
  rw [if_neg (by norm_num), h1]
  exact h2

theorem availability_4_0 :
    JSNum.mul (JSNum.div (JSNum.ofNat 0) (JSNum.ofNat 4)) (JSNum.ofNat 100) = JSNum.fin 0 := by
  simp [JSNum.div, JSNum.mul, JSNum.ofNat, round_zero]

theorem availability_4_1 :
    JSNum.mul (JSNum.div (JSNum.ofNat 1) (JSNum.ofNat 4)) (JSNum.ofNat 100)
      = JSNum.fin (25) := by
  have h1 : JSNum.round ((1 : ℚ) / 4) = JSNum.fin (1 / 4) :=
    round_eq (-2) 4503599627370496 (by norm_num) (by norm_num) (by norm_num)
      (by norm_num) (by rw [abs_lt]; constructor <;> norm_num) (by norm_num)
  have h2 : JSNum.round ((1 / 4 : ℚ) * 100) = JSNum.fin (25) :=
    round_eq (4) 7036874417766400 (by norm_num) (by norm_num) (by norm_num)
      (by norm_num) (by rw [abs_lt]; constructor <;> norm_num) (by norm_num)
  simp only [JSNum.div, JSNum.mul, JSNum.ofNat, Nat.cast_ofNat, Nat.cast_one]
  rw [if_neg (by norm_num), h1]
  exact h2

theorem availability_4_2 :
    JSNum.mul (JSNum.div (JSNum.ofNat 2) (JSNum.ofNat 4)) (JSNum.ofNat 100)
      = JSNum.fin (50) := by
  have h1 : JSNum.round ((2 : ℚ) / 4) = JSNum.fin (1 / 2) :=
    round_eq (-1) 4503599627370496 (by norm_num) (by norm_num) (by norm_num)
      (by norm_num) (by rw [abs_lt]; constructor <;> norm_num) (by norm_num)
  have h2 : JSNum.round ((1 / 2 : ℚ) * 100) = JSNum.fin (50) :=
    round_eq (5) 7036874417766400 (by norm_num) (by norm_num) (by norm_num)
      (by norm_num) (by rw [abs_lt]; constructor <;> norm_num) (by norm_num)
  simp only [JSNum.div, JSNum.mul, JSNum.ofNat, Nat.cast_ofNat, Nat.cast_one]
  rw [if_neg (by norm_num), h1]
  exact h2

theorem availability_4_3 :
    JSNum.mul (JSNum.div (JSNum.ofNat 3) (JSNum.ofNat 4)) (JSNum.ofNat 100)
      = JSNum.fin (75) := by
  have h1 : JSNum.round ((3 : ℚ) / 4) = JSNum.fin (3 / 4) :=
    round_eq (-1) 6755399441055744 (by norm_num) (by norm_num) (by norm_num)
      (by norm_num) (by rw [abs_lt]; constructor <;> norm_num) (by norm_num)
  have h2 : JSNum.round ((3 / 4 : ℚ) * 100) = JSNum.fin (75) :=
    round_eq (6) 5277655813324800 (by norm_num) (by norm_num) (by norm_num)
      (by norm_num) (by rw [abs_lt]; constructor <;> norm_num) (by norm_num)
  simp only [JSNum.div, JSNum.mul, JSNum.ofNat, Nat.cast_ofNat, Nat.cast_one]
  rw [if_neg (by norm_num), h1]
  exact h2

theorem availability_4_4 :
    JSNum.mul (JSNum.div (JSNum.ofNat 4) (JSNum.ofNat 4)) (JSNum.ofNat 100)
      = JSNum.fin (100) := by
  have h1 : JSNum.round ((4 : ℚ) / 4) = JSNum.fin (1) :=
    round_eq (0) 4503599627370496 (by norm_num) (by norm_num) (by norm_num)
      (by norm_num) (by rw [abs_lt]; constructor <;> norm_num) (by norm_num)
  have h2 : JSNum.round ((1 : ℚ) * 100) = JSNum.fin (100) :=
    round_eq (6) 7036874417766400 (by norm_num) (by norm_num) (by norm_num)
      (by norm_num) (by rw [abs_lt]; constructor <;> norm_num) (by norm_num)
  simp only [JSNum.div, JSNum.mul, JSNum.ofNat, Nat.cast_ofNat, Nat.cast_one]
  rw [if_neg (by norm_num), h1]
  exact h2

/-- The value `(k / n) * 100` of the availability for the inverter counts of `FARMS_CONFIG`. -/
theorem availability_value (n k : Nat) (hn : n = 3 ∨ n = 4) (hk : k ≤ n) :
    ∃ a : ℚ,
      JSNum.mul (JSNum.div (JSNum.ofNat k) (JSNum.ofNat n)) (JSNum.ofNat 100) = JSNum.fin a
      ∧ 0 ≤ a ∧ a ≤ 100
      ∧ a ≤ 100 * (k : ℚ) / (n : ℚ) ∧ 100 * (k : ℚ) / (n : ℚ) - a ≤ 1 / 2 ^ 46
      ∧ (n = 4 ∨ k = 0 ∨ k = n → a = 100 * (k : ℚ) / (n : ℚ))
      ∧ (n = 3 → k = 1 → a = 2345624805922133 / 70368744177664)
      ∧ (n = 3 → k = 2 → a = 2345624805922133 / 35184372088832) := by
  rcases hn with rfl | rfl
  · interval_cases k
    · exact ⟨_, availability_3_0, by norm_num⟩
    · exact ⟨_, availability_3_1, by norm_num⟩
    · exact ⟨_, availability_3_2, by norm_num⟩
    · exact ⟨_, availability_3_3, by norm_num⟩
  · interval_cases k
    · exact ⟨_, availability_4_0, by norm_num⟩
    · exact ⟨_, availability_4_1, by norm_num⟩
    · exact ⟨_, availability_4_2, by norm_num⟩
    · exact ⟨_, availability_4_3, by norm_num⟩
    · exact ⟨_, availability_4_4, by norm_num⟩

end Availability

theorem activeInverters_le (data : Record) (n : Nat) : activeInverters data n ≤ n := by
  unfold activeInverters
  calc ((List.range n).filter _).length ≤ (List.range n).length := List.length_filter_le _ _
    _ = n := List.length_range n

/-- The field names the two inverter loops read. -/
theorem statusKey_names :
    (List.range' 1 4).map statusKey
      = ["inverter_1_status", "inverter_2_status", "inverter_3_status", "inverter_4_status"] := by
  decide

/-- When the calls before it are made and none raises, the availability gauge is set once, to
`(activeInverters / config.inverters) * 100`. -/
theorem availability_gauge_observation (farm : String) (c : FarmConfig) (data : Record)
    (clock : Clock) (hc : Obj.getProp FARMS_CONFIG farm = Lookup.own c)
    (hprod : ∀ fg ∈ productionGauges,
      (Record.field data fg.1).isNumber = true ∨ (Record.field data fg.1).truthy = false)
    (hstatus : ∀ i ∈ List.range' 1 c.inverters,
      Record.field data (statusKey i) = JSVal.undefined
        ∨ (Record.field data (statusKey i)).isNumber = true) :
    observationsOf "solar_availability_percent" (updateFarmMetrics farm (some data) clock)
      = [{ metric := "solar_availability_percent", labels := [("farm", farm)],
           value := JSVal.num
             (JSNum.mul
               (JSNum.div (JSNum.ofNat (activeInverters data c.inverters))
                 (JSNum.ofNat c.inverters))
               (JSNum.ofNat 100)) }] := by
  obtain ⟨closing, hcalls, hclosing⟩ :=
    updateFarmMetrics_reaches_anomalies farm c data clock hc
      (fun fg hfg => (hprod fg hfg).symm) hstatus
  rw [hcalls]
  simp only [observationsOf_append]
  rw [observationsOf_inverterObservations _ _ _ _ (by decide),
    observationsOf_anomalyObservations _ _ _ (by decide),
    observationsOf_nil_of_ne _ closing (by
      intro o ho
      have := hclosing o ho
      simp only [List.mem_cons, List.mem_singleton, List.not_mem_nil, or_false] at this
      rcases this with h | h | h | h | h | h <;> rw [h] <;> decide)]
  simp [observationsOf, productionGauges]

/-- When the calls before them are made and none raises, the inverter gauge is set by the
calls of the inverter loop. -/
theorem inverter_gauge_calls (farm : String) (c : FarmConfig) (data : Record)
    (clock : Clock) (hc : Obj.getProp FARMS_CONFIG farm = Lookup.own c)
    (hprod : ∀ fg ∈ productionGauges,
      (Record.field data fg.1).isNumber = true ∨ (Record.field data fg.1).truthy = false)
    (hstatus : ∀ i ∈ List.range' 1 c.inverters,
      Record.field data (statusKey i) = JSVal.undefined
        ∨ (Record.field data (statusKey i)).isNumber = true) :
    observationsOf "solar_inverter_status" (updateFarmMetrics farm (some data) clock)
      = inverterObservations farm data c.inverters := by
  obtain ⟨closing, hcalls, hclosing⟩ :=
    updateFarmMetrics_reaches_anomalies farm c data clock hc
      (fun fg hfg => (hprod fg hfg).symm) hstatus
  rw [hcalls]
  simp only [observationsOf_append, observationsOf_inverterObservations_self]
  rw [observationsOf_anomalyObservations _ _ _ (by decide),
    observationsOf_nil_of_ne _ closing (by
      intro o ho
      have := hclosing o ho
      simp only [List.mem_cons, List.mem_singleton, List.not_mem_nil, or_false] at this
      rcases this with h | h | h | h | h | h <;> rw [h] <;> decide)]
  simp [observationsOf, productionGauges]

/-- When the calls before them are made and none raises, the anomaly gauge is set by the six
calls of the anomaly loop. -/
theorem anomaly_gauge_calls (farm : String) (c : FarmConfig) (data : Record)
    (clock : Clock) (hc : Obj.getProp FARMS_CONFIG farm = Lookup.own c)
    (hprod : ∀ fg ∈ productionGauges,
      (Record.field data fg.1).isNumber = true ∨ (Record.field data fg.1).truthy = false)
    (hstatus : ∀ i ∈ List.range' 1 c.inverters,
      Record.field data (statusKey i) = JSVal.undefined
        ∨ (Record.field data (statusKey i)).isNumber = true) :
    observationsOf "solar_anomaly_active" (updateFarmMetrics farm (some data) clock)
      = anomalySnapshot farm (fun k =>
          if JSVal.str k = JSVal.orElse (Record.field data "anomaly_type") (JSVal.str "NORMAL")
          then 1 else 0) := by
  obtain ⟨closing, hcalls, hclosing⟩ :=
    updateFarmMetrics_reaches_anomalies farm c data clock hc
      (fun fg hfg => (hprod fg hfg).symm) hstatus
  rw [hcalls]
  simp only [observationsOf_append, anomalyObservations_eq_snapshot]
  rw [observationsOf_inverterObservations _ _ _ _ (by decide),
    observationsOf_nil_of_ne _ closing (by
      intro o ho
      have := hclosing o ho
      simp only [List.mem_cons, List.mem_singleton, List.not_mem_nil, or_false] at this
      rcases this with h | h | h | h | h | h <;> rw [h] <;> decide)]
  simp [observationsOf, productionGauges]


/-! ## Claims on the metrics projector -/

/-- C8, as stated, fails: for `occitanie`, which has 3 inverters, and a well-typed record with
inverters 1 and 2 running and inverter 3 down, the availability observation is
`(2 / 3) * 100` in the arithmetic of doubles, 66.66666666666666: it is below `100 * 2 / 3`
and is not the double nearest to `100 * 2 / 3` either, which is 66.66666666666667. -/
theorem availability_not_exact :
    (Finset.filter
        (fun i => Record.field occitanieRecord (statusKey i) ≠ JSVal.num (JSNum.ofNat 0))
        (Finset.Icc 1 3)).card = 2
    ∧ observationsOf "solar_availability_percent"
        (updateFarmMetrics "occitanie" (some occitanieRecord) sampleClock)
      = [{ metric := "solar_availability_percent", labels := [("farm", "occitanie")],
           value := JSVal.num (JSNum.fin (2345624805922133 / 35184372088832)) }]
    ∧ (2345624805922133 / 35184372088832 : ℚ) < 100 * 2 / 3
    ∧ JSNum.roundQ (100 * 2 / 3) = 4691249611844267 / 70368744177664
    ∧ (2345624805922133 / 35184372088832 : ℚ) ≠ 4691249611844267 / 70368744177664 := by
  refine ⟨by decide, ?_, by norm_num, ?_, by norm_num⟩
  · rw [availability_gauge_observation "occitanie"
        { name := "occitanie", location := "Montpellier", latitude := 436 / 10, panels := 3500,
          capacity_mw := 14 / 10, inverters := 3, panel_power_w := 400,
          csvFile := "occitanie_data.csv" }
        occitanieRecord sampleClock rfl (by decide) (by decide)]
    have hk : activeInverters occitanieRecord 3 = 2 := by decide
    simp only [hk, availability_3_2]
  · exact roundQ_eq 6 4691249611844267 (by norm_num) (by norm_num) (by norm_num)
      (by rw [abs_lt]; constructor <;> norm_num) (by norm_num)

/-- C8 (amended). For a configured installation with `n` inverters and a record whose
production fields are numbers or falsy and whose statuses `1..n` are numbers or absent,
`updateFarmMetrics` sets the availability gauge once, to the double `(k / n) * 100`, the
quotient being rounded before the product, where `k` is the number of indices `i` in `1..n`
whose `inverter_i_status` is not `0` (a missing status is `undefined`, hence counted). The
value is at most `100 * k / n` and within `2 ^ -46` of it; it is `100 * k / n` when `n`
is 4 or `k` is 0 or `n`, 33.33333333333333 for 1 of 3 and 66.66666666666666 for 2 of 3. -/
theorem availability_observation (farm : String) (c : FarmConfig) (data : Record) (clock : Clock)
    (hc : Obj.getProp FARMS_CONFIG farm = Lookup.own c)
    (hprod : ∀ fg ∈ productionGauges,
      (Record.field data fg.1).isNumber = true ∨ (Record.field data fg.1).truthy = false)
    (hstatus : ∀ i ∈ List.range' 1 c.inverters,
      Record.field data (statusKey i) = JSVal.undefined
        ∨ (Record.field data (statusKey i)).isNumber = true) :
    ∃ a : ℚ,
      observationsOf "solar_availability_percent" (updateFarmMetrics farm (some data) clock)
        = [{ metric := "solar_availability_percent", labels := [("farm", farm)],
             value := JSVal.num (JSNum.fin a) }]
      ∧ JSNum.fin a
        = JSNum.mul
            (JSNum.div
              (JSNum.ofNat (Finset.filter
                (fun i => Record.field data (statusKey i) ≠ JSVal.num (JSNum.ofNat 0))
                (Finset.Icc 1 c.inverters)).card)
              (JSNum.ofNat c.inverters))
            (JSNum.ofNat 100)
      ∧ a ≤ 100 * ((Finset.filter
            (fun i => Record.field data (statusKey i) ≠ JSVal.num (JSNum.ofNat 0))
            (Finset.Icc 1 c.inverters)).card : ℚ) / (c.inverters : ℚ)
      ∧ 100 * ((Finset.filter
            (fun i => Record.field data (statusKey i) ≠ JSVal.num (JSNum.ofNat 0))
            (Finset.Icc 1 c.inverters)).card : ℚ) / (c.inverters : ℚ) - a ≤ 1 / 2 ^ 46
      ∧ (c.inverters = 4
          ∨ (Finset.filter
              (fun i => Record.field data (statusKey i) ≠ JSVal.num (JSNum.ofNat 0))
              (Finset.Icc 1 c.inverters)).card = 0
          ∨ (Finset.filter
              (fun i => Record.field data (statusKey i) ≠ JSVal.num (JSNum.ofNat 0))
              (Finset.Icc 1 c.inverters)).card = c.inverters →
          a = 100 * ((Finset.filter
            (fun i => Record.field data (statusKey i) ≠ JSVal.num (JSNum.ofNat 0))
            (Finset.Icc 1 c.inverters)).card : ℚ) / (c.inverters : ℚ))
      ∧ (c.inverters = 3 →
          (Finset.filter
            (fun i => Record.field data (statusKey i) ≠ JSVal.num (JSNum.ofNat 0))
            (Finset.Icc 1 c.inverters)).card = 1 →
          a = 2345624805922133 / 70368744177664)
      ∧ (c.inverters = 3 →
          (Finset.filter
            (fun i => Record.field data (statusKey i) ≠ JSVal.num (JSNum.ofNat 0))
            (Finset.Icc 1 c.inverters)).card = 2 →
          a = 2345624805922133 / 35184372088832)
      ∧ (List.range' 1 4).map statusKey
          = ["inverter_1_status", "inverter_2_status", "inverter_3_status",
             "inverter_4_status"] := by
  have hobs := availability_gauge_observation farm c data clock hc hprod hstatus
  rw [activeInverters_eq_card] at hobs
  have hk : (Finset.filter
      (fun i => Record.field data (statusKey i) ≠ JSVal.num (JSNum.ofNat 0))
      (Finset.Icc 1 c.inverters)).card ≤ c.inverters := by
    rw [← activeInverters_eq_card]; exact activeInverters_le data c.inverters
  obtain ⟨a, ha, h0, h100, hle, hnear, hexact, h31, h32⟩ :=
    availability_value c.inverters _ (FARMS_CONFIG_inverters farm c hc) hk
  refine ⟨a, ?_, ha.symm, hle, hnear, hexact, h31, h32, statusKey_names⟩
  rw [hobs, ha]

theorem availability_observation_witness :
    ∃ a : ℚ,
      observationsOf "solar_availability_percent"
          (updateFarmMetrics "provence" (some sampleInverterRecord) sampleClock)
        = [{ metric := "solar_availability_percent", labels := [("farm", "provence")],
             value := JSVal.num (JSNum.fin a) }]
      ∧ a = 75 := by
  obtain ⟨a, h1, _, _, _, hexact, _⟩ := availability_observation "provence"
    { name := "provence", location := "Marseille", latitude := 433 / 10, panels := 5000,
      capacity_mw := 2, inverters := 4, panel_power_w := 400, csvFile := "provence_data.csv" }
    sampleInverterRecord sampleClock rfl (by decide) (by decide)
  have hcard : (Finset.filter
      (fun i => Record.field sampleInverterRecord (statusKey i) ≠ JSVal.num (JSNum.ofNat 0))
      (Finset.Icc 1 4)).card = 3 := by decide
  refine ⟨a, h1, ?_⟩
  rw [hexact (Or.inl rfl), hcard]
  norm_num

/-- C9, as stated, fails: a record whose kind is the empty string, which is not one of the six
kinds, does not yield six zeros; it is counted as `NORMAL`. -/
theorem anomaly_empty_kind_counts_as_normal :
    "" ∉ Obj.keys ANOMALY_TYPES
    ∧ observationsOf "solar_anomaly_active"
        (updateFarmMetrics "provence" (some [("anomaly_type", JSVal.str "")]) sampleClock)
      = anomalySnapshot "provence" (fun k => if k = "NORMAL" then 1 else 0)
    ∧ observationsOf "solar_anomaly_active"
        (updateFarmMetrics "provence" (some [("anomaly_type", JSVal.str "")]) sampleClock)
      ≠ anomalySnapshot "provence" (fun _ => 0) := by
  refine ⟨by decide, by decide, by decide⟩

/-- C9 (amended). For a configured installation and a record whose production fields are
numbers or falsy and whose statuses `1..n` are numbers or absent, `updateFarmMetrics` sets the
anomaly gauge exactly six times, once per kind in the order `NORMAL`, `OVERHEAT`,
`INVERTER_DOWN`, `DEGRADATION`, `SHADING`, `SENSOR_FAIL`, to 1 if the kind equals
`data.anomaly_type || 'NORMAL'` and to 0 otherwise. So an absent or otherwise falsy kind gives
`NORMAL` 1 and the rest 0; a non-empty string kind `s` gives 1 exactly at `s`, which is one 1
for a known kind and six 0s for an unknown one. For any other record, one with a production
field that is truthy and not a number or a status `1..n` that is neither `undefined` nor a
number, the call of `set` given that value raises before the anomaly loop, and no anomaly
observation is made. -/
theorem anomaly_observations_one_hot (farm : String) (c : FarmConfig) (data : Record)
    (clock : Clock) (hc : Obj.getProp FARMS_CONFIG farm = Lookup.own c) :
    ((∀ fg ∈ productionGauges,
        (Record.field data fg.1).isNumber = true ∨ (Record.field data fg.1).truthy = false) →
      (∀ i ∈ List.range' 1 c.inverters,
        Record.field data (statusKey i) = JSVal.undefined
          ∨ (Record.field data (statusKey i)).isNumber = true) →
      observationsOf "solar_anomaly_active" (updateFarmMetrics farm (some data) clock)
          = anomalySnapshot farm (fun k =>
              if JSVal.str k
                  = JSVal.orElse (Record.field data "anomaly_type") (JSVal.str "NORMAL")
              then 1 else 0)
      ∧ ((Record.field data "anomaly_type").truthy = false →
          observationsOf "solar_anomaly_active" (updateFarmMetrics farm (some data) clock)
            = anomalySnapshot farm (fun k => if k = "NORMAL" then 1 else 0))
      ∧ (∀ s : String, s ≠ "" → Record.field data "anomaly_type" = JSVal.str s →
          observationsOf "solar_anomaly_active" (updateFarmMetrics farm (some data) clock)
            = anomalySnapshot farm (fun k => if k = s then 1 else 0)))
    ∧ ((∃ fg ∈ productionGauges,
          (Record.field data fg.1).isNumber = false ∧ (Record.field data fg.1).truthy = true)
        ∨ (∃ i ∈ List.range' 1 c.inverters,
          Record.field data (statusKey i) ≠ JSVal.undefined
            ∧ (Record.field data (statusKey i)).isNumber = false) →
      observationsOf "solar_anomaly_active" (updateFarmMetrics farm (some data) clock) = []) := by
  constructor
  · intro hprod hstatus
    have main := anomaly_gauge_calls farm c data clock hc hprod hstatus
    refine ⟨main, fun hfalsy => ?_, fun s hs hfield => ?_⟩
    · rw [main]
      simp [JSVal.orElse, hfalsy]
    · rw [main]
      simp [JSVal.orElse, hfield, JSVal.truthy, hs]
  · intro hbad
    unfold updateFarmMetrics
    rw [setCalls_own farm c data clock hc]
    have hraise : ∃ o ∈ productionGauges.map (fun fg =>
          ({ metric := fg.2, labels := [("farm", farm)],
             value := JSVal.orElse (Record.field data fg.1) (JSVal.num (JSNum.ofNat 0)) } :
            Observation))
          ++ inverterObservations farm data c.inverters,
        o.value.isNumber = false := by
      rcases hbad with ⟨fg, hfg, hnn, htr⟩ | ⟨i, hi, hne, hnn⟩
      · refine ⟨_, List.mem_append_left _ (List.mem_map.mpr ⟨fg, hfg, rfl⟩), ?_⟩
        simp [JSVal.orElse, htr, hnn]
      · have hi' : 1 ≤ i ∧ i < 1 + c.inverters := by
          simpa [List.mem_range'_1] using hi
        refine ⟨_, List.mem_append_right _ (by
          simp only [inverterObservations, List.mem_map, List.mem_range]
          exact ⟨i - 1, by omega, rfl⟩), ?_⟩
        have e : i - 1 + 1 = i := by omega
        simp [e, hne, hnn]
    rw [List.append_assoc, List.append_assoc, untilRaise_append_of_raise _ _ hraise]
    apply observationsOf_untilRaise_nil
    intro o ho
    rcases List.mem_append.mp ho with ho | ho
    · exact productionCalls_metric farm data _ (by decide) o ho
    · rw [inverterObservations_metric farm data c.inverters o ho]
      decide

theorem anomaly_observations_one_hot_witness :
    observationsOf "solar_anomaly_active"
        (updateFarmMetrics "provence" (some sampleInverterRecord) sampleClock)
      = anomalySnapshot "provence" (fun k => if k = "OVERHEAT" then 1 else 0)
    ∧ observationsOf "solar_anomaly_active"
        (updateFarmMetrics "provence" (some unparsedPowerRecord) sampleClock) = [] :=
  ⟨((anomaly_observations_one_hot "provence"
      { name := "provence", location := "Marseille", latitude := 433 / 10, panels := 5000,
        capacity_mw := 2, inverters := 4, panel_power_w := 400, csvFile := "provence_data.csv" }
      sampleInverterRecord sampleClock rfl).1 (by decide) (by decide)).2.2
      "OVERHEAT" (by decide) (by decide),
   (anomaly_observations_one_hot "provence"
      { name := "provence", location := "Marseille", latitude := 433 / 10, panels := 5000,
        capacity_mw := 2, inverters := 4, panel_power_w := 400, csvFile := "provence_data.csv" }
      unparsedPowerRecord sampleClock rfl).2
      (Or.inl ⟨("power_production_kw", "solar_power_production_kw"), by decide, by decide,
        by decide⟩)⟩

/-- C10. The severity gauge is not set to 0 for every unrecognized severity: for the string
`constructor`, which names a property `severityMap` inherits, `updateFarmMetrics` passes the
inherited value to the gauge (and likewise for `toString`). The recognized levels and the
other defaults are as the help text says: `low` 0, `medium` 1, `high` 2, absent 0, and 0 for a
string such as `critical`. -/
theorem severity_inherited_name_not_zero :
    observationsOf "solar_anomaly_severity"
        (updateFarmMetrics "provence" (some [("anomaly_severity", JSVal.str "constructor")])
          sampleClock)
      = [{ metric := "solar_anomaly_severity", labels := [("farm", "provence")],
           value := JSVal.builtin "constructor" }]
    ∧ severityLevel (JSVal.str "toString") = JSVal.builtin "toString"
    ∧ severityLevel (JSVal.str "low") = JSVal.num (JSNum.ofNat 0)
    ∧ severityLevel (JSVal.str "medium") = JSVal.num (JSNum.ofNat 1)
    ∧ severityLevel (JSVal.str "high") = JSVal.num (JSNum.ofNat 2)
    ∧ severityLevel JSVal.undefined = JSVal.num (JSNum.ofNat 0)
    ∧ severityLevel (JSVal.str "critical") = JSVal.num (JSNum.ofNat 0) := by
  refine ⟨by decide, by decide, by decide, by decide, by decide, by decide, by decide⟩


/-! ## Further properties of the metrics projector -/

/-- Every call made is one of the calls of the body. -/
theorem mem_setCalls_of_mem (farm : String) (data : Option Record) (clock : Clock)
    (o : Observation) (ho : o ∈ updateFarmMetrics farm data clock) :
    o ∈ setCalls farm data clock :=
  mem_of_mem_untilRaise _ o ho

/-- C11. For a configured installation and a record whose fields, when present, are well-typed
(numeric fields and inverter statuses hold numbers, the severity is `low`, `medium` or `high`),
whatever subset of fields is absent: each numeric field that is absent is emitted as 0, an
absent anomaly kind gives the observations of `NORMAL`, an absent severity gives level 0, the
level of `low`; and every value handed to a gauge is a number, so no call of `set` raises. -/
theorem updateFarmMetrics_absent_fields (farm : String) (c : FarmConfig) (data : Record)
    (clock : Clock) (hc : Obj.getProp FARMS_CONFIG farm = Lookup.own c)
    (hnum : ∀ fg ∈ numericGauges,
      Record.field data fg.1 = JSVal.undefined ∨ (Record.field data fg.1).isNumber = true)
    (hstatus : ∀ i ∈ List.range' 1 c.inverters,
      Record.field data (statusKey i) = JSVal.undefined
        ∨ (Record.field data (statusKey i)).isNumber = true)
    (hsev : Record.field data "anomaly_severity" = JSVal.undefined
      ∨ ∃ s, s ∈ ["low", "medium", "high"]
          ∧ Record.field data "anomaly_severity" = JSVal.str s) :
    (∀ fg ∈ numericGauges, Record.field data fg.1 = JSVal.undefined →
      observationsOf fg.2 (updateFarmMetrics farm (some data) clock)
        = [{ metric := fg.2, labels := [("farm", farm)], value := JSVal.num (JSNum.ofNat 0) }])
    ∧ (Record.field data "anomaly_type" = JSVal.undefined →
      observationsOf "solar_anomaly_active" (updateFarmMetrics farm (some data) clock)
        = anomalySnapshot farm (fun k => if k = "NORMAL" then 1 else 0))
    ∧ (Record.field data "anomaly_severity" = JSVal.undefined →
      observationsOf "solar_anomaly_severity" (updateFarmMetrics farm (some data) clock)
        = [{ metric := "solar_anomaly_severity", labels := [("farm", farm)],
             value := JSVal.num (JSNum.ofNat 0) }])
    ∧ severityLevel (JSVal.str "low") = JSVal.num (JSNum.ofNat 0)
    ∧ (∀ o ∈ updateFarmMetrics farm (some data) clock, o.value.isNumber = true)
    ∧ raised (updateFarmMetrics farm (some data) clock) = false := by
  have heq := updateFarmMetrics_eq_setCalls farm c data clock hc hnum hstatus hsev
  have hall : ∀ o ∈ updateFarmMetrics farm (some data) clock, o.value.isNumber = true := by
    rw [heq]
    exact setCalls_values_are_numbers farm c data clock hc hnum hstatus hsev
  refine ⟨fun fg hfg habs => ?_, fun habs => ?_, fun habs => ?_, by decide, hall, ?_⟩
  · rw [heq, numeric_gauge_observation farm c data clock hc fg hfg, habs]
    simp [JSVal.orElse, JSVal.truthy]
  · rw [heq, anomaly_gauge_observations farm c data clock hc, habs]
    simp [JSVal.orElse, JSVal.truthy]
  · rw [heq, severity_gauge_observation farm c data clock hc, habs]
    simp [severityLevel, propertyKey, Obj.getProp, Obj.getOwn, severityMap, objectPrototypeKeys]
  · simp only [raised, List.any_eq_false, Bool.not_eq_true', Bool.not_eq_false]
    intro o ho
    simpa using hall o ho

theorem updateFarmMetrics_absent_fields_witness :
    observationsOf "solar_irradiance_wm2"
        (updateFarmMetrics "occitanie" (some incompleteRecord) sampleClock)
      = [{ metric := "solar_irradiance_wm2", labels := [("farm", "occitanie")],
           value := JSVal.num (JSNum.ofNat 0) }]
    ∧ ∀ o ∈ updateFarmMetrics "occitanie" (some incompleteRecord) sampleClock,
        o.value.isNumber = true :=
  ⟨(updateFarmMetrics_absent_fields "occitanie"
      { name := "occitanie", location := "Montpellier", latitude := 436 / 10, panels := 3500,
        capacity_mw := 14 / 10, inverters := 3, panel_power_w := 400,
        csvFile := "occitanie_data.csv" }
      incompleteRecord sampleClock rfl (by decide) (by decide) (Or.inl (by decide))).1
      ("irradiance_wm2", "solar_irradiance_wm2") (by decide) (by decide),
   (updateFarmMetrics_absent_fields "occitanie"
      { name := "occitanie", location := "Montpellier", latitude := 436 / 10, panels := 3500,
        capacity_mw := 14 / 10, inverters := 3, panel_power_w := 400,
        csvFile := "occitanie_data.csv" }
      incompleteRecord sampleClock rfl (by decide) (by decide)
      (Or.inl (by decide))).2.2.2.2.1⟩

/-- The inverter loop written over the indices `1..n`. -/
theorem inverterObservations_eq_map (farm : String) (data : Record) (n : Nat) :
    inverterObservations farm data n
      = (List.range' 1 n).map (fun i =>
          { metric := "solar_inverter_status"
            labels := [("farm", farm), ("inverter_id", toString i)]
            value := if Record.field data (statusKey i) = JSVal.undefined
              then JSVal.num (JSNum.ofNat 1) else Record.field data (statusKey i) }) := by
  simp only [inverterObservations, List.range'_eq_map_range, List.map_map]
  apply List.map_congr_left
  intro j _
  simp only [Function.comp, Nat.add_comm 1 j]
  by_cases h : Record.field data (statusKey (j + 1)) = JSVal.undefined <;> simp [h]

/-- C12, as stated, fails: on a record with an unparseable text in the power cell the first
call of `set` is given the text, which is not a number; that call raises, so the function fails
and makes no other call: no default takes the place of the text, and no value is emitted for
the other fields. -/
theorem updateFarmMetrics_raises_on_text :
    updateFarmMetrics "provence" (some malformedRecord) sampleClock
      = [{ metric := "solar_power_production_kw", labels := [("farm", "provence")],
           value := JSVal.str "abc" }]
    ∧ (JSVal.str "abc").isNumber = false
    ∧ raised (updateFarmMetrics "provence" (some malformedRecord) sampleClock) = true := by
  refine ⟨by decide, by decide, by decide⟩

/-- C12 (amended). For a configured installation and any record, a call of `set` made on the
gauge of a numeric field is given 0 when the field is falsy (absent, `null`, `NaN`, 0 or the
empty text) and the field's own value otherwise; a call made on the gauge of inverter `i`, for
`i` in `1..n`, is given 1 when the status is `undefined` and the status itself otherwise. The
calls made are the calls of the body up to the first one whose value is not a number, that call
included: it raises and ends the function. So every call made but the last carries a number;
either every call of the body is made and none raises, or the last call made is the one that
raises; and a power field that is truthy and not a number leaves that one call. -/
theorem updateFarmMetrics_default_only_when_falsy (farm : String) (c : FarmConfig)
    (data : Record) (clock : Clock) (hc : Obj.getProp FARMS_CONFIG farm = Lookup.own c) :
    (∀ fg ∈ numericGauges, ∀ o ∈ updateFarmMetrics farm (some data) clock, o.metric = fg.2 →
      o.labels = [("farm", farm)]
      ∧ ((Record.field data fg.1).truthy = false → o.value = JSVal.num (JSNum.ofNat 0))
      ∧ ((Record.field data fg.1).truthy = true → o.value = Record.field data fg.1))
    ∧ (∀ i ∈ List.range' 1 c.inverters, ∀ o ∈ updateFarmMetrics farm (some data) clock,
      o.metric = "solar_inverter_status" →
      o.labels = [("farm", farm), ("inverter_id", toString i)] →
      (Record.field data (statusKey i) = JSVal.undefined → o.value = JSVal.num (JSNum.ofNat 1))
      ∧ (Record.field data (statusKey i) ≠ JSVal.undefined →
          o.value = Record.field data (statusKey i)))
    ∧ (∃ rest, setCalls farm (some data) clock
        = updateFarmMetrics farm (some data) clock ++ rest)
    ∧ (∀ o ∈ (updateFarmMetrics farm (some data) clock).dropLast, o.value.isNumber = true)
    ∧ ((updateFarmMetrics farm (some data) clock = setCalls farm (some data) clock
          ∧ ∀ o ∈ setCalls farm (some data) clock, o.value.isNumber = true)
        ∨ ∃ o, (updateFarmMetrics farm (some data) clock).getLast? = some o
            ∧ o.value.isNumber = false)
    ∧ ((Record.field data "power_production_kw").truthy = true →
        (Record.field data "power_production_kw").isNumber = false →
        updateFarmMetrics farm (some data) clock
          = [{ metric := "solar_power_production_kw", labels := [("farm", farm)],
               value := Record.field data "power_production_kw" }]) := by
  refine ⟨fun fg hfg o ho hm => ?_, fun i hi o ho hm hl => ?_, untilRaise_initial _,
    untilRaise_dropLast _, untilRaise_last _, fun htr hnn => ?_⟩
  · have hmem : o ∈ observationsOf fg.2 (setCalls farm (some data) clock) := by
      simp only [observationsOf, List.mem_filter, decide_eq_true_eq]
      exact ⟨mem_setCalls_of_mem _ _ _ o ho, hm⟩
    rw [numeric_gauge_observation farm c data clock hc fg hfg, List.mem_singleton] at hmem
    subst hmem
    refine ⟨rfl, fun h => ?_, fun h => ?_⟩ <;> simp [JSVal.orElse, h]
  · have hmem : o ∈ observationsOf "solar_inverter_status" (setCalls farm (some data) clock) := by
      simp only [observationsOf, List.mem_filter, decide_eq_true_eq]
      exact ⟨mem_setCalls_of_mem _ _ _ o ho, hm⟩
    rw [inverter_gauge_observations farm c data clock hc, inverterObservations_eq_map,
      List.mem_map] at hmem
    obtain ⟨j, hj, rfl⟩ := hmem
    simp only [List.cons.injEq, Prod.mk.injEq, true_and, and_true] at hl
    have hji : j = i := by
      have h1 := (toString_nat_spec j).2
      have h2 := (toString_nat_spec i).2
      rw [← h1, ← h2, hl]
    subst hji
    constructor <;> intro h <;> simp [h]
  · unfold updateFarmMetrics
    rw [setCalls_own farm c data clock hc]
    simp [productionGauges, untilRaise, JSVal.orElse, htr, hnn]

theorem updateFarmMetrics_default_only_when_falsy_witness :
    updateFarmMetrics "provence" (some malformedRecord) sampleClock
      = [{ metric := "solar_power_production_kw", labels := [("farm", "provence")],
           value := Record.field malformedRecord "power_production_kw" }] :=
  (updateFarmMetrics_default_only_when_falsy "provence"
    { name := "provence", location := "Marseille", latitude := 433 / 10, panels := 5000,
      capacity_mw := 2, inverters := 4, panel_power_w := 400, csvFile := "provence_data.csv" }
    malformedRecord sampleClock rfl).2.2.2.2.2 (by decide) (by decide)


/-- C13, as stated, fails: `provence` has 4 inverters and the record holds a number for each of
the four statuses, yet no inverter observation is made: the power cell is an unparseable text,
the first call of `set` raises, and the inverter loop is not reached. -/
theorem inverter_observations_not_reached :
    (∃ c, Obj.getProp FARMS_CONFIG "provence" = Lookup.own c ∧ c.inverters = 4)
    ∧ (∀ i ∈ List.range' 1 4, (Record.field unparsedPowerRecord (statusKey i)).isNumber = true)
    ∧ observationsOf "solar_inverter_status"
        (updateFarmMetrics "provence" (some unparsedPowerRecord) sampleClock) = [] := by
  refine ⟨⟨_, rfl, rfl⟩, by decide, by decide⟩

/-- C13 (amended). For a configured installation with `n` inverters and a record whose
production fields are numbers or falsy and whose statuses `1..n` are numbers or absent,
`updateFarmMetrics` sets the inverter gauge exactly `n` times, with `inverter_id` "1" to "n" in
this order, to the record's `inverter_i_status`, or to 1 when that status is `undefined`; the
observations depend on the statuses `1..n` only, so a status of higher index changes nothing.
For any record the calls made on the inverter gauge are an initial segment of these `n`. -/
theorem inverter_status_observations (farm : String) (c : FarmConfig) (data : Record)
    (clock : Clock) (hc : Obj.getProp FARMS_CONFIG farm = Lookup.own c) :
    ((∀ fg ∈ productionGauges,
        (Record.field data fg.1).isNumber = true ∨ (Record.field data fg.1).truthy = false) →
      (∀ i ∈ List.range' 1 c.inverters,
        Record.field data (statusKey i) = JSVal.undefined
          ∨ (Record.field data (statusKey i)).isNumber = true) →
      observationsOf "solar_inverter_status" (updateFarmMetrics farm (some data) clock)
        = (List.range' 1 c.inverters).map (fun i =>
            { metric := "solar_inverter_status"
              labels := [("farm", farm), ("inverter_id", toString i)]
              value := if Record.field data (statusKey i) = JSVal.undefined
                then JSVal.num (JSNum.ofNat 1) else Record.field data (statusKey i) })
      ∧ (observationsOf "solar_inverter_status"
          (updateFarmMetrics farm (some data) clock)).length = c.inverters
      ∧ (c.inverters = 3 →
          observationsOf "solar_inverter_status" (updateFarmMetrics farm (some data) clock)
            = [{ metric := "solar_inverter_status"
                 labels := [("farm", farm), ("inverter_id", "1")]
                 value := if Record.field data "inverter_1_status" = JSVal.undefined
                   then JSVal.num (JSNum.ofNat 1) else Record.field data "inverter_1_status" },
               { metric := "solar_inverter_status"
                 labels := [("farm", farm), ("inverter_id", "2")]
                 value := if Record.field data "inverter_2_status" = JSVal.undefined
                   then JSVal.num (JSNum.ofNat 1) else Record.field data "inverter_2_status" },
               { metric := "solar_inverter_status"
                 labels := [("farm", farm), ("inverter_id", "3")]
                 value := if Record.field data "inverter_3_status" = JSVal.undefined
                   then JSVal.num (JSNum.ofNat 1) else Record.field data "inverter_3_status" }])
      ∧ (c.inverters = 4 →
          observationsOf "solar_inverter_status" (updateFarmMetrics farm (some data) clock)
            = [{ metric := "solar_inverter_status"
                 labels := [("farm", farm), ("inverter_id", "1")]
                 value := if Record.field data "inverter_1_status" = JSVal.undefined
                   then JSVal.num (JSNum.ofNat 1) else Record.field data "inverter_1_status" },
               { metric := "solar_inverter_status"
                 labels := [("farm", farm), ("inverter_id", "2")]
                 value := if Record.field data "inverter_2_status" = JSVal.undefined
                   then JSVal.num (JSNum.ofNat 1) else Record.field data "inverter_2_status" },
               { metric := "solar_inverter_status"
                 labels := [("farm", farm), ("inverter_id", "3")]
                 value := if Record.field data "inverter_3_status" = JSVal.undefined
                   then JSVal.num (JSNum.ofNat 1) else Record.field data "inverter_3_status" },
               { metric := "solar_inverter_status"
                 labels := [("farm", farm), ("inverter_id", "4")]
                 value := if Record.field data "inverter_4_status" = JSVal.undefined
                   then JSVal.num (JSNum.ofNat 1) else Record.field data "inverter_4_status" }])
      ∧ (∀ other : Record,
          (∀ fg ∈ productionGauges,
            (Record.field other fg.1).isNumber = true
              ∨ (Record.field other fg.1).truthy = false) →
          (∀ i ∈ List.range' 1 c.inverters,
            Record.field other (statusKey i) = Record.field data (statusKey i)) →
          observationsOf "solar_inverter_status" (updateFarmMetrics farm (some other) clock)
            = observationsOf "solar_inverter_status"
                (updateFarmMetrics farm (some data) clock)))
    ∧ (∃ rest,
        (List.range' 1 c.inverters).map (fun i =>
            ({ metric := "solar_inverter_status"
               labels := [("farm", farm), ("inverter_id", toString i)]
               value := if Record.field data (statusKey i) = JSVal.undefined
                 then JSVal.num (JSNum.ofNat 1) else Record.field data (statusKey i) } :
              Observation))
          = observationsOf "solar_inverter_status" (updateFarmMetrics farm (some data) clock)
              ++ rest)
    ∧ (List.range' 1 4).map statusKey
        = ["inverter_1_status", "inverter_2_status", "inverter_3_status",
           "inverter_4_status"] := by
  refine ⟨fun hprod hstatus => ?_, ?_, statusKey_names⟩
  · have main := inverter_gauge_calls farm c data clock hc hprod hstatus
    rw [inverterObservations_eq_map] at main
    refine ⟨main, by rw [main]; simp, fun h3 => ?_, fun h4 => ?_, fun other hprod' hsame => ?_⟩
    · rw [main, h3]; rfl
    · rw [main, h4]; rfl
    · have hstatus' : ∀ i ∈ List.range' 1 c.inverters,
          Record.field other (statusKey i) = JSVal.undefined
            ∨ (Record.field other (statusKey i)).isNumber = true := by
        intro i hi
        rw [hsame i hi]
        exact hstatus i hi
      rw [main, inverter_gauge_calls farm c other clock hc hprod' hstatus',
        inverterObservations_eq_map]
      apply List.map_congr_left
      intro i hi
      rw [hsame i hi]
  · rw [← inverterObservations_eq_map]
    unfold updateFarmMetrics
    rw [setCalls_own farm c data clock hc]
    simp only [List.append_assoc]
    by_cases hP : ∀ o ∈ productionGauges.map (fun fg =>
        ({ metric := fg.2, labels := [("farm", farm)],
           value := JSVal.orElse (Record.field data fg.1) (JSVal.num (JSNum.ofNat 0)) } :
          Observation)), o.value.isNumber = true
    · rw [untilRaise_append_of_numbers _ _ hP, observationsOf_append,
        observationsOf_nil_of_ne _ _ (productionCalls_metric farm data _ (by decide)),
        List.nil_append]
      by_cases hI : ∀ o ∈ inverterObservations farm data c.inverters, o.value.isNumber = true
      · rw [untilRaise_append_of_numbers _ _ hI, observationsOf_append,
          observationsOf_inverterObservations_self]
        refine ⟨[], ?_⟩
        rw [List.append_nil]
        symm
        rw [List.append_right_eq_self]
        apply observationsOf_untilRaise_nil
        intro o ho
        simp only [List.mem_cons, List.mem_append, List.mem_singleton, List.not_mem_nil,
          or_false] at ho
        rcases ho with rfl | ho | rfl | rfl | rfl | rfl | rfl | rfl
        · simp
        · rw [anomalyObservations_metric _ _ o ho]; decide
        all_goals simp
      · have hI' : ∃ o ∈ inverterObservations farm data c.inverters,
            o.value.isNumber = false := by
          push_neg at hI
          obtain ⟨o, ho, hne⟩ := hI
          exact ⟨o, ho, by simpa using hne⟩
        rw [untilRaise_append_of_raise _ _ hI']
        obtain ⟨rest, hrest⟩ := untilRaise_initial (inverterObservations farm data c.inverters)
        refine ⟨rest, ?_⟩
        have hself : observationsOf "solar_inverter_status"
            (untilRaise (inverterObservations farm data c.inverters))
            = untilRaise (inverterObservations farm data c.inverters) := by
          simp only [observationsOf, List.filter_eq_self, decide_eq_true_eq]
          intro o ho
          exact inverterObservations_metric farm data c.inverters o
            (mem_of_mem_untilRaise _ o ho)
        rw [hself]
        exact hrest
    · have hP' : ∃ o ∈ productionGauges.map (fun fg =>
          ({ metric := fg.2, labels := [("farm", farm)],
             value := JSVal.orElse (Record.field data fg.1) (JSVal.num (JSNum.ofNat 0)) } :
            Observation)), o.value.isNumber = false := by
        push_neg at hP
        obtain ⟨o, ho, hne⟩ := hP
        exact ⟨o, ho, by simpa using hne⟩
      rw [untilRaise_append_of_raise _ _ hP',
        observationsOf_untilRaise_nil _ _ (productionCalls_metric farm data _ (by decide))]
      exact ⟨_, rfl⟩

theorem inverter_status_observations_witness :
    observationsOf "solar_inverter_status"
        (updateFarmMetrics "occitanie" (some partialStatusRecord) sampleClock)
      = [{ metric := "solar_inverter_status"
           labels := [("farm", "occitanie"), ("inverter_id", "1")]
           value := JSVal.num (JSNum.ofNat 1) },
         { metric := "solar_inverter_status"
           labels := [("farm", "occitanie"), ("inverter_id", "2")]
           value := JSVal.num (JSNum.ofNat 0) },
         { metric := "solar_inverter_status"
           labels := [("farm", "occitanie"), ("inverter_id", "3")]
           value := JSVal.num (JSNum.ofNat 1) }] :=
  (((inverter_status_observations "occitanie"
      { name := "occitanie", location := "Montpellier", latitude := 436 / 10, panels := 3500,
        capacity_mw := 14 / 10, inverters := 3, panel_power_w := 400,
        csvFile := "occitanie_data.csv" }
      partialStatusRecord sampleClock rfl).1 (by decide) (by decide)).2.2.1 rfl).trans
    (by decide)

/-! ## Availability and the inverter observations -/

/-- The inverter observations whose value is not 0 are as many as the active inverters. -/
theorem countP_inverterObservations (farm : String) (data : Record) (n : Nat) :
    (inverterObservations farm data n).countP (fun o => o.value ≠ JSVal.num (JSNum.ofNat 0))
      = activeInverters data n := by
  unfold inverterObservations activeInverters
  rw [List.countP_map, List.countP_eq_length_filter]
  congr 1
  apply List.filter_congr
  intro j _
  by_cases h : Record.field data (statusKey (j + 1)) = JSVal.undefined
  · simp [h, isActiveStatus, JSNum.ofNat]
  · simp [h, isActiveStatus]

/-- C30, as stated, fails: for `occitanie` and a well-typed record in which only inverter 1
runs, one of the three inverter observations is not 0 and the availability observation is
`(1 / 3) * 100` in the arithmetic of doubles, 33.33333333333333: it is below `100 * 1 / 3` and
is not the double nearest to it either, which is 33.333333333333336. -/
theorem availability_not_the_exact_quotient :
    (observationsOf "solar_inverter_status"
        (updateFarmMetrics "occitanie" (some oneOfThreeRecord) sampleClock)).countP
      (fun o => o.value ≠ JSVal.num (JSNum.ofNat 0)) = 1
    ∧ observationsOf "solar_availability_percent"
        (updateFarmMetrics "occitanie" (some oneOfThreeRecord) sampleClock)
      = [{ metric := "solar_availability_percent", labels := [("farm", "occitanie")],
           value := JSVal.num (JSNum.fin (2345624805922133 / 70368744177664)) }]
    ∧ (2345624805922133 / 70368744177664 : ℚ) < 100 * 1 / 3
    ∧ JSNum.roundQ (100 * 1 / 3) = 4691249611844267 / 140737488355328
    ∧ (2345624805922133 / 70368744177664 : ℚ) ≠ 4691249611844267 / 140737488355328 := by
  have hc : Obj.getProp FARMS_CONFIG "occitanie"
      = Lookup.own
          { name := "occitanie", location := "Montpellier", latitude := 436 / 10,
            panels := 3500, capacity_mw := 14 / 10, inverters := 3, panel_power_w := 400,
            csvFile := "occitanie_data.csv" } := rfl
  refine ⟨?_, ?_, by norm_num, ?_, by norm_num⟩
  · rw [inverter_gauge_calls "occitanie" _ oneOfThreeRecord sampleClock hc (by decide)
      (by decide), countP_inverterObservations]
    decide
  · rw [availability_gauge_observation "occitanie" _ oneOfThreeRecord sampleClock hc
      (by decide) (by decide)]
    have hk : activeInverters oneOfThreeRecord 3 = 1 := by decide
    simp only [hk, availability_3_1]
  · exact roundQ_eq 5 4691249611844267 (by norm_num) (by norm_num) (by norm_num)
      (by rw [abs_lt]; constructor <;> norm_num) (by norm_num)

/-- C30 (amended). For a configured installation, whose `n` is 3 or 4, and a record whose
production fields are numbers or falsy and whose statuses `1..n` are numbers or absent, the `n`
inverter observations and the availability observation are made, and the availability is the
double `(k / n) * 100`, the quotient being rounded before the product, where `k` is the number
of the inverter observations whose value is not 0. It lies between 0 and 100, is at most
`100 * k / n` and within `2 ^ -46` of it, and is `100 * k / n` when `n` is 4 or `k` is 0
or `n`. -/
theorem availability_consistent (farm : String) (c : FarmConfig) (data : Record)
    (clock : Clock) (hc : Obj.getProp FARMS_CONFIG farm = Lookup.own c)
    (hprod : ∀ fg ∈ productionGauges,
      (Record.field data fg.1).isNumber = true ∨ (Record.field data fg.1).truthy = false)
    (hstatus : ∀ i ∈ List.range' 1 c.inverters,
      Record.field data (statusKey i) = JSVal.undefined
        ∨ (Record.field data (statusKey i)).isNumber = true) :
    ∃ (a : ℚ) (k : ℕ),
      k = (observationsOf "solar_inverter_status"
            (updateFarmMetrics farm (some data) clock)).countP
              (fun o => o.value ≠ JSVal.num (JSNum.ofNat 0))
      ∧ (observationsOf "solar_inverter_status"
          (updateFarmMetrics farm (some data) clock)).length = c.inverters
      ∧ observationsOf "solar_availability_percent" (updateFarmMetrics farm (some data) clock)
        = [{ metric := "solar_availability_percent", labels := [("farm", farm)],
             value := JSVal.num (JSNum.fin a) }]
      ∧ JSNum.fin a
        = JSNum.mul (JSNum.div (JSNum.ofNat k) (JSNum.ofNat c.inverters)) (JSNum.ofNat 100)
      ∧ 0 ≤ a ∧ a ≤ 100
      ∧ a ≤ 100 * (k : ℚ) / (c.inverters : ℚ)
      ∧ 100 * (k : ℚ) / (c.inverters : ℚ) - a ≤ 1 / 2 ^ 46
      ∧ (c.inverters = 4 ∨ k = 0 ∨ k = c.inverters → a = 100 * (k : ℚ) / (c.inverters : ℚ))
      ∧ (c.inverters = 3 ∨ c.inverters = 4) := by
  have hinv := inverter_gauge_calls farm c data clock hc hprod hstatus
  have hobs := availability_gauge_observation farm c data clock hc hprod hstatus
  have hn := FARMS_CONFIG_inverters farm c hc
  obtain ⟨a, ha, h0, h100, hle, hnear, hexact, _, _⟩ :=
    availability_value c.inverters (activeInverters data c.inverters) hn
      (activeInverters_le data c.inverters)
  refine ⟨a, activeInverters data c.inverters, ?_, ?_, ?_, ha.symm, h0, h100, hle, hnear,
    hexact, hn⟩
  · rw [hinv, countP_inverterObservations]
  · rw [hinv]; simp [inverterObservations]
  · rw [hobs, ha]

theorem availability_consistent_witness :
    ∃ (a : ℚ) (k : ℕ),
      k = (observationsOf "solar_inverter_status"
            (updateFarmMetrics "provence" (some sampleInverterRecord) sampleClock)).countP
              (fun o => o.value ≠ JSVal.num (JSNum.ofNat 0))
      ∧ (observationsOf "solar_inverter_status"
          (updateFarmMetrics "provence" (some sampleInverterRecord) sampleClock)).length = 4
      ∧ observationsOf "solar_availability_percent"
          (updateFarmMetrics "provence" (some sampleInverterRecord) sampleClock)
        = [{ metric := "solar_availability_percent", labels := [("farm", "provence")],
             value := JSVal.num (JSNum.fin a) }]
      ∧ JSNum.fin a
        = JSNum.mul (JSNum.div (JSNum.ofNat k) (JSNum.ofNat 4)) (JSNum.ofNat 100)
      ∧ 0 ≤ a ∧ a ≤ 100
      ∧ a ≤ 100 * (k : ℚ) / ((4 : ℕ) : ℚ)
      ∧ 100 * (k : ℚ) / ((4 : ℕ) : ℚ) - a ≤ 1 / 2 ^ 46
      ∧ ((4 : ℕ) = 4 ∨ k = 0 ∨ k = 4 → a = 100 * (k : ℚ) / ((4 : ℕ) : ℚ))
      ∧ ((4 : ℕ) = 3 ∨ (4 : ℕ) = 4) :=
  availability_consistent "provence"
    { name := "provence", location := "Marseille", latitude := 433 / 10, panels := 5000,
      capacity_mw := 2, inverters := 4, panel_power_w := 400, csvFile := "provence_data.csv" }
    sampleInverterRecord sampleClock rfl (by decide) (by decide)


/-! ## The theoretical power -/

section TheoreticalPower

open JSNum

theorem SYSTEM_EFFICIENCY_eq :
    CONSTANTS.SYSTEM_EFFICIENCY = 7656119366529843 / 9007199254740992 := by
  unfold CONSTANTS.SYSTEM_EFFICIENCY
  exact roundQ_eq (-1) 7656119366529843 (by norm_num) (by norm_num) (by norm_num)
    (by rw [abs_lt]; constructor <;> norm_num) (by norm_num)

theorem TEMP_COEFFICIENT_eq :
    CONSTANTS.TEMP_COEFFICIENT = -(8070450532247929 / 2305843009213693952) := by
  unfold CONSTANTS.TEMP_COEFFICIENT
  rw [roundQ_eq (-9) 8070450532247929 (by norm_num) (by norm_num) (by norm_num)
    (by rw [abs_lt]; constructor <;> norm_num) (by norm_num : (8070450532247929 / 2305843009213693952 : ℚ) = _)]

theorem two_zpow_lt_1024 (k : ℤ) (hk : k ≤ 1023) : (2 : ℚ) ^ k < (2 : ℚ) ^ (1024 : ℕ) := by
  rw [← zpow_natCast]
  exact zpow_lt_zpow_right₀ (by norm_num) (by push_cast; omega)

theorem FARMS_CONFIG_power (farm : String) (c : FarmConfig)
    (hc : Obj.getProp FARMS_CONFIG farm = Lookup.own c) :
    (2 : ℚ) ^ (20 : ℤ) ≤ (c.panels : ℚ) * (c.panel_power_w : ℚ)
    ∧ (c.panels : ℚ) * (c.panel_power_w : ℚ) ≤ (2 : ℚ) ^ (21 : ℤ) := by
  have h := FARMS_CONFIG_cases farm c hc
  simp only [FARMS_CONFIG, List.mem_cons, Prod.mk.injEq, List.mem_singleton,
    List.not_mem_nil, or_false] at h
  rcases h with ⟨_, rfl⟩ | ⟨_, rfl⟩ | ⟨_, rfl⟩ <;> norm_num

/-- The value of `tempFactor` at a panel temperature of magnitude at most `2 ^ 100`. -/
theorem tempFactor_fin (t : ℚ) (ht : |t| ≤ (2 : ℚ) ^ (100 : ℤ)) :
    JSNum.plus (JSNum.ofNat 1)
        (JSNum.mul (JSNum.minus (JSNum.fin t) (JSNum.fin CONSTANTS.REFERENCE_TEMP))
          (JSNum.fin CONSTANTS.TEMP_COEFFICIENT))
      = JSNum.fin (roundQ (1 + roundQ (roundQ (t - 25) * CONSTANTS.TEMP_COEFFICIENT)))
    ∧ |roundQ (1 + roundQ (roundQ (t - 25) * CONSTANTS.TEMP_COEFFICIENT))|
        ≤ (2 : ℚ) ^ (94 : ℤ) := by
  have hC : |CONSTANTS.TEMP_COEFFICIENT| ≤ (2 : ℚ) ^ (-8 : ℤ) := by
    rw [TEMP_COEFFICIENT_eq, abs_neg, abs_of_pos (by norm_num)]; norm_num
  have h1 : |t - 25| ≤ (2 : ℚ) ^ (101 : ℤ) := by
    have := abs_sub t 25
    have h25 : |(25 : ℚ)| ≤ (2 : ℚ) ^ (100 : ℤ) := by
      rw [abs_of_pos (by norm_num)]; norm_num
    have e : (2 : ℚ) ^ (101 : ℤ) = (2 : ℚ) ^ (100 : ℤ) + (2 : ℚ) ^ (100 : ℤ) := by norm_num
    linarith
  have b1 := abs_roundQ_le_two_zpow 101 (by norm_num) h1
  have h2 : |roundQ (t - 25) * CONSTANTS.TEMP_COEFFICIENT| ≤ (2 : ℚ) ^ (93 : ℤ) := by
    rw [abs_mul]
    calc |roundQ (t - 25)| * |CONSTANTS.TEMP_COEFFICIENT|
        ≤ (2 : ℚ) ^ (101 : ℤ) * (2 : ℚ) ^ (-8 : ℤ) :=
          mul_le_mul b1 hC (abs_nonneg _) (by positivity)
      _ = (2 : ℚ) ^ (93 : ℤ) := by rw [← zpow_add₀ (by norm_num)]; norm_num
  have b2 := abs_roundQ_le_two_zpow 93 (by norm_num) h2
  have h3 : |1 + roundQ (roundQ (t - 25) * CONSTANTS.TEMP_COEFFICIENT)|
      ≤ (2 : ℚ) ^ (94 : ℤ) := by
    have := abs_add (1 : ℚ) (roundQ (roundQ (t - 25) * CONSTANTS.TEMP_COEFFICIENT))
    have h1' : |(1 : ℚ)| ≤ (2 : ℚ) ^ (93 : ℤ) := by
      rw [abs_of_pos (by norm_num)]; norm_num
    have e : (2 : ℚ) ^ (94 : ℤ) = (2 : ℚ) ^ (93 : ℤ) + (2 : ℚ) ^ (93 : ℤ) := by norm_num
    linarith
  have b3 := abs_roundQ_le_two_zpow 94 (by norm_num) h3
  refine ⟨?_, b3⟩
  have e1 : JSNum.minus (JSNum.fin t) (JSNum.fin CONSTANTS.REFERENCE_TEMP)
      = JSNum.fin (roundQ (t - 25)) := by
    simp only [JSNum.minus, CONSTANTS.REFERENCE_TEMP]
    exact round_of_abs_le 101 (by norm_num) (by norm_num) h1
  have e2 : JSNum.mul (JSNum.fin (roundQ (t - 25))) (JSNum.fin CONSTANTS.TEMP_COEFFICIENT)
      = JSNum.fin (roundQ (roundQ (t - 25) * CONSTANTS.TEMP_COEFFICIENT)) := by
    simp only [JSNum.mul]
    exact round_of_abs_le 93 (by norm_num) (by norm_num) h2
  rw [e1, e2]
  simp only [JSNum.plus, JSNum.ofNat, Nat.cast_one]
  exact round_of_abs_le 94 (by norm_num) (by norm_num) h3

/-- The factor does not grow with the panel temperature. -/
theorem tempFactor_antitone {t1 t2 : ℚ} (h : t1 ≤ t2) :
    roundQ (1 + roundQ (roundQ (t2 - 25) * CONSTANTS.TEMP_COEFFICIENT))
      ≤ roundQ (1 + roundQ (roundQ (t1 - 25) * CONSTANTS.TEMP_COEFFICIENT)) := by
  have hC : CONSTANTS.TEMP_COEFFICIENT ≤ 0 := by
    rw [TEMP_COEFFICIENT_eq]; norm_num
  apply roundQ_mono
  have h1 : roundQ (t1 - 25) ≤ roundQ (t2 - 25) := roundQ_mono (by linarith)
  have h2 := roundQ_mono (mul_le_mul_of_nonpos_right h1 hC)
  linarith

/-- The product in front of `tempFactor`, for an irradiance between 0 and `2 ^ 900`. -/
theorem basePower_fin (farm : String) (c : FarmConfig)
    (hc : Obj.getProp FARMS_CONFIG farm = Lookup.own c) (irradiance : ℚ)
    (h0 : 0 ≤ irradiance) (h1 : irradiance ≤ (2 : ℚ) ^ (900 : ℤ)) :
    ∃ base : ℚ,
      JSNum.mul
          (JSNum.mul (JSNum.mul (JSNum.ofNat c.panels) (JSNum.ofNat c.panel_power_w))
            (JSNum.div (JSNum.fin irradiance) (JSNum.ofNat 1000)))
          (JSNum.fin CONSTANTS.SYSTEM_EFFICIENCY)
        = JSNum.fin base
      ∧ 0 ≤ base ∧ base ≤ (2 : ℚ) ^ (921 : ℤ)
      ∧ ((2 : ℚ) ^ (-900 : ℤ) ≤ irradiance → (2 : ℚ) ^ (-891 : ℤ) ≤ base) := by
  obtain ⟨hP1, hP2⟩ := FARMS_CONFIG_power farm c hc
  have hP0 : (0 : ℚ) ≤ (c.panels : ℚ) * (c.panel_power_w : ℚ) := le_trans (by positivity) hP1
  have hPabs : |(c.panels : ℚ) * (c.panel_power_w : ℚ)| ≤ (2 : ℚ) ^ (21 : ℤ) := by
    rw [abs_of_nonneg hP0]; exact hP2
  -- panels * panel_power_w
  have e1 : JSNum.mul (JSNum.ofNat c.panels) (JSNum.ofNat c.panel_power_w)
      = JSNum.fin (roundQ ((c.panels : ℚ) * (c.panel_power_w : ℚ))) := by
    simp only [JSNum.mul, JSNum.ofNat]
    exact round_of_abs_le 21 (by norm_num) (by norm_num) hPabs
  have a1lo := two_zpow_le_roundQ 20 (by norm_num) hP1
  have a1hi := roundQ_le_two_zpow 21 (by norm_num) hP2
  have a1nn : 0 ≤ roundQ ((c.panels : ℚ) * (c.panel_power_w : ℚ)) := roundQ_nonneg hP0
  -- irradiance / 1000
  have hq0 : 0 ≤ irradiance / 1000 := by positivity
  have hq1 : irradiance / 1000 ≤ (2 : ℚ) ^ (900 : ℤ) := by
    have : irradiance / 1000 ≤ irradiance := by
      rw [div_le_iff₀ (by norm_num)]; nlinarith
    linarith
  have e2 : JSNum.div (JSNum.fin irradiance) (JSNum.ofNat 1000)
      = JSNum.fin (roundQ (irradiance / 1000)) := by
    simp only [JSNum.div, JSNum.ofNat]
    rw [if_neg (by norm_num)]
    push_cast
    exact round_of_abs_le 900 (by norm_num) (by norm_num) (by rwa [abs_of_nonneg hq0])
  have a2hi := roundQ_le_two_zpow 900 (by norm_num) hq1
  have a2nn : 0 ≤ roundQ (irradiance / 1000) := roundQ_nonneg hq0
  -- the product of the two
  have h3nn : 0 ≤ roundQ ((c.panels : ℚ) * (c.panel_power_w : ℚ)) * roundQ (irradiance / 1000) :=
    mul_nonneg a1nn a2nn
  have h3hi : roundQ ((c.panels : ℚ) * (c.panel_power_w : ℚ)) * roundQ (irradiance / 1000)
      ≤ (2 : ℚ) ^ (921 : ℤ) := by
    calc roundQ ((c.panels : ℚ) * (c.panel_power_w : ℚ)) * roundQ (irradiance / 1000)
        ≤ (2 : ℚ) ^ (21 : ℤ) * (2 : ℚ) ^ (900 : ℤ) := mul_le_mul a1hi a2hi a2nn (by positivity)
      _ = (2 : ℚ) ^ (921 : ℤ) := by rw [← zpow_add₀ (by norm_num)]; norm_num
  have e3 : JSNum.mul (JSNum.fin (roundQ ((c.panels : ℚ) * (c.panel_power_w : ℚ))))
        (JSNum.fin (roundQ (irradiance / 1000)))
      = JSNum.fin (roundQ (roundQ ((c.panels : ℚ) * (c.panel_power_w : ℚ))
          * roundQ (irradiance / 1000))) := by
    simp only [JSNum.mul]
    exact round_of_abs_le 921 (by norm_num) (by norm_num) (by rwa [abs_of_nonneg h3nn])
  have a3hi := roundQ_le_two_zpow 921 (by norm_num) h3hi
  have a3nn := roundQ_nonneg h3nn
  -- times the efficiency
  have hE0 : (0 : ℚ) ≤ CONSTANTS.SYSTEM_EFFICIENCY := by rw [SYSTEM_EFFICIENCY_eq]; norm_num
  have hE1 : CONSTANTS.SYSTEM_EFFICIENCY ≤ 1 := by rw [SYSTEM_EFFICIENCY_eq]; norm_num
  have hEh : (2 : ℚ) ^ (-1 : ℤ) ≤ CONSTANTS.SYSTEM_EFFICIENCY := by
    rw [SYSTEM_EFFICIENCY_eq]; norm_num
  have h4nn := mul_nonneg a3nn hE0
  have h4hi : roundQ (roundQ ((c.panels : ℚ) * (c.panel_power_w : ℚ))
      * roundQ (irradiance / 1000)) * CONSTANTS.SYSTEM_EFFICIENCY ≤ (2 : ℚ) ^ (921 : ℤ) := by
    calc _ ≤ (2 : ℚ) ^ (921 : ℤ) * 1 := mul_le_mul a3hi hE1 hE0 (by positivity)
      _ = (2 : ℚ) ^ (921 : ℤ) := mul_one _
  have e4 : JSNum.mul (JSNum.fin (roundQ (roundQ ((c.panels : ℚ) * (c.panel_power_w : ℚ))
          * roundQ (irradiance / 1000)))) (JSNum.fin CONSTANTS.SYSTEM_EFFICIENCY)
      = JSNum.fin (roundQ (roundQ (roundQ ((c.panels : ℚ) * (c.panel_power_w : ℚ))
          * roundQ (irradiance / 1000)) * CONSTANTS.SYSTEM_EFFICIENCY)) := by
    simp only [JSNum.mul]
    exact round_of_abs_le 921 (by norm_num) (by norm_num) (by rwa [abs_of_nonneg h4nn])
  refine ⟨_, by rw [e1, e2, e3, e4], roundQ_nonneg h4nn,
    roundQ_le_two_zpow 921 (by norm_num) h4hi, fun hlo => ?_⟩
  have hq2 : (2 : ℚ) ^ (-910 : ℤ) ≤ irradiance / 1000 := by
    rw [le_div_iff₀ (by norm_num)]
    calc (2 : ℚ) ^ (-910 : ℤ) * 1000 ≤ (2 : ℚ) ^ (-910 : ℤ) * (2 : ℚ) ^ (10 : ℤ) :=
          mul_le_mul_of_nonneg_left (by norm_num) (by positivity)
      _ = (2 : ℚ) ^ (-900 : ℤ) := by rw [← zpow_add₀ (by norm_num)]; norm_num
      _ ≤ irradiance := hlo
  have a2lo := two_zpow_le_roundQ (-910) (by norm_num) hq2
  have h3lo : (2 : ℚ) ^ (-890 : ℤ)
      ≤ roundQ ((c.panels : ℚ) * (c.panel_power_w : ℚ)) * roundQ (irradiance / 1000) := by
    calc (2 : ℚ) ^ (-890 : ℤ) = (2 : ℚ) ^ (20 : ℤ) * (2 : ℚ) ^ (-910 : ℤ) := by
          rw [← zpow_add₀ (by norm_num)]; norm_num
      _ ≤ _ := mul_le_mul a1lo a2lo (by positivity) a1nn
  have a3lo := two_zpow_le_roundQ (-890) (by norm_num) h3lo
  have h4lo : (2 : ℚ) ^ (-891 : ℤ)
      ≤ roundQ (roundQ ((c.panels : ℚ) * (c.panel_power_w : ℚ))
          * roundQ (irradiance / 1000)) * CONSTANTS.SYSTEM_EFFICIENCY := by
    calc (2 : ℚ) ^ (-891 : ℤ) = (2 : ℚ) ^ (-890 : ℤ) * (2 : ℚ) ^ (-1 : ℤ) := by
          rw [← zpow_add₀ (by norm_num)]; norm_num
      _ ≤ _ := mul_le_mul a3lo hEh (by positivity) a3nn
  exact two_zpow_le_roundQ (-891) (by norm_num) h4lo

/-- The value of `calculateTheoreticalPower` for a configured installation, an irradiance
between 0 and `2 ^ 900` and a panel temperature of magnitude at most `2 ^ 100`: a finite
double, the rounded product of a base that does not depend on the temperature and of the
factor. -/
theorem calculateTheoreticalPower_fin (farm : String) (c : FarmConfig)
    (hc : Obj.getProp FARMS_CONFIG farm = Lookup.own c) (irradiance : ℚ)
    (h0 : 0 ≤ irradiance) (h1 : irradiance ≤ (2 : ℚ) ^ (900 : ℤ)) :
    ∃ base : ℚ, 0 ≤ base ∧ base ≤ (2 : ℚ) ^ (921 : ℤ)
      ∧ ((2 : ℚ) ^ (-900 : ℤ) ≤ irradiance → (2 : ℚ) ^ (-891 : ℤ) ≤ base)
      ∧ ∀ t : ℚ, |t| ≤ (2 : ℚ) ^ (100 : ℤ) →
          calculateTheoreticalPower farm irradiance t
            = JSNum.fin (roundQ (roundQ (base
                * roundQ (1 + roundQ (roundQ (t - 25) * CONSTANTS.TEMP_COEFFICIENT))) / 1000)) := by
  obtain ⟨base, hbase, hnn, hhi, hlo⟩ := basePower_fin farm c hc irradiance h0 h1
  refine ⟨base, hnn, hhi, hlo, fun t ht => ?_⟩
  obtain ⟨htf, htfb⟩ := tempFactor_fin t ht
  simp only [calculateTheoreticalPower, hc]
  rw [hbase, htf]
  have hx : |base * roundQ (1 + roundQ (roundQ (t - 25) * CONSTANTS.TEMP_COEFFICIENT))|
      ≤ (2 : ℚ) ^ (1015 : ℤ) := by
    rw [abs_mul, abs_of_nonneg hnn]
    calc _ ≤ (2 : ℚ) ^ (921 : ℤ) * (2 : ℚ) ^ (94 : ℤ) :=
          mul_le_mul hhi htfb (abs_nonneg _) (by positivity)
      _ = (2 : ℚ) ^ (1015 : ℤ) := by rw [← zpow_add₀ (by norm_num)]; norm_num
  have e1 : JSNum.mul (JSNum.fin base)
        (JSNum.fin (roundQ (1 + roundQ (roundQ (t - 25) * CONSTANTS.TEMP_COEFFICIENT))))
      = JSNum.fin (roundQ (base
          * roundQ (1 + roundQ (roundQ (t - 25) * CONSTANTS.TEMP_COEFFICIENT)))) := by
    simp only [JSNum.mul]
    exact round_of_abs_le 1015 (by norm_num) (by norm_num) hx
  rw [e1]
  have bx := abs_roundQ_le_two_zpow 1015 (by norm_num) hx
  simp only [JSNum.div, JSNum.ofNat]
  rw [if_neg (by norm_num)]
  push_cast
  apply round_of_abs_le 1015 (by norm_num) (by norm_num)
  rw [abs_div, abs_of_pos (by norm_num : (0 : ℚ) < 1000)]
  rw [div_le_iff₀ (by norm_num)]
  calc _ ≤ (2 : ℚ) ^ (1015 : ℤ) := bx
    _ ≤ (2 : ℚ) ^ (1015 : ℤ) * 1000 := by
        have : (0 : ℚ) < (2 : ℚ) ^ (1015 : ℤ) := by positivity
        nlinarith

theorem tempFactor_at_25 :
    roundQ (1 + roundQ (roundQ ((25 : ℚ) - 25) * CONSTANTS.TEMP_COEFFICIENT)) = 1 := by
  have h1 : roundQ (1 : ℚ) = 1 := by simpa using roundQ_two_zpow 0 (by norm_num)
  simp [roundQ_zero, h1]

theorem tempFactor_at_65 :
    roundQ (1 + roundQ (roundQ ((65 : ℚ) - 25) * CONSTANTS.TEMP_COEFFICIENT))
      = 7746191359077253 / 9007199254740992 := by
  have h1 : roundQ ((65 : ℚ) - 25) = 40 :=
    roundQ_eq 5 5629499534213120 (by norm_num) (by norm_num) (by norm_num)
      (by rw [abs_lt]; constructor <;> norm_num) (by norm_num)
  have h2 : roundQ ((40 : ℚ) * (8070450532247929 / 2305843009213693952))
      = 5044031582654956 / 36028797018963968 :=
    roundQ_eq (-3) 5044031582654956 (by norm_num) (by norm_num) (by norm_num)
      (by rw [abs_lt]; constructor <;> norm_num) (by norm_num)
  rw [h1, TEMP_COEFFICIENT_eq, mul_neg, roundQ_neg, h2]
  exact roundQ_eq (-1) 7746191359077253 (by norm_num) (by norm_num) (by norm_num)
    (by rw [abs_lt]; constructor <;> norm_num) (by norm_num)

/-- The powers at 65 C and at 25 C over a common base in the normal range: the hotter one is
smaller, and their rounded quotient is within `2 ^ -50` of 0.86. -/
theorem power_quotient (base : ℚ) (hlo : (2 : ℚ) ^ (-891 : ℤ) ≤ base) :
    0 < roundQ (roundQ (base * 1) / 1000)
    ∧ roundQ (roundQ (base * (7746191359077253 / 9007199254740992)) / 1000)
        < roundQ (roundQ (base * 1) / 1000)
    ∧ |roundQ (roundQ (base * (7746191359077253 / 9007199254740992)) / 1000)
          / roundQ (roundQ (base * 1) / 1000)| ≤ (2 : ℚ) ^ (0 : ℤ)
    ∧ |roundQ (roundQ (roundQ (base * (7746191359077253 / 9007199254740992)) / 1000)
          / roundQ (roundQ (base * 1) / 1000)) - 86 / 100| ≤ (2 : ℚ) ^ (-50 : ℤ) := by
  have hB : 0 < base := lt_of_lt_of_le (by positivity) hlo
  have hu : (2 : ℚ) ^ (-53 : ℤ) = 1 / 9007199254740992 := by norm_num
  have h892 : (2 : ℚ) ^ (-892 : ℤ) ≤ (2 : ℚ) ^ (-891 : ℤ) * (1 / 2) := by
    rw [show (1 / 2 : ℚ) = (2 : ℚ) ^ (-1 : ℤ) by norm_num, ← zpow_add₀ (by norm_num)]
    norm_num
  have h902 : (2 : ℚ) ^ (-902 : ℤ) * 1000 ≤ (2 : ℚ) ^ (-892 : ℤ) := by
    calc (2 : ℚ) ^ (-902 : ℤ) * 1000 ≤ (2 : ℚ) ^ (-902 : ℤ) * (2 : ℚ) ^ (10 : ℤ) :=
          mul_le_mul_of_nonneg_left (by norm_num) (by positivity)
      _ = (2 : ℚ) ^ (-892 : ℤ) := by rw [← zpow_add₀ (by norm_num)]; norm_num
  have hnorm : (2 : ℚ) ^ (-1022 : ℤ) ≤ (2 : ℚ) ^ (-902 : ℤ) :=
    zpow_le_zpow_right₀ (by norm_num) (by norm_num)
  have hnorm' : (2 : ℚ) ^ (-1022 : ℤ) ≤ (2 : ℚ) ^ (-892 : ℤ) :=
    zpow_le_zpow_right₀ (by norm_num) (by norm_num)
  -- the product at 65 C
  have x65 : (2 : ℚ) ^ (-892 : ℤ) ≤ base * (7746191359077253 / 9007199254740992) := by
    calc (2 : ℚ) ^ (-892 : ℤ) ≤ (2 : ℚ) ^ (-891 : ℤ) * (1 / 2) := h892
      _ ≤ base * (7746191359077253 / 9007199254740992) :=
          mul_le_mul hlo (by norm_num) (by norm_num) hB.le
  obtain ⟨X65lo, X65hi⟩ := roundQ_between (le_trans hnorm' x65)
  have X65ge := two_zpow_le_roundQ (-892) (by norm_num) x65
  have y65 : (2 : ℚ) ^ (-902 : ℤ)
      ≤ roundQ (base * (7746191359077253 / 9007199254740992)) / 1000 := by
    rw [le_div_iff₀ (by norm_num)]; linarith
  obtain ⟨P65lo, P65hi⟩ := roundQ_between (le_trans hnorm y65)
  -- the product at 25 C
  have x25 : (2 : ℚ) ^ (-892 : ℤ) ≤ base * 1 := by
    calc (2 : ℚ) ^ (-892 : ℤ) ≤ (2 : ℚ) ^ (-891 : ℤ) * (1 / 2) := h892
      _ ≤ base * 1 := mul_le_mul hlo (by norm_num) (by norm_num) hB.le
  obtain ⟨X25lo, X25hi⟩ := roundQ_between (le_trans hnorm' x25)
  have X25ge := two_zpow_le_roundQ (-892) (by norm_num) x25
  have y25 : (2 : ℚ) ^ (-902 : ℤ) ≤ roundQ (base * 1) / 1000 := by
    rw [le_div_iff₀ (by norm_num)]; linarith
  obtain ⟨P25lo, P25hi⟩ := roundQ_between (le_trans hnorm y25)
  rw [hu] at X65lo X65hi P65lo P65hi X25lo X25hi P25lo P25hi
  set X65 := roundQ (base * (7746191359077253 / 9007199254740992)) with hX65
  set X25 := roundQ (base * 1) with hX25
  set P65 := roundQ (X65 / 1000) with hP65
  set P25 := roundQ (X25 / 1000) with hP25
  -- bounds in terms of the base
  have P65le : P65 ≤ 8600000000000002 / 10000000000000000000 * base := by
    have : P65 ≤ (1 + 1 / 9007199254740992) * ((1 + 1 / 9007199254740992)
        * (base * (7746191359077253 / 9007199254740992)) / 1000) := by
      calc P65 ≤ (1 + 1 / 9007199254740992) * (X65 / 1000) := P65hi
        _ ≤ _ := by
          apply mul_le_mul_of_nonneg_left _ (by norm_num)
          exact div_le_div_of_nonneg_right X65hi (by norm_num)
    refine le_trans this ?_
    have e : (1 + 1 / 9007199254740992) * ((1 + 1 / 9007199254740992)
        * (base * (7746191359077253 / 9007199254740992)) / 1000)
        = ((1 + 1 / 9007199254740992) * (1 + 1 / 9007199254740992)
            * (7746191359077253 / 9007199254740992) / 1000) * base := by ring
    rw [e]
    apply mul_le_mul_of_nonneg_right _ hB.le
    norm_num
  have P65ge : 8599999999999997 / 10000000000000000000 * base ≤ P65 := by
    have : (1 - 1 / 9007199254740992) * ((1 - 1 / 9007199254740992)
        * (base * (7746191359077253 / 9007199254740992)) / 1000) ≤ P65 := by
      calc _ ≤ (1 - 1 / 9007199254740992) * (X65 / 1000) := by
            apply mul_le_mul_of_nonneg_left _ (by norm_num)
            exact div_le_div_of_nonneg_right X65lo (by norm_num)
        _ ≤ P65 := P65lo
    refine le_trans ?_ this
    have e : (1 - 1 / 9007199254740992) * ((1 - 1 / 9007199254740992)
        * (base * (7746191359077253 / 9007199254740992)) / 1000)
        = ((1 - 1 / 9007199254740992) * (1 - 1 / 9007199254740992)
            * (7746191359077253 / 9007199254740992) / 1000) * base := by ring
    rw [e]
    apply mul_le_mul_of_nonneg_right _ hB.le
    norm_num
  have P25le : P25 ≤ 1000000000000000223 / 1000000000000000000000 * base := by
    have : P25 ≤ (1 + 1 / 9007199254740992) * ((1 + 1 / 9007199254740992)
        * (base * 1) / 1000) := by
      calc P25 ≤ (1 + 1 / 9007199254740992) * (X25 / 1000) := P25hi
        _ ≤ _ := by
          apply mul_le_mul_of_nonneg_left _ (by norm_num)
          exact div_le_div_of_nonneg_right X25hi (by norm_num)
    refine le_trans this ?_
    have e : (1 + 1 / 9007199254740992) * ((1 + 1 / 9007199254740992) * (base * 1) / 1000)
        = ((1 + 1 / 9007199254740992) * (1 + 1 / 9007199254740992) / 1000) * base := by ring
    rw [e]
    apply mul_le_mul_of_nonneg_right _ hB.le
    norm_num
  have P25ge : 999999999999999777 / 1000000000000000000000 * base ≤ P25 := by
    have : (1 - 1 / 9007199254740992) * ((1 - 1 / 9007199254740992) * (base * 1) / 1000)
        ≤ P25 := by
      calc _ ≤ (1 - 1 / 9007199254740992) * (X25 / 1000) := by
            apply mul_le_mul_of_nonneg_left _ (by norm_num)
            exact div_le_div_of_nonneg_right X25lo (by norm_num)
        _ ≤ P25 := P25lo
    refine le_trans ?_ this
    have e : (1 - 1 / 9007199254740992) * ((1 - 1 / 9007199254740992) * (base * 1) / 1000)
        = ((1 - 1 / 9007199254740992) * (1 - 1 / 9007199254740992) / 1000) * base := by ring
    rw [e]
    apply mul_le_mul_of_nonneg_right _ hB.le
    norm_num
  have P25pos : 0 < P25 := lt_of_lt_of_le (by positivity) P25ge
  have hlt : P65 < P25 := by nlinarith
  -- the exact quotient
  have qle : P65 / P25 ≤ 8600000000000004 / 10000000000000000 := by
    rw [div_le_iff₀ P25pos]
    nlinarith
  have qge : 8599999999999995 / 10000000000000000 ≤ P65 / P25 := by
    rw [le_div_iff₀ P25pos]
    nlinarith
  have qpos : 0 < P65 / P25 := lt_of_lt_of_le (by norm_num) qge
  refine ⟨P25pos, hlt, ?_, ?_⟩
  · rw [abs_of_pos qpos]
    norm_num
    linarith
  · obtain ⟨rlo, rhi⟩ := roundQ_between (x := P65 / P25)
      (le_trans (by norm_num) qge)
    rw [hu] at rlo rhi
    rw [abs_le]
    constructor
    · have : (1 - 1 / 9007199254740992) * (8599999999999995 / 10000000000000000 : ℚ)
          ≤ roundQ (P65 / P25) :=
        le_trans (mul_le_mul_of_nonneg_left qge (by norm_num)) rlo
      have e : (2 : ℚ) ^ (-50 : ℤ) = 1 / 1125899906842624 := by norm_num
      rw [e]
      linarith
    · have : roundQ (P65 / P25)
          ≤ (1 + 1 / 9007199254740992) * (8600000000000004 / 10000000000000000 : ℚ) :=
        le_trans rhi (mul_le_mul_of_nonneg_left qle (by norm_num))
      have e : (2 : ℚ) ^ (-50 : ℤ) = 1 / 1125899906842624 := by norm_num
      rw [e]
      linarith

/-- The base of the power of `provence` at an irradiance of 1000. -/
theorem power_provence_1000 (t : ℚ) (ht : |t| ≤ (2 : ℚ) ^ (100 : ℤ)) :
    calculateTheoreticalPower "provence" 1000 t
      = JSNum.fin (roundQ (roundQ (1700000
          * roundQ (1 + roundQ (roundQ (t - 25) * CONSTANTS.TEMP_COEFFICIENT))) / 1000)) := by
  obtain ⟨htf, htfb⟩ := tempFactor_fin t ht
  have hc : Obj.getProp FARMS_CONFIG "provence"
      = Lookup.own
          { name := "provence", location := "Marseille", latitude := 433 / 10,
            panels := 5000, capacity_mw := 2, inverters := 4, panel_power_w := 400,
            csvFile := "provence_data.csv" } := rfl
  simp only [calculateTheoreticalPower, hc]
  rw [htf]
  have e1 : JSNum.mul (JSNum.ofNat 5000) (JSNum.ofNat 400) = JSNum.fin 2000000 := by
    simp only [JSNum.mul, JSNum.ofNat]
    exact round_eq 20 8589934592000000 (by norm_num) (by norm_num) (by norm_num)
      (by norm_num) (by rw [abs_lt]; constructor <;> norm_num) (by norm_num)
  have e2 : JSNum.div (JSNum.fin 1000) (JSNum.ofNat 1000) = JSNum.fin 1 := by
    simp only [JSNum.div, JSNum.ofNat]
    rw [if_neg (by norm_num)]
    exact round_eq 0 4503599627370496 (by norm_num) (by norm_num) (by norm_num)
      (by norm_num) (by rw [abs_lt]; constructor <;> norm_num) (by norm_num)
  have e3 : JSNum.mul (JSNum.fin 2000000) (JSNum.fin 1) = JSNum.fin 2000000 := by
    simp only [JSNum.mul]
    exact round_eq 20 8589934592000000 (by norm_num) (by norm_num) (by norm_num)
      (by norm_num) (by rw [abs_lt]; constructor <;> norm_num) (by norm_num)
  have e4 : JSNum.mul (JSNum.fin 2000000) (JSNum.fin CONSTANTS.SYSTEM_EFFICIENCY)
      = JSNum.fin 1700000 := by
    simp only [JSNum.mul, SYSTEM_EFFICIENCY_eq]
    exact round_eq 20 7301444403200000 (by norm_num) (by norm_num) (by norm_num)
      (by norm_num) (by rw [abs_lt]; constructor <;> norm_num) (by norm_num)
  rw [e1, e2, e3, e4]
  have hx : |(1700000 : ℚ) * roundQ (1 + roundQ (roundQ (t - 25) * CONSTANTS.TEMP_COEFFICIENT))|
      ≤ (2 : ℚ) ^ (115 : ℤ) := by
    rw [abs_mul, abs_of_pos (by norm_num : (0 : ℚ) < 1700000)]
    calc _ ≤ (2 : ℚ) ^ (21 : ℤ) * (2 : ℚ) ^ (94 : ℤ) :=
          mul_le_mul (by norm_num) htfb (abs_nonneg _) (by positivity)
      _ = (2 : ℚ) ^ (115 : ℤ) := by rw [← zpow_add₀ (by norm_num)]; norm_num
  have e5 : JSNum.mul (JSNum.fin 1700000)
        (JSNum.fin (roundQ (1 + roundQ (roundQ (t - 25) * CONSTANTS.TEMP_COEFFICIENT))))
      = JSNum.fin (roundQ (1700000
          * roundQ (1 + roundQ (roundQ (t - 25) * CONSTANTS.TEMP_COEFFICIENT)))) := by
    simp only [JSNum.mul]
    exact round_of_abs_le 115 (by norm_num) (by norm_num) hx
  rw [e5]
  have bx := abs_roundQ_le_two_zpow 115 (by norm_num) hx
  simp only [JSNum.div, JSNum.ofNat]
  rw [if_neg (by norm_num)]
  push_cast
  apply round_of_abs_le 115 (by norm_num) (by norm_num)
  rw [abs_div, abs_of_pos (by norm_num : (0 : ℚ) < 1000), div_le_iff₀ (by norm_num)]
  calc _ ≤ (2 : ℚ) ^ (115 : ℤ) := bx
    _ ≤ (2 : ℚ) ^ (115 : ℤ) * 1000 := by
        have : (0 : ℚ) < (2 : ℚ) ^ (115 : ℤ) := by positivity
        nlinarith

/-- The factor at the double that follows 25 is 1, as it is at 25. -/
theorem tempFactor_next_after_25 :
    roundQ (1 + roundQ (roundQ ((25 + 1 / 2 ^ 48 : ℚ) - 25) * CONSTANTS.TEMP_COEFFICIENT)) = 1 := by
  have h1 : roundQ ((25 + 1 / 2 ^ 48 : ℚ) - 25) = 1 / 2 ^ 48 := by
    have := roundQ_two_zpow (-48) (by norm_num)
    have e : ((25 + 1 / 2 ^ 48 : ℚ) - 25) = (2 : ℚ) ^ (-48 : ℤ) := by norm_num
    rw [e, this]; norm_num
  have h2 : roundQ ((1 / 2 ^ 48 : ℚ) * (8070450532247929 / 2305843009213693952))
      = 8070450532247929 / 649037107316853453566312041152512 :=
    roundQ_eq (-57) 8070450532247929 (by norm_num) (by norm_num) (by norm_num)
      (by rw [abs_lt]; constructor <;> norm_num) (by norm_num)
  rw [h1, TEMP_COEFFICIENT_eq, mul_neg, roundQ_neg, h2]
  exact roundQ_eq (-1) 9007199254740992 (by norm_num) (by norm_num) (by norm_num)
    (by rw [abs_lt]; constructor <;> norm_num) (by norm_num)

theorem roundQ_1700 : roundQ (roundQ ((1700000 : ℚ) * 1) / 1000) = 1700 := by
  have h1 : roundQ ((1700000 : ℚ) * 1) = 1700000 :=
    roundQ_eq 20 7301444403200000 (by norm_num) (by norm_num) (by norm_num)
      (by rw [abs_lt]; constructor <;> norm_num) (by norm_num)
  rw [h1]
  exact roundQ_eq 10 7476679068876800 (by norm_num) (by norm_num) (by norm_num)
    (by rw [abs_lt]; constructor <;> norm_num) (by norm_num)

/-- C27, as stated, fails: 25 and the double that follows it, `25 + 2 ^ -48`, are two panel
temperatures `t1 < t2` at which `provence` under an irradiance of 1000 has the same power,
1700: the difference of the factors is lost in the rounding of `1 + (t - 25) * -0.0035`. -/
theorem theoretical_power_not_strict :
    (25 : ℚ) < 25 + 1 / 2 ^ 48
    ∧ JSNum.roundQ (25 + 1 / 2 ^ 48) = 25 + 1 / 2 ^ 48
    ∧ calculateTheoreticalPower "provence" 1000 25 = JSNum.fin 1700
    ∧ calculateTheoreticalPower "provence" 1000 (25 + 1 / 2 ^ 48) = JSNum.fin 1700 := by
  refine ⟨by norm_num, ?_, ?_, ?_⟩
  · exact roundQ_eq 4 7036874417766401 (by norm_num) (by norm_num) (by norm_num)
      (by rw [abs_lt]; constructor <;> norm_num) (by norm_num)
  · rw [power_provence_1000 25 (by rw [abs_of_pos (by norm_num)]; norm_num),
      tempFactor_at_25, roundQ_1700]
  · rw [power_provence_1000 (25 + 1 / 2 ^ 48) (by rw [abs_of_pos (by norm_num)]; norm_num),
      tempFactor_next_after_25, roundQ_1700]

/-- C27 (amended). In the arithmetic of doubles, for a configured installation: under an
irradiance between 0 and `2 ^ 900` the theoretical power is a finite number that does not
grow with the panel temperature (temperatures of magnitude up to `2 ^ 100`), and under an
irradiance between `2 ^ -900` and `2 ^ 900` the power at 65 C is strictly smaller than the
power at 25 C and their quotient is within `2 ^ -50` of 0.86, which is `1 - 0.0035 * 40`, hence
strictly between 0.80 and 0.90. -/
theorem theoretical_power_decreasing (farm : String) (c : FarmConfig)
    (hc : Obj.getProp FARMS_CONFIG farm = Lookup.own c) :
    (∀ irradiance : ℚ, 0 ≤ irradiance → irradiance ≤ (2 : ℚ) ^ (900 : ℤ) →
      ∀ t1 t2 : ℚ, -(2 : ℚ) ^ (100 : ℤ) ≤ t1 → t1 ≤ t2 → t2 ≤ (2 : ℚ) ^ (100 : ℤ) →
        ∃ p1 p2 : ℚ,
          calculateTheoreticalPower farm irradiance t1 = JSNum.fin p1
          ∧ calculateTheoreticalPower farm irradiance t2 = JSNum.fin p2
          ∧ p2 ≤ p1)
    ∧ (∀ irradiance : ℚ, (2 : ℚ) ^ (-900 : ℤ) ≤ irradiance →
        irradiance ≤ (2 : ℚ) ^ (900 : ℤ) →
        ∃ p25 p65 r : ℚ,
          calculateTheoreticalPower farm irradiance 25 = JSNum.fin p25
          ∧ calculateTheoreticalPower farm irradiance 65 = JSNum.fin p65
          ∧ p65 < p25
          ∧ JSNum.div (calculateTheoreticalPower farm irradiance 65)
              (calculateTheoreticalPower farm irradiance 25) = JSNum.fin r
          ∧ |r - 86 / 100| ≤ (2 : ℚ) ^ (-50 : ℤ)
          ∧ 80 / 100 < r ∧ r < 90 / 100)
    ∧ (86 / 100 : ℚ) = 1 - 35 / 10000 * 40 := by
  refine ⟨fun irradiance h0 h1 t1 t2 ht1 h12 ht2 => ?_, fun irradiance hlo hhi => ?_,
    by norm_num⟩
  · obtain ⟨base, hnn, _, _, hp⟩ := calculateTheoreticalPower_fin farm c hc irradiance h0 h1
    have a1 : |t1| ≤ (2 : ℚ) ^ (100 : ℤ) := abs_le.mpr ⟨ht1, le_trans h12 ht2⟩
    have a2 : |t2| ≤ (2 : ℚ) ^ (100 : ℤ) := abs_le.mpr ⟨le_trans ht1 h12, ht2⟩
    refine ⟨_, _, hp t1 a1, hp t2 a2, ?_⟩
    apply roundQ_mono
    apply div_le_div_of_nonneg_right _ (by norm_num)
    apply roundQ_mono
    exact mul_le_mul_of_nonneg_left (tempFactor_antitone h12) hnn
  · have h0 : 0 ≤ irradiance := le_trans (by positivity) hlo
    obtain ⟨base, hnn, _, hblo, hp⟩ :=
      calculateTheoreticalPower_fin farm c hc irradiance h0 hhi
    have hb := hblo hlo
    obtain ⟨hpos, hlt, hq, hr⟩ := power_quotient base hb
    have e25 := hp 25 (by rw [abs_of_pos (by norm_num)]; norm_num)
    have e65 := hp 65 (by rw [abs_of_pos (by norm_num)]; norm_num)
    rw [tempFactor_at_25] at e25
    rw [tempFactor_at_65] at e65
    have hdiv : JSNum.div (calculateTheoreticalPower farm irradiance 65)
        (calculateTheoreticalPower farm irradiance 25)
        = JSNum.fin (roundQ
            (roundQ (roundQ (base * (7746191359077253 / 9007199254740992)) / 1000)
              / roundQ (roundQ (base * 1) / 1000))) := by
      rw [e25, e65]
      simp only [JSNum.div]
      rw [if_neg hpos.ne']
      exact round_of_abs_le 0 (by norm_num) (by norm_num) hq
    refine ⟨_, _, _, e25, e65, hlt, hdiv, hr, ?_, ?_⟩
    · rw [abs_le] at hr
      have e : (2 : ℚ) ^ (-50 : ℤ) = 1 / 1125899906842624 := by norm_num
      rw [e] at hr
      linarith [hr.1]
    · rw [abs_le] at hr
      have e : (2 : ℚ) ^ (-50 : ℤ) = 1 / 1125899906842624 := by norm_num
      rw [e] at hr
      linarith [hr.2]

theorem theoretical_power_decreasing_witness :
    ((2 : ℚ) ^ (-900 : ℤ) ≤ 1000 ∧ (1000 : ℚ) ≤ (2 : ℚ) ^ (900 : ℤ))
    ∧ ∃ p25 p65 r : ℚ,
        calculateTheoreticalPower "provence" 1000 25 = JSNum.fin p25
        ∧ calculateTheoreticalPower "provence" 1000 65 = JSNum.fin p65
        ∧ p65 < p25
        ∧ JSNum.div (calculateTheoreticalPower "provence" 1000 65)
            (calculateTheoreticalPower "provence" 1000 25) = JSNum.fin r
        ∧ |r - 86 / 100| ≤ (2 : ℚ) ^ (-50 : ℤ)
        ∧ 80 / 100 < r ∧ r < 90 / 100 :=
  ⟨⟨le_trans (zpow_le_one_of_nonpos₀ (by norm_num) (by norm_num)) (by norm_num),
    le_trans (by norm_num : (1000 : ℚ) ≤ (2 : ℚ) ^ (10 : ℤ))
      (zpow_le_zpow_right₀ (by norm_num) (by norm_num))⟩,
   (theoretical_power_decreasing "provence"
      { name := "provence", location := "Marseille", latitude := 433 / 10, panels := 5000,
        capacity_mw := 2, inverters := 4, panel_power_w := 400, csvFile := "provence_data.csv" }
      rfl).2.1 1000
      (le_trans (zpow_le_one_of_nonpos₀ (by norm_num) (by norm_num)) (by norm_num))
      (le_trans (by norm_num : (1000 : ℚ) ≤ (2 : ℚ) ^ (10 : ℤ))
        (zpow_le_zpow_right₀ (by norm_num) (by norm_num)))⟩

end TheoreticalPower


/-! ## Options and the registry are out of the replay -/

theorem DataPlayer.advanceStep_congr (p q : DataPlayer) (h : p.farmsData = q.farmsData) :
    DataPlayer.advanceStep p = DataPlayer.advanceStep q := by
  funext ci k
  simp only [DataPlayer.advanceStep, h]

theorem DataPlayer.jumpStep_congr (p q : DataPlayer) (i : JSNum)
    (h : p.farmsData = q.farmsData) : DataPlayer.jumpStep p i = DataPlayer.jumpStep q i := by
  funext ci k
  simp only [DataPlayer.jumpStep, h]

theorem DataPlayer.updateCurrentDataStep_congr (p q : DataPlayer) (clock : Clock)
    (h : p.farmsData = q.farmsData) (hci : p.currentIndex = q.currentIndex) :
    DataPlayer.updateCurrentDataStep p clock = DataPlayer.updateCurrentDataStep q clock := by
  funext cd k
  simp only [DataPlayer.updateCurrentDataStep, h, hci]

theorem DataPlayer.updateCurrentData_sameReplay (p q : DataPlayer) (clock : Clock)
    (h : DataPlayer.SameReplay p q) :
    DataPlayer.SameReplay (DataPlayer.updateCurrentData p clock)
      (DataPlayer.updateCurrentData q clock) := by
  obtain ⟨h1, h2, h3, h4, h5, h6⟩ := h
  refine ⟨h1, h2, ?_, h4, h5, h6⟩
  show (Obj.keys p.farmsData).foldl (DataPlayer.updateCurrentDataStep p clock) p.currentData
    = (Obj.keys q.farmsData).foldl (DataPlayer.updateCurrentDataStep q clock) q.currentData
  rw [DataPlayer.updateCurrentDataStep_congr p q clock h1 h2, h1, h3]

/-- A call does not read `options`: engines that agree on the other fields still do after it. -/
theorem DataPlayer.call_sameReplay (p q : DataPlayer) (c : Call)
    (h : DataPlayer.SameReplay p q) :
    DataPlayer.SameReplay (DataPlayer.call p c) (DataPlayer.call q c) := by
  have h' := h
  obtain ⟨h1, h2, h3, h4, h5, h6⟩ := h'
  cases c with
  | start clock =>
    simp only [DataPlayer.call, DataPlayer.start, ← h4]
    cases hp : p.isPlaying
    · have hu := DataPlayer.updateCurrentData_sameReplay { p with isPlaying := true }
        { q with isPlaying := true } clock ⟨h1, h2, h3, rfl, h5, h6⟩
      obtain ⟨u1, u2, u3, u4, _, u6⟩ := hu
      exact ⟨u1, u2, u3, u4, rfl, u6⟩
    · exact h
  | stop => exact ⟨h1, h2, h3, rfl, rfl, h6⟩
  | advanceToNext clock =>
    have hu := DataPlayer.updateCurrentData_sameReplay
      { p with currentIndex :=
          (Obj.keys p.farmsData).foldl (DataPlayer.advanceStep p) p.currentIndex }
      { q with currentIndex :=
          (Obj.keys q.farmsData).foldl (DataPlayer.advanceStep q) q.currentIndex }
      clock ⟨h1, by
        show (Obj.keys p.farmsData).foldl (DataPlayer.advanceStep p) p.currentIndex
          = (Obj.keys q.farmsData).foldl (DataPlayer.advanceStep q) q.currentIndex
        rw [DataPlayer.advanceStep_congr p q h1, h1, h2], h3, h4, h5, h6⟩
    obtain ⟨u1, u2, u3, u4, u5, _⟩ := hu
    exact ⟨u1, u2, u3, u4, u5, rfl⟩
  | jumpToIndex i clock =>
    exact DataPlayer.updateCurrentData_sameReplay
      { p with currentIndex :=
          (Obj.keys p.farmsData).foldl (DataPlayer.jumpStep p i) p.currentIndex }
      { q with currentIndex :=
          (Obj.keys q.farmsData).foldl (DataPlayer.jumpStep q i) q.currentIndex }
      clock ⟨h1, by
        show (Obj.keys p.farmsData).foldl (DataPlayer.jumpStep p i) p.currentIndex
          = (Obj.keys q.farmsData).foldl (DataPlayer.jumpStep q i) q.currentIndex
        rw [DataPlayer.jumpStep_congr p q i h1, h1, h2], h3, h4, h5, h6⟩

theorem DataPlayer.run_sameReplay (calls : List Call) (p q : DataPlayer)
    (h : DataPlayer.SameReplay p q) :
    DataPlayer.SameReplay (DataPlayer.run p calls) (DataPlayer.run q calls) := by
  induction calls generalizing p q with
  | nil => exact h
  | cons c calls ih => exact ih _ _ (DataPlayer.call_sameReplay p q c h)

/-- C26. Two engines constructed over the same dataset map with different options have, after
the same sequence of calls, the same cursors, the same materialized records and the same
playing flag and timer; and whatever the options, one `advanceToNext` moves the cursor `c` of a
non-empty dataset of length `L` to `(c + 1) mod L`, one record further. -/
theorem options_do_not_influence_replay (farmsData : Obj (Option (List Record)))
    (o1 o2 : PlayerOptions) (now : Nat) (calls : List Call) :
    (DataPlayer.run (DataPlayer.create farmsData o1 now) calls).currentIndex
        = (DataPlayer.run (DataPlayer.create farmsData o2 now) calls).currentIndex
    ∧ (DataPlayer.run (DataPlayer.create farmsData o1 now) calls).currentData
        = (DataPlayer.run (DataPlayer.create farmsData o2 now) calls).currentData
    ∧ (DataPlayer.run (DataPlayer.create farmsData o1 now) calls).isPlaying
        = (DataPlayer.run (DataPlayer.create farmsData o2 now) calls).isPlaying
    ∧ (DataPlayer.run (DataPlayer.create farmsData o1 now) calls).timer
        = (DataPlayer.run (DataPlayer.create farmsData o2 now) calls).timer
    ∧ (∀ (p : DataPlayer) (clock : Clock) (farm : String) (data : List Record) (c : Nat),
        Obj.getProp p.farmsData farm = Lookup.own (some data) → c < data.length →
        Obj.getProp p.currentIndex farm = Lookup.own (JSNum.ofNat c) →
        Obj.getProp (DataPlayer.advanceToNext p clock).currentIndex farm
          = Lookup.own (JSNum.ofNat ((c + 1) % data.length))) := by
  have h := DataPlayer.run_sameReplay calls (DataPlayer.create farmsData o1 now)
    (DataPlayer.create farmsData o2 now) ⟨rfl, rfl, rfl, rfl, rfl, rfl⟩
  obtain ⟨_, h2, h3, h4, h5, _⟩ := h
  refine ⟨h2, h3, h4, h5, ?_⟩
  intro p clock farm data c hdata hc hcur
  cases data with
  | nil => exact absurd hc (Nat.not_lt_zero c)
  | cons r rs =>
    rw [DataPlayer.advanceToNext_cursor p clock farm r rs hdata, hcur]
    simp only [nextIndex, JSNum.add_ofNat]
    rw [JSNum.mod_ofNat _ _ (List.length_pos.mpr (List.cons_ne_nil r rs))]

theorem options_do_not_influence_replay_witness :
    Obj.getProp (DataPlayer.advanceToNext samplePlayer sampleClock).currentIndex "occitanie"
      = Lookup.own (JSNum.ofNat ((0 + 1) % 2)) :=
  (options_do_not_influence_replay sampleFarmsData PlayerOptions.empty
    { updateInterval := JSVal.undefined, speedFactor := JSVal.num (JSNum.ofNat 10),
      mode := JSVal.str "time-based" } 0 []).2.2.2.2
    samplePlayer sampleClock "occitanie" [sampleRow 0, sampleRow 1] 0 (by decide) (by decide)
    (by decide)


/-! ## The registry after a projection -/

theorem Registry.get_append (l1 l2 : Registry) (m : String) (ls : List (String × String)) :
    Registry.get (l1 ++ l2) m ls = (Registry.get l1 m ls <|> Registry.get l2 m ls) := by
  induction l1 with
  | nil => simp [Registry.get]
  | cons o l1 ih =>
    by_cases h : o.metric = m ∧ o.labels = ls
    · simp [Registry.get, h]
    · simp [Registry.get, h, ih]

theorem Registry.get_store (g : Registry) (o : Observation) (m : String)
    (ls : List (String × String)) :
    Registry.get (Registry.store g o) m ls
      = (Registry.get [o] m ls <|> Registry.get g m ls) := by
  induction g with
  | nil => simp [Registry.store, Registry.get]
  | cons x g ih =>
    by_cases hx : x.metric = o.metric ∧ x.labels = o.labels
    · by_cases ho : o.metric = m ∧ o.labels = ls
      · simp [Registry.store, Registry.get, hx, ho]
      · have hxm : ¬ (x.metric = m ∧ x.labels = ls) := by
          rw [hx.1, hx.2]; exact ho
        simp [Registry.store, Registry.get, hx, ho, hxm]
    · by_cases hxm : x.metric = m ∧ x.labels = ls
      · have ho : ¬ (o.metric = m ∧ o.labels = ls) := by
          intro ho
          exact hx ⟨hxm.1.trans ho.1.symm, hxm.2.trans ho.2.symm⟩
        simp only [Registry.store, hx, if_false]
        simp [Registry.get, hxm, ho]
      · simp only [Registry.store, hx, if_false, Registry.get, hxm, ih]

/-- What a gauge holds after a sequence of calls: the value of the last call that set it, a
call that raised setting nothing. -/
theorem Registry.get_record (g : Registry) (obs : List Observation) (m : String)
    (ls : List (String × String)) :
    Registry.get (Registry.record g obs) m ls
      = (Registry.get (obs.filter (fun o => o.value.isNumber)).reverse m ls
          <|> Registry.get g m ls) := by
  induction obs generalizing g with
  | nil => simp [Registry.record, Registry.get]
  | cons o obs ih =>
    have hstep : Registry.record g (o :: obs) = Registry.record (Registry.set g o) obs := rfl
    rw [hstep, ih]
    by_cases ho : o.value.isNumber = true
    · have e : List.filter (fun o => o.value.isNumber) (o :: obs)
          = o :: List.filter (fun o => o.value.isNumber) obs := by
        simp [List.filter_cons, ho]
      rw [e, List.reverse_cons, Registry.get_append]
      simp only [Registry.set, ho, if_true, Registry.get_store]
      cases Registry.get (List.filter (fun o => o.value.isNumber) obs).reverse m ls <;> simp
    · have e : List.filter (fun o => o.value.isNumber) (o :: obs)
          = List.filter (fun o => o.value.isNumber) obs := by
        simp [List.filter_cons, ho]
      rw [e]
      simp only [Registry.set, ho]
      rfl

theorem Registry.get_record_of_numbers (g : Registry) (obs : List Observation) (m : String)
    (ls : List (String × String)) (h : ∀ o ∈ obs, o.value.isNumber = true) :
    Registry.get (Registry.record g obs) m ls
      = (Registry.get obs.reverse m ls <|> Registry.get g m ls) := by
  rw [Registry.get_record, List.filter_eq_self.mpr h]

theorem Registry.get_filter_metric (l : Registry) (m : String) (ls : List (String × String))
    (keep : String → Bool) (hm : keep m = true) :
    Registry.get (l.filter (fun o => keep o.metric)) m ls = Registry.get l m ls := by
  induction l with
  | nil => rfl
  | cons o l ih =>
    by_cases hk : keep o.metric = true
    · have e : List.filter (fun o => keep o.metric) (o :: l)
          = o :: List.filter (fun o => keep o.metric) l := by
        simp [List.filter_cons, hk]
      rw [e]
      by_cases h : o.metric = m ∧ o.labels = ls
      · simp only [Registry.get, h, and_self, if_true]
      · simp only [Registry.get, h, if_false, ih]
    · have h : ¬ (o.metric = m ∧ o.labels = ls) := by
        intro h
        rw [h.1] at hk
        exact hk hm
      have e : List.filter (fun o => keep o.metric) (o :: l)
          = List.filter (fun o => keep o.metric) l := by
        simp [List.filter_cons, hk]
      rw [e]
      simp only [Registry.get, h, if_false, ih]

theorem Registry.get_isSome_iff (l : Registry) (m : String) (ls : List (String × String)) :
    (Registry.get l m ls).isSome = true ↔ (m, ls) ∈ metricKeys l := by
  induction l with
  | nil => simp [Registry.get, metricKeys]
  | cons o l ih =>
    by_cases h : o.metric = m ∧ o.labels = ls
    · simp [Registry.get, h, metricKeys]
    · have h' : ¬ ((m, ls) = (o.metric, o.labels)) := by
        intro he
        simp only [Prod.mk.injEq] at he
        exact h ⟨he.1.symm, he.2.symm⟩
      simp only [Registry.get, h, if_false, ih, metricKeys, List.map_cons, List.mem_cons, h',
        false_or]

/-- The gauges and label sets of the calls of the body do not depend on the record or on the
clock. -/
theorem metricKeys_setCalls (farm : String) (d d' : Record) (c c' : Clock) :
    metricKeys (setCalls farm (some d) c) = metricKeys (setCalls farm (some d') c') := by
  unfold setCalls
  cases Obj.getProp FARMS_CONFIG farm <;>
    simp [metricKeys, inverterObservations, anomalyObservations, Function.comp_def]

/-- Every call of `updateFarmMetrics(farm, data)` carries the label `farm` of its own
installation only. -/
theorem setCalls_farm_label (farm : String) (data : Option Record) (clock : Clock)
    (f : String) :
    ∀ o ∈ setCalls farm data clock, ("farm", f) ∈ o.labels → f = farm := by
  unfold setCalls
  cases Obj.getProp FARMS_CONFIG farm <;> cases data <;>
    simp only [List.forall_mem_append, List.forall_mem_cons, List.forall_mem_map,
      inverterObservations, anomalyObservations, List.not_mem_nil, false_imp_iff,
      implies_true, and_true] <;>
    simp

/-- Apart from the last-update gauge, the calls of the body do not depend on the clock. -/
theorem setCalls_clock (farm : String) (data : Option Record) (c c' : Clock) :
    (setCalls farm data c).filter
        (fun o => decide (o.metric ≠ "solar_last_update_timestamp"))
      = (setCalls farm data c').filter
        (fun o => decide (o.metric ≠ "solar_last_update_timestamp")) := by
  unfold setCalls
  cases Obj.getProp FARMS_CONFIG farm <;> cases data <;>
    simp [List.filter_append]

theorem setCalls_none (farm : String) (clock : Clock) :
    setCalls farm none clock = [] := by
  unfold setCalls
  cases Obj.getProp FARMS_CONFIG farm <;> rfl

/-- In a reachable registry, a gauge that holds a value under a label set with `farm = f` is
one that `updateFarmMetrics(f, _)` sets. -/
theorem Registry.Reachable.keys_of_farm (g : Registry) (h : Registry.Reachable g) (m : String)
    (ls : List (String × String)) (hsome : (Registry.get g m ls).isSome = true) (f : String)
    (hf : ("farm", f) ∈ ls) (d : Record) (c : Clock) :
    (m, ls) ∈ metricKeys (setCalls f (some d) c) := by
  induction h with
  | empty => simp [Registry.get] at hsome
  | update g farm data clock _ ih =>
    rw [Registry.get_record] at hsome
    cases hrec : Registry.get
        ((updateFarmMetrics farm data clock).filter (fun o => o.value.isNumber)).reverse
        m ls with
    | none =>
      rw [hrec] at hsome
      exact ih (by simpa using hsome)
    | some v =>
      have hmem : (m, ls) ∈ metricKeys
          ((updateFarmMetrics farm data clock).filter (fun o => o.value.isNumber)).reverse :=
        (Registry.get_isSome_iff _ m ls).mp (by rw [hrec]; rfl)
      simp only [metricKeys, List.map_reverse, List.mem_reverse, List.mem_map,
        Prod.mk.injEq] at hmem
      obtain ⟨o, ho, hm, hl⟩ := hmem
      have ho' : o ∈ setCalls farm data clock :=
        mem_setCalls_of_mem farm data clock o (List.mem_of_mem_filter ho)
      have hfarm : f = farm :=
        setCalls_farm_label farm data clock f o ho' (by rw [hl]; exact hf)
      subst hfarm
      cases data with
      | none =>
        rw [setCalls_none] at ho'
        simp at ho'
      | some d' =>
        rw [metricKeys_setCalls f d d' c clock]
        exact List.mem_map.mpr ⟨o, ho', by rw [hm, hl]⟩

/-- What a gauge other than the last-update gauge is given by the calls of the body is read
off the calls on that gauge alone, whatever the clock. -/
theorem Registry.get_reverse_clock (farm : String) (data : Option Record) (c c' : Clock)
    (m : String) (ls : List (String × String)) (hm : m ≠ "solar_last_update_timestamp") :
    Registry.get (setCalls farm data c).reverse m ls
      = Registry.get (setCalls farm data c').reverse m ls := by
  have hkeep : (fun x : String => decide (x ≠ "solar_last_update_timestamp")) m = true := by
    simpa using hm
  rw [← Registry.get_filter_metric (setCalls farm data c).reverse m ls
      (fun x => decide (x ≠ "solar_last_update_timestamp")) hkeep,
    ← Registry.get_filter_metric (setCalls farm data c').reverse m ls
      (fun x => decide (x ≠ "solar_last_update_timestamp")) hkeep,
    List.filter_reverse, List.filter_reverse, setCalls_clock farm data c c']

/-- After a projection in which no call raises, the anomaly gauge of an installation holds, for
each kind, the value of the projection, whatever it held before. -/
theorem Registry.get_anomaly (g : Registry) (farm : String) (c : FarmConfig) (data : Record)
    (clock : Clock) (hc : Obj.getProp FARMS_CONFIG farm = Lookup.own c)
    (hall : ∀ o ∈ setCalls farm (some data) clock, o.value.isNumber = true) (k : String)
    (hk : k ∈ Obj.keys ANOMALY_TYPES) :
    Registry.get (Registry.record g (setCalls farm (some data) clock))
        "solar_anomaly_active" [("farm", farm), ("type", k)]
      = some (JSVal.num (JSNum.ofNat
          (if JSVal.str k = JSVal.orElse (Record.field data "anomaly_type") (JSVal.str "NORMAL")
           then 1 else 0))) := by
  have hkeep : (fun x : String => decide (x = "solar_anomaly_active")) "solar_anomaly_active"
      = true := by simp
  have hobs := anomaly_gauge_observations farm c data clock hc
  unfold observationsOf at hobs
  rw [Registry.get_record_of_numbers _ _ _ _ hall,
    ← Registry.get_filter_metric (setCalls farm (some data) clock).reverse
      "solar_anomaly_active" [("farm", farm), ("type", k)]
      (fun x => decide (x = "solar_anomaly_active")) hkeep,
    List.filter_reverse, hobs]
  have hkeys : Obj.keys ANOMALY_TYPES
      = ["NORMAL", "OVERHEAT", "INVERTER_DOWN", "DEGRADATION", "SHADING", "SENSOR_FAIL"] := by
    decide
  rw [hkeys] at hk
  simp only [List.mem_cons, List.mem_singleton, List.not_mem_nil, or_false] at hk
  rcases hk with rfl | rfl | rfl | rfl | rfl | rfl <;>
    simp [anomalySnapshot, Registry.get]

/-- C28. For a configured installation `f` and a well-typed record `d`, projected onto two
registries reached by earlier projections, at any two clock readings: every gauge other than
the last-update gauge holds the same value in both for every label set with `farm = f` (or is
unset in both); every value handed to a gauge is a number; and for each kind the anomaly gauge
holds 1 if the kind is the one of `d` and 0 otherwise, whatever it held before. -/
theorem projection_memoryless (farm : String) (c : FarmConfig) (data : Record)
    (hc : Obj.getProp FARMS_CONFIG farm = Lookup.own c)
    (hnum : ∀ fg ∈ numericGauges,
      Record.field data fg.1 = JSVal.undefined ∨ (Record.field data fg.1).isNumber = true)
    (hstatus : ∀ i ∈ List.range' 1 c.inverters,
      Record.field data (statusKey i) = JSVal.undefined
        ∨ (Record.field data (statusKey i)).isNumber = true)
    (hsev : Record.field data "anomaly_severity" = JSVal.undefined
      ∨ ∃ s, s ∈ ["low", "medium", "high"] ∧ Record.field data "anomaly_severity" = JSVal.str s)
    (g1 g2 : Registry) (h1 : Registry.Reachable g1) (h2 : Registry.Reachable g2)
    (c1 c2 : Clock) :
    (∀ (m : String) (ls : List (String × String)), ("farm", farm) ∈ ls →
      m ≠ "solar_last_update_timestamp" →
      Registry.get (Registry.record g1 (updateFarmMetrics farm (some data) c1)) m ls
        = Registry.get (Registry.record g2 (updateFarmMetrics farm (some data) c2)) m ls)
    ∧ (∀ o ∈ updateFarmMetrics farm (some data) c1, o.value.isNumber = true)
    ∧ (∀ k ∈ Obj.keys ANOMALY_TYPES,
        Registry.get (Registry.record g1 (updateFarmMetrics farm (some data) c1))
            "solar_anomaly_active" [("farm", farm), ("type", k)]
          = some (JSVal.num (JSNum.ofNat
              (if JSVal.str k
                  = JSVal.orElse (Record.field data "anomaly_type") (JSVal.str "NORMAL")
               then 1 else 0)))) := by
  have e1 := updateFarmMetrics_eq_setCalls farm c data c1 hc hnum hstatus hsev
  have e2 := updateFarmMetrics_eq_setCalls farm c data c2 hc hnum hstatus hsev
  have n1 := setCalls_values_are_numbers farm c data c1 hc hnum hstatus hsev
  have n2 := setCalls_values_are_numbers farm c data c2 hc hnum hstatus hsev
  rw [e1, e2]
  refine ⟨fun m ls hf hm => ?_, n1,
    fun k hk => Registry.get_anomaly g1 farm c data c1 hc n1 k hk⟩
  rw [Registry.get_record_of_numbers _ _ _ _ n1, Registry.get_record_of_numbers _ _ _ _ n2,
    Registry.get_reverse_clock farm (some data) c1 c2 m ls hm]
  cases hrec : Registry.get (setCalls farm (some data) c2).reverse m ls with
  | some v => rfl
  | none =>
    have hnot : (m, ls) ∉ metricKeys (setCalls farm (some data) c2) := by
      intro hmem
      have hrev : (m, ls) ∈ metricKeys (setCalls farm (some data) c2).reverse := by
        simpa [metricKeys] using hmem
      have := (Registry.get_isSome_iff _ m ls).mpr hrev
      rw [hrec] at this
      exact absurd this (by simp)
    have hnone : ∀ g : Registry, Registry.Reachable g → Registry.get g m ls = none := by
      intro g hg
      cases hget : Registry.get g m ls with
      | none => rfl
      | some v =>
        exact absurd
          (Registry.Reachable.keys_of_farm g hg m ls (by rw [hget]; rfl) farm hf data c2) hnot
    simp [hnone g1 h1, hnone g2 h2]

theorem projection_memoryless_witness :
    Registry.get
        (Registry.record
          (Registry.record [] (updateFarmMetrics "provence" (some incompleteRecord) sampleClock))
          (updateFarmMetrics "provence" (some sampleInverterRecord) laterClock))
        "solar_anomaly_active" [("farm", "provence"), ("type", "NORMAL")]
      = some (JSVal.num (JSNum.ofNat 0)) :=
  (projection_memoryless "provence"
    { name := "provence", location := "Marseille", latitude := 433 / 10, panels := 5000,
      capacity_mw := 2, inverters := 4, panel_power_w := 400, csvFile := "provence_data.csv" }
    sampleInverterRecord rfl (by decide) (by decide) (Or.inr ⟨"high", by decide, by decide⟩)
    (Registry.record [] (updateFarmMetrics "provence" (some incompleteRecord) sampleClock)) []
    (Registry.Reachable.update [] "provence" (some incompleteRecord) sampleClock
      Registry.Reachable.empty)
    Registry.Reachable.empty laterClock sampleClock).2.2 "NORMAL" (by decide)


/-! ## Decimal text of an integer -/

theorem digitChar_ne_N (k : Nat) (hk : k < 10) : Nat.digitChar k ≠ 'N' := by
  interval_cases k <;> decide

theorem toDigitsCore_digits (fuel : Nat) : ∀ (n : Nat) (ds : List Char), n < fuel →
    ∃ pre : List Char, Nat.toDigitsCore 10 fuel n ds = pre ++ ds ∧ pre ≠ []
      ∧ 'N' ∉ pre := by
  induction fuel with
  | zero => intro n ds h; exact absurd h (Nat.not_lt_zero n)
  | succ fuel ih =>
    intro n ds h
    have hmod : n % 10 < 10 := Nat.mod_lt n (by decide)
    by_cases h0 : n / 10 = 0
    · refine ⟨[Nat.digitChar (n % 10)], ?_, by simp, ?_⟩
      · simp [Nat.toDigitsCore, h0]
      · simpa using (digitChar_ne_N _ hmod).symm
    · have hlt : n / 10 < fuel := by omega
      obtain ⟨pre, hpre, _, hN⟩ := ih (n / 10) (Nat.digitChar (n % 10) :: ds) hlt
      refine ⟨pre ++ [Nat.digitChar (n % 10)], ?_, by simp, ?_⟩
      · simp [Nat.toDigitsCore, h0, hpre]
      · simp only [List.mem_append, List.mem_singleton, not_or]
        exact ⟨hN, (digitChar_ne_N _ hmod).symm⟩

theorem toString_nat_digits (n : Nat) :
    (toString n).data ≠ [] ∧ 'N' ∉ (toString n).data := by
  obtain ⟨pre, hpre, hne, hN⟩ := toDigitsCore_digits (n + 1) n [] (Nat.lt_succ_self n)
  have hdata : (toString n).data = pre := by
    show (Nat.toDigits 10 n).asString.data = pre
    simp [Nat.toDigits, hpre, List.asString]
  rw [hdata]
  exact ⟨hne, hN⟩

theorem toString_nat_inj (a b : Nat) (h : (toString a).data = (toString b).data) : a = b := by
  rw [← (toString_nat_spec a).2, ← (toString_nat_spec b).2, h]

theorem toString_int_ofNat (n : Nat) : toString (Int.ofNat n) = toString n := rfl

theorem toString_int_negSucc (m : Nat) :
    toString (Int.negSucc m) = "-" ++ toString (m + 1) := rfl

/-- The decimal text of an integer: an optional sign in front of digits. -/
theorem toString_int_form (z : ℤ) :
    ∃ body : List Char, body ≠ [] ∧ '-' ∉ body
      ∧ ((toString z).data = body ∨ (toString z).data = '-' :: body) := by
  cases z with
  | ofNat n =>
    exact ⟨(toString n).data, (toString_nat_digits n).1, (toString_nat_spec n).1, Or.inl rfl⟩
  | negSucc m =>
    refine ⟨(toString (m + 1)).data, (toString_nat_digits (m + 1)).1,
      (toString_nat_spec (m + 1)).1, Or.inr ?_⟩
    rw [toString_int_negSucc]
    rfl

theorem toString_int_inj (z w : ℤ) (h : (toString z).data = (toString w).data) : z = w := by
  cases z with
  | ofNat n =>
    cases w with
    | ofNat m =>
      rw [toString_int_ofNat, toString_int_ofNat] at h
      rw [toString_nat_inj n m h]
    | negSucc m =>
      rw [toString_int_ofNat, toString_int_negSucc] at h
      have hmem : '-' ∈ (toString n).data := by
        rw [h]; simp [String.data_append]
      exact absurd hmem (toString_nat_spec n).1
  | negSucc n =>
    cases w with
    | ofNat m =>
      rw [toString_int_ofNat, toString_int_negSucc] at h
      have hmem : '-' ∈ (toString m).data := by
        rw [← h]; simp [String.data_append]
      exact absurd hmem (toString_nat_spec m).1
    | negSucc m =>
      rw [toString_int_negSucc, toString_int_negSucc] at h
      simp only [String.data_append] at h
      have h' : (toString (n + 1)).data = (toString (m + 1)).data := by
        simpa using h
      have := toString_nat_inj (n + 1) (m + 1) h'
      have hnm : n = m := by omega
      rw [hnm]

theorem toString_int_ne_NaN (z : ℤ) : (toString z).data ≠ ("NaN" : String).data := by
  intro h
  cases z with
  | ofNat n =>
    rw [toString_int_ofNat] at h
    have hmem : 'N' ∈ (toString n).data := by
      rw [h]; decide
    exact absurd hmem (toString_nat_digits n).2
  | negSucc m =>
    rw [toString_int_negSucc] at h
    simp only [String.data_append] at h
    simp at h

/-- Two texts made of an optional sign and a body without `-`, each followed by `-` and a
second text: the concatenations agree only when both parts agree. -/
theorem signed_key_inj (A A' B B' : List Char)
    (hA : ∃ body : List Char, body ≠ [] ∧ '-' ∉ body ∧ (A = body ∨ A = '-' :: body))
    (hA' : ∃ body : List Char, body ≠ [] ∧ '-' ∉ body ∧ (A' = body ∨ A' = '-' :: body))
    (h : A ++ '-' :: B = A' ++ '-' :: B') : A = A' ∧ B = B' := by
  obtain ⟨a, hane, hadash, ha⟩ := hA
  obtain ⟨a', hane', hadash', ha'⟩ := hA'
  have head_ne : ∀ (x : List Char) (r : List Char), x ≠ [] → '-' ∉ x →
      ∀ y r', x ++ '-' :: r ≠ '-' :: y ++ '-' :: r' := by
    intro x r hx hd y r' he
    cases x with
    | nil => exact hx rfl
    | cons c x =>
      simp only [List.cons_append, List.cons.injEq] at he
      exact hd (by simp [he.1])
  rcases ha with rfl | rfl <;> rcases ha' with rfl | rfl
  · exact append_cons_inj_of_not_mem '-' _ _ _ _ hadash hadash' h
  · exact absurd h (head_ne _ _ hane hadash _ _)
  · exact absurd h.symm (head_ne _ _ hane' hadash' _ _)
  · simp only [List.cons_append, List.cons.injEq, true_and] at h
    obtain ⟨e1, e2⟩ := append_cons_inj_of_not_mem '-' _ _ _ _ hadash hadash' h
    exact ⟨by rw [e1], e2⟩

/-! ## The index by day and hour -/

theorem Obj.getOwn_setProp {α : Type} (o : Obj α) (k k' : String) (v : α) :
    Obj.getOwn (Obj.setProp o k v) k' = if k = k' then some v else Obj.getOwn o k' := by
  by_cases h : k = k'
  · subst h
    simp [Obj.getOwn_setProp_self]
  · simp [h, Obj.getOwn_setProp_ne o k k' v (Ne.symm h)]

theorem Obj.mem_keys_iff {α : Type} (o : Obj α) (k : String) :
    k ∈ Obj.keys o ↔ (Obj.getOwn o k).isSome = true := by
  induction o with
  | nil => simp [Obj.keys, Obj.getOwn]
  | cons hd tl ih =>
    obtain ⟨k', v⟩ := hd
    simp only [Obj.keys, List.mem_dedup, List.map_cons, List.mem_cons] at ih ⊢
    by_cases h : k' = k
    · simp [Obj.getOwn, h]
    · simp only [Obj.getOwn, h, if_false, ← ih]
      constructor
      · rintro (h' | h')
        · exact absurd h'.symm h
        · exact h'
      · exact Or.inr

/-- The `Map` built by `indexByHour` holds, under each key, the last record with that key. -/
theorem getOwn_foldl_hourKey (render : JSVal → String) (data : List Record) (index : Obj Record)
    (k : String) :
    Obj.getOwn (data.foldl (fun index record => Obj.setProp index (hourKey render record) record)
        index) k
      = (data.reverse.find? (fun r => decide (hourKey render r = k))).or (Obj.getOwn index k) := by
  induction data generalizing index with
  | nil => simp
  | cons r rest ih =>
    rw [List.foldl_cons, ih, List.reverse_cons, List.find?_append, Obj.getOwn_setProp]
    cases List.find? (fun r => decide (hourKey render r = k)) rest.reverse with
    | some x => simp
    | none =>
      by_cases h : hourKey render r = k
      · simp [List.find?, h]
      · simp [List.find?, h]

theorem getOwn_indexByHour (render : JSVal → String) (data : List Record) (k : String) :
    Obj.getOwn (indexByHour render data) k
      = data.reverse.find? (fun r => decide (hourKey render r = k)) := by
  unfold indexByHour
  rw [getOwn_foldl_hourKey]
  cases List.find? (fun r => decide (hourKey render r = k)) data.reverse <;> simp [Obj.getOwn]

theorem keys_indexByHour_length (render : JSVal → String) (data : List Record) :
    (Obj.keys (indexByHour render data)).length
      = ((data.map (hourKey render)).dedup).length := by
  apply List.Perm.length_eq
  rw [List.perm_ext_iff_of_nodup (Obj.keys_nodup _) (List.nodup_dedup _)]
  intro k
  rw [Obj.mem_keys_iff, getOwn_indexByHour, List.find?_isSome, List.mem_dedup, List.mem_map]
  constructor
  · rintro ⟨r, hr, hk⟩
    exact ⟨r, List.mem_reverse.mp hr, by simpa using hk⟩
  · rintro ⟨r, hr, hk⟩
    exact ⟨r, List.mem_reverse.mpr hr, by simpa using hk⟩

theorem find?_congr_of_mem {α : Type} (p q : α → Bool) (l : List α)
    (h : ∀ x ∈ l, p x = q x) : l.find? p = l.find? q := by
  induction l with
  | nil => rfl
  | cons x l ih =>
    have hx := h x (List.mem_cons_self x l)
    have hl := ih (fun y hy => h y (List.mem_cons_of_mem x hy))
    simp only [List.find?, hx, hl]

/-- The text of a value that `parseInt` returns: `NaN`, or an integer below `2 ^ 53` in
magnitude, which JavaScript writes in decimal. -/
theorem textOf_parsed (render : JSVal → String)
    (hrender : ∀ z : ℤ, |z| < 2 ^ 53 → render (JSVal.num (JSNum.fin (z : ℚ))) = toString z)
    (hnan : render (JSVal.num JSNum.nan) = "NaN") (v : JSVal)
    (hv : v = JSVal.num JSNum.nan ∨ ∃ z : ℤ, |z| < 2 ^ 53 ∧ v = JSVal.num (JSNum.fin (z : ℚ))) :
    (textOf render v = "NaN" ∧ v = JSVal.num JSNum.nan)
      ∨ ∃ z : ℤ, textOf render v = toString z ∧ v = JSVal.num (JSNum.fin (z : ℚ)) := by
  rcases hv with rfl | ⟨z, hz, rfl⟩
  · exact Or.inl ⟨by simp [textOf, hnan], rfl⟩
  · exact Or.inr ⟨z, by simp [textOf, hrender z hz], rfl⟩

theorem textOf_parsed_form (render : JSVal → String)
    (hrender : ∀ z : ℤ, |z| < 2 ^ 53 → render (JSVal.num (JSNum.fin (z : ℚ))) = toString z)
    (hnan : render (JSVal.num JSNum.nan) = "NaN") (v : JSVal)
    (hv : v = JSVal.num JSNum.nan ∨ ∃ z : ℤ, |z| < 2 ^ 53 ∧ v = JSVal.num (JSNum.fin (z : ℚ))) :
    ∃ body : List Char, body ≠ [] ∧ '-' ∉ body
      ∧ ((textOf render v).data = body ∨ (textOf render v).data = '-' :: body) := by
  rcases textOf_parsed render hrender hnan v hv with ⟨ht, _⟩ | ⟨z, ht, _⟩
  · rw [ht]
    exact ⟨['N', 'a', 'N'], by simp, by decide, Or.inl rfl⟩
  · rw [ht]
    exact toString_int_form z

theorem textOf_parsed_inj (render : JSVal → String)
    (hrender : ∀ z : ℤ, |z| < 2 ^ 53 → render (JSVal.num (JSNum.fin (z : ℚ))) = toString z)
    (hnan : render (JSVal.num JSNum.nan) = "NaN") (v w : JSVal)
    (hv : v = JSVal.num JSNum.nan ∨ ∃ z : ℤ, |z| < 2 ^ 53 ∧ v = JSVal.num (JSNum.fin (z : ℚ)))
    (hw : w = JSVal.num JSNum.nan ∨ ∃ z : ℤ, |z| < 2 ^ 53 ∧ w = JSVal.num (JSNum.fin (z : ℚ)))
    (h : (textOf render v).data = (textOf render w).data) : v = w := by
  rcases textOf_parsed render hrender hnan v hv with ⟨hv1, hv2⟩ | ⟨z, hv1, hv2⟩ <;>
    rcases textOf_parsed render hrender hnan w hw with ⟨hw1, hw2⟩ | ⟨z', hw1, hw2⟩
  · rw [hv2, hw2]
  · rw [hv1, hw1] at h
    exact absurd h.symm (toString_int_ne_NaN z')
  · rw [hv1, hw1] at h
    exact absurd h (toString_int_ne_NaN z)
  · rw [hv1, hw1] at h
    rw [hv2, hw2, toString_int_inj z z' h]

/-- For records whose day and hour are values that `parseInt` returns, the key determines the
pair. -/
theorem hourKey_eq_iff (render : JSVal → String)
    (hrender : ∀ z : ℤ, |z| < 2 ^ 53 → render (JSVal.num (JSNum.fin (z : ℚ))) = toString z)
    (hnan : render (JSVal.num JSNum.nan) = "NaN") (r r' : Record)
    (hr : ∀ v ∈ [Record.field r "day_of_year", Record.field r "hour"],
      v = JSVal.num JSNum.nan ∨ ∃ z : ℤ, |z| < 2 ^ 53 ∧ v = JSVal.num (JSNum.fin (z : ℚ)))
    (hr' : ∀ v ∈ [Record.field r' "day_of_year", Record.field r' "hour"],
      v = JSVal.num JSNum.nan ∨ ∃ z : ℤ, |z| < 2 ^ 53 ∧ v = JSVal.num (JSNum.fin (z : ℚ))) :
    hourKey render r = hourKey render r' ↔ hourPair r = hourPair r' := by
  constructor
  · intro h
    have hd := congrArg String.data h
    simp only [hourKey, String.data_append] at hd
    rw [List.append_assoc, List.append_assoc, List.singleton_append,
      List.singleton_append] at hd
    have d1 := hr _ (List.mem_cons_self _ _)
    have d2 := hr' _ (List.mem_cons_self _ _)
    have h1 := hr _ (List.mem_cons_of_mem _ (List.mem_cons_self _ _))
    have h2 := hr' _ (List.mem_cons_of_mem _ (List.mem_cons_self _ _))
    obtain ⟨e1, e2⟩ := signed_key_inj _ _ _ _
      (textOf_parsed_form render hrender hnan _ d1)
      (textOf_parsed_form render hrender hnan _ d2) hd
    unfold hourPair
    rw [textOf_parsed_inj render hrender hnan _ _ d1 d2 e1,
      textOf_parsed_inj render hrender hnan _ _ h1 h2 e2]
  · intro h
    unfold hourPair at h
    simp only [Prod.mk.injEq] at h
    simp only [hourKey, h.1, h.2]

/-- C22. For every list of records whose `day_of_year` and `hour` are values that `parseInt`
returns (`NaN`, or an integer below `2 ^ 53` in magnitude, which JavaScript writes in
decimal), the map of `indexByHour` holds under the key of each record the last record of the
list having its (day, hour) pair; its size is the number of distinct keys, which is the number
of distinct pairs; and when all pairs are distinct the size is the length of the list and every
record is retrieved by its own key. -/
theorem indexByHour_last_of_pair (render : JSVal → String) (data : List Record)
    (hrender : ∀ z : ℤ, |z| < 2 ^ 53 → render (JSVal.num (JSNum.fin (z : ℚ))) = toString z)
    (hnan : render (JSVal.num JSNum.nan) = "NaN")
    (hdata : ∀ r ∈ data, ∀ v ∈ [Record.field r "day_of_year", Record.field r "hour"],
      v = JSVal.num JSNum.nan ∨ ∃ z : ℤ, |z| < 2 ^ 53 ∧ v = JSVal.num (JSNum.fin (z : ℚ))) :
    (∀ r ∈ data, Obj.getOwn (indexByHour render data) (hourKey render r)
        = data.reverse.find? (fun x => decide (hourPair x = hourPair r)))
    ∧ (∀ k : String, Obj.getOwn (indexByHour render data) k
        = data.reverse.find? (fun r => decide (hourKey render r = k)))
    ∧ (Obj.keys (indexByHour render data)).length = ((data.map (hourKey render)).dedup).length
    ∧ (Obj.keys (indexByHour render data)).length = ((data.map hourPair).dedup).length
    ∧ ((data.map hourPair).Nodup →
        (Obj.keys (indexByHour render data)).length = data.length
        ∧ ∀ r ∈ data, Obj.getOwn (indexByHour render data) (hourKey render r) = some r)
    ∧ (∀ r : Record, hourKey render r
        = textOf render (Record.field r "day_of_year") ++ "-"
            ++ textOf render (Record.field r "hour")) := by
  have hiff : ∀ x ∈ data, ∀ y ∈ data,
      (hourKey render x = hourKey render y ↔ hourPair x = hourPair y) :=
    fun x hx y hy => hourKey_eq_iff render hrender hnan x y (hdata x hx) (hdata y hy)
  have hlast : ∀ r ∈ data, Obj.getOwn (indexByHour render data) (hourKey render r)
      = data.reverse.find? (fun x => decide (hourPair x = hourPair r)) := by
    intro r hr
    rw [getOwn_indexByHour]
    apply find?_congr_of_mem
    intro x hx
    have hx' : x ∈ data := List.mem_reverse.mp hx
    have := hiff x hx' r hr
    simp only [this]
  have hcount : ((data.map (hourKey render)).dedup).length
      = ((data.map hourPair).dedup).length := by
    have key : ∀ l : List Record, (∀ x ∈ l, x ∈ data) →
        ((l.map (hourKey render)).dedup).length = ((l.map hourPair).dedup).length := by
      intro l
      induction l with
      | nil => intro _; rfl
      | cons x l ih =>
        intro hl
        have hx : x ∈ data := hl x (List.mem_cons_self _ _)
        have hl' : ∀ y ∈ l, y ∈ data := fun y hy => hl y (List.mem_cons_of_mem _ hy)
        have hmem : hourKey render x ∈ l.map (hourKey render)
            ↔ hourPair x ∈ l.map hourPair := by
          simp only [List.mem_map]
          constructor
          · rintro ⟨y, hy, e⟩
            exact ⟨y, hy, (hiff y (hl' y hy) x hx).mp e⟩
          · rintro ⟨y, hy, e⟩
            exact ⟨y, hy, (hiff y (hl' y hy) x hx).mpr e⟩
        simp only [List.map_cons]
        by_cases hk : hourKey render x ∈ l.map (hourKey render)
        · rw [List.dedup_cons_of_mem hk, List.dedup_cons_of_mem (hmem.mp hk)]
          exact ih hl'
        · rw [List.dedup_cons_of_not_mem hk,
            List.dedup_cons_of_not_mem (fun h => hk (hmem.mpr h))]
          simp only [List.length_cons]
          rw [ih hl']
    exact key data (fun _ h => h)
  refine ⟨hlast, getOwn_indexByHour render data, keys_indexByHour_length render data,
    (keys_indexByHour_length render data).trans hcount, fun hnodup => ?_, fun _ => rfl⟩
  have hinj : ∀ x ∈ data, ∀ y ∈ data, hourKey render x = hourKey render y → x = y := by
    intro x hx y hy hxy
    exact List.inj_on_of_nodup_map hnodup hx hy ((hiff x hx y hy).mp hxy)
  constructor
  · rw [keys_indexByHour_length,
      List.Nodup.dedup (List.Nodup.map_on hinj (List.Nodup.of_map _ hnodup)), List.length_map]
  · intro r hr
    rw [hlast r hr]
    cases hfind : data.reverse.find? (fun x => decide (hourPair x = hourPair r)) with
    | none =>
      rw [List.find?_eq_none] at hfind
      exact absurd (by simp) (hfind r (List.mem_reverse.mpr hr))
    | some x =>
      have hx : x ∈ data := List.mem_reverse.mp (List.mem_of_find?_eq_some hfind)
      have hp : hourPair x = hourPair r := by simpa using List.find?_some hfind
      rw [List.inj_on_of_nodup_map hnodup hx hr hp]

theorem decimalRender_int (z : ℤ) :
    decimalRender (JSVal.num (JSNum.fin (z : ℚ))) = toString z := by
  simp [decimalRender]

theorem indexByHour_last_of_pair_witness :
    (Obj.keys (indexByHour decimalRender hourlyRecords)).length = hourlyRecords.length
    ∧ ∀ r ∈ hourlyRecords,
        Obj.getOwn (indexByHour decimalRender hourlyRecords) (hourKey decimalRender r)
          = some r :=
  (indexByHour_last_of_pair decimalRender hourlyRecords (fun z _ => decimalRender_int z) rfl
    (by
      intro r hr v hv
      simp only [hourlyRecords, List.mem_cons, List.mem_singleton, List.not_mem_nil,
        or_false] at hr
      rcases hr with rfl | rfl | rfl <;>
        simp only [Record.field, Obj.getOwn, List.mem_cons, List.mem_singleton,
          List.not_mem_nil, or_false] at hv <;>
        rcases hv with rfl | rfl
      · exact Or.inr ⟨152, by norm_num, by simp [JSNum.ofNat]⟩
      · exact Or.inr ⟨10, by norm_num, by simp [JSNum.ofNat]⟩
      · exact Or.inr ⟨152, by norm_num, by simp [JSNum.ofNat]⟩
      · exact Or.inr ⟨11, by norm_num, by simp [JSNum.ofNat]⟩
      · exact Or.inr ⟨153, by norm_num, by simp [JSNum.ofNat]⟩
      · exact Or.inr ⟨10, by norm_num, by simp [JSNum.ofNat]⟩)).2.2.2.2.1 (by decide)


/-! ## The statistics of a dataset map -/

theorem Obj.getOwn_assign_ne {α : Type} (o : Obj α) (k k' : String) (v : α) (h : k' ≠ k) :
    Obj.getOwn (Obj.assign o k v) k' = Obj.getOwn o k' := by
  unfold Obj.assign
  split_ifs
  · rfl
  · exact Obj.getOwn_setProp_ne o k k' v h

theorem Obj.getProp_assign_ne {α : Type} (o : Obj α) (k k' : String) (v : α) (h : k' ≠ k) :
    Obj.getProp (Obj.assign o k v) k' = Obj.getProp o k' := by
  simp [Obj.getProp, Obj.getOwn_assign_ne o k k' v h]

theorem Obj.getProp_assign_self {α : Type} (o : Obj α) (k : String) (v : α)
    (h : k ≠ "__proto__") : Obj.getProp (Obj.assign o k v) k = Lookup.own v := by
  simp [Obj.assign, h, Obj.getProp_setProp_self]

/-- The three members of the statistics after the outer loop has visited the keys `ks`. -/
theorem datasetStats_foldl (render : JSVal → String) (farmsData : Obj (List Record))
    (ks : List String) (stats : DatasetStats) :
    (ks.foldl (datasetStatsStep render farmsData) stats).totalRecords
      = stats.totalRecords
        + (ks.map (fun farmName => ((Obj.getOwn farmsData farmName).getD []).length)).sum
    ∧ (ks.foldl (datasetStatsStep render farmsData) stats).anomalyCounts
      = (ks.flatMap (fun farmName => (Obj.getOwn farmsData farmName).getD [])).foldl
          (countAnomaly render) stats.anomalyCounts
    ∧ (ks.foldl (datasetStatsStep render farmsData) stats).recordsPerFarm
      = ks.foldl (fun o farmName =>
          match Obj.getOwn farmsData farmName with
          | none => o
          | some data => Obj.assign o farmName data.length) stats.recordsPerFarm := by
  induction ks generalizing stats with
  | nil => simp
  | cons k ks ih =>
    simp only [List.foldl_cons, List.map_cons, List.sum_cons, List.flatMap_cons,
      List.foldl_append]
    obtain ⟨h1, h2, h3⟩ := ih (datasetStatsStep render farmsData stats k)
    rw [h1, h2, h3]
    cases hk : Obj.getOwn farmsData k with
    | none => simp [datasetStatsStep, hk]
    | some data => simp [datasetStatsStep, hk, Nat.add_assoc]

theorem totalRecords_eq_sum (render : JSVal → String) (farmsData : Obj (List Record)) :
    (getDatasetStats render farmsData).totalRecords
      = ((Obj.keys farmsData).map
          (fun farmName => ((Obj.getOwn farmsData farmName).getD []).length)).sum := by
  simp [getDatasetStats, (datasetStats_foldl render farmsData _ _).1]

theorem allRecords_length (farmsData : Obj (List Record)) :
    (allRecords farmsData).length
      = ((Obj.keys farmsData).map
          (fun farmName => ((Obj.getOwn farmsData farmName).getD []).length)).sum := by
  simp [allRecords, List.length_flatMap, Function.comp_def]

theorem anomalyCounts_eq_foldl (render : JSVal → String) (farmsData : Obj (List Record)) :
    (getDatasetStats render farmsData).anomalyCounts
      = (allRecords farmsData).foldl (countAnomaly render) [] := by
  simp [getDatasetStats, allRecords, (datasetStats_foldl render farmsData _ _).2.1]

theorem recordsPerFarm_of_own (render : JSVal → String) (farmsData : Obj (List Record))
    (farmName : String) (data : List Record) (hown : Obj.getOwn farmsData farmName = some data)
    (hname : farmName ≠ "__proto__") :
    Obj.getProp (getDatasetStats render farmsData).recordsPerFarm farmName
      = Lookup.own data.length := by
  simp only [getDatasetStats, (datasetStats_foldl render farmsData _ _).2.2]
  rw [Obj.foldl_getProp_of_mem _ _ _ (Obj.keys farmsData) (Obj.keys_nodup farmsData) _ farmName
    (Obj.mem_keys_of_getOwn farmsData farmName data hown)]
  · simp only [hown]
    exact Obj.getProp_assign_self _ _ _ hname
  · intro o k k' hne
    cases hk : Obj.getOwn farmsData k with
    | none => rfl
    | some d => exact Obj.getProp_assign_ne o k k' d.length hne
  · intro o o' k h
    cases hk : Obj.getOwn farmsData k with
    | none => exact h
    | some d =>
      by_cases hp : k = "__proto__"
      · simpa [Obj.assign, hp] using h
      · simp only [Obj.getProp_assign_self _ _ _ hp]

theorem JSVal.plusOne_count (render : JSVal → String) (n : Nat) (h : n ≠ 0) :
    JSVal.plusOne render
        (JSVal.orElse (JSVal.num (JSNum.ofNat n)) (JSVal.num (JSNum.ofNat 0)))
      = JSVal.num (JSNum.ofNat (n + 1)) := by
  have ht : (JSVal.num (JSNum.ofNat n)).truthy = true := by
    simp [JSVal.truthy, JSNum.truthy, JSNum.ofNat, h]
  simp [JSVal.orElse, ht, JSVal.plusOne, JSNum.add_ofNat]

/-- A name that `Object.prototype` does not define holds, while the inner loop runs, the number
of records counted under it so far. -/
theorem countAnomaly_foldl_count (render : JSVal → String) (t : String)
    (ht : t ∉ objectPrototypeKeys) (records : List Record) (counts : Obj JSVal) (n : Nat)
    (hcounts : Obj.getProp counts t
      = if n = 0 then Lookup.absent else Lookup.own (JSVal.num (JSNum.ofNat n))) :
    Obj.getProp (records.foldl (countAnomaly render) counts) t
      = if n + List.count t (records.map (anomalyKey render)) = 0 then Lookup.absent
        else Lookup.own
          (JSVal.num (JSNum.ofNat (n + List.count t (records.map (anomalyKey render))))) := by
  induction records generalizing counts n with
  | nil => simpa using hcounts
  | cons r rs ih =>
    rw [List.foldl_cons, List.map_cons, List.count_cons]
    by_cases hk : anomalyKey render r = t
    · have hproto : t ≠ "__proto__" := by
        intro h
        exact ht (by simp [h, objectPrototypeKeys])
      have hstep : Obj.getProp (countAnomaly render counts r) t
          = if n + 1 = 0 then Lookup.absent
            else Lookup.own (JSVal.num (JSNum.ofNat (n + 1))) := by
        simp only [countAnomaly, hk, hcounts, Nat.succ_ne_zero, if_false]
        rw [Obj.getProp_assign_self _ _ _ hproto]
        by_cases hn : n = 0
        · subst hn
          simp [JSVal.plusOne, JSNum.add_ofNat]
        · simp only [hn, if_false, JSVal.plusOne_count render n hn]
      have := ih (countAnomaly render counts r) (n + 1) hstep
      simpa [hk, Nat.add_assoc, Nat.add_comm 1] using this
    · have hstep : Obj.getProp (countAnomaly render counts r) t
          = if n = 0 then Lookup.absent else Lookup.own (JSVal.num (JSNum.ofNat n)) := by
        rw [← hcounts]
        exact Obj.getProp_assign_ne _ _ _ _ (Ne.symm hk)
      have := ih (countAnomaly render counts r) n hstep
      simpa [hk] using this

/-- The inner loop writes no other name than the kinds of the records it visits. -/
theorem countAnomaly_foldl_getOwn (render : JSVal → String) (t : String)
    (records : List Record) (counts : Obj JSVal)
    (ht : t ∉ records.map (anomalyKey render)) :
    Obj.getOwn (records.foldl (countAnomaly render) counts) t = Obj.getOwn counts t := by
  induction records generalizing counts with
  | nil => rfl
  | cons r rs ih =>
    simp only [List.map_cons, List.mem_cons, not_or] at ht
    rw [List.foldl_cons, ih _ ht.2]
    exact Obj.getOwn_assign_ne _ _ _ _ ht.1

theorem anomalyCounts_of_kind (render : JSVal → String) (farmsData : Obj (List Record))
    (t : String) (ht : t ∉ objectPrototypeKeys) :
    Obj.getProp (getDatasetStats render farmsData).anomalyCounts t
      = if List.count t (anomalyKinds render farmsData) = 0 then Lookup.absent
        else Lookup.own
          (JSVal.num (JSNum.ofNat (List.count t (anomalyKinds render farmsData)))) := by
  rw [anomalyCounts_eq_foldl]
  have := countAnomaly_foldl_count render t ht (allRecords farmsData) [] 0
    (by simp [Obj.getProp, Obj.getOwn, ht])
  simpa [anomalyKinds] using this

theorem anomalyCounts_keys (render : JSVal → String) (farmsData : Obj (List Record))
    (hkinds : ∀ t ∈ anomalyKinds render farmsData, t ∉ objectPrototypeKeys) (t : String) :
    t ∈ Obj.keys (getDatasetStats render farmsData).anomalyCounts
      ↔ t ∈ anomalyKinds render farmsData := by
  rw [Obj.mem_keys_iff]
  by_cases hmem : t ∈ anomalyKinds render farmsData
  · have hpos : List.count t (anomalyKinds render farmsData) ≠ 0 :=
      (List.count_pos_iff.mpr hmem).ne'
    have h := anomalyCounts_of_kind render farmsData t (hkinds t hmem)
    simp only [hpos, if_false] at h
    simp only [hmem, iff_true]
    unfold Obj.getProp at h
    cases hg : Obj.getOwn (getDatasetStats render farmsData).anomalyCounts t with
    | none =>
      rw [hg] at h
      by_cases hp : t ∈ objectPrototypeKeys <;> simp [hp] at h
    | some v => rfl
  · simp only [hmem, iff_false]
    rw [anomalyCounts_eq_foldl, countAnomaly_foldl_getOwn render t _ _ hmem]
    simp [Obj.getOwn]

theorem anomalyCounts_sum (render : JSVal → String) (farmsData : Obj (List Record))
    (hkinds : ∀ t ∈ anomalyKinds render farmsData, t ∉ objectPrototypeKeys) :
    ((Obj.keys (getDatasetStats render farmsData).anomalyCounts).map
        (fun t => List.count t (anomalyKinds render farmsData))).sum
      = (getDatasetStats render farmsData).totalRecords := by
  have hperm : (Obj.keys (getDatasetStats render farmsData).anomalyCounts).Perm
      (anomalyKinds render farmsData).dedup := by
    rw [List.perm_ext_iff_of_nodup (Obj.keys_nodup _) (List.nodup_dedup _)]
    intro t
    rw [anomalyCounts_keys render farmsData hkinds t, List.mem_dedup]
  rw [(hperm.map _).sum_eq, List.sum_map_count_dedup_eq_length, totalRecords_eq_sum,
    ← allRecords_length]
  simp [anomalyKinds]

theorem anomalyKey_of_text (render : JSVal → String) (r : Record) (s : String)
    (hfield : Record.field r "anomaly_type" = JSVal.str s) (hs : s ≠ "") :
    anomalyKey render r = s := by
  simp [anomalyKey, hfield, JSVal.orElse, JSVal.truthy, hs, textOf]

theorem anomalyKey_of_falsy (render : JSVal → String) (r : Record)
    (hfield : (Record.field r "anomaly_type").truthy = false) :
    anomalyKey render r = "UNKNOWN" := by
  simp [anomalyKey, JSVal.orElse, hfield, textOf]

/-- A record whose anomaly kind is the text `constructor` is not counted by a number: the read
of the previous count finds the function that `Object.prototype` provides under that name, and
the count written is that function as text, followed by `1`. -/
theorem anomalyCounts_inherited_kind (render : JSVal → String) :
    Obj.getProp (getDatasetStats render inheritedKindData).anomalyCounts "constructor"
      = Lookup.own (JSVal.str (render (JSVal.builtin "constructor") ++ "1")) := by
  rfl

/-- C21, as stated, fails: a dataset map with two records, one whose `anomaly_type` is the
number `0` and one whose `anomaly_type` is the empty text. Both records have the field, yet
nothing is counted under `0` nor under the empty text, and both are counted under
`UNKNOWN`. -/
theorem dataset_stats_falsy_kind :
    (allRecords falsyKindData).map (fun r => Obj.getOwn r "anomaly_type")
      = [some (JSVal.num (JSNum.ofNat 0)), some (JSVal.str "")]
    ∧ Obj.getProp (getDatasetStats sampleRender falsyKindData).anomalyCounts
        (sampleRender (JSVal.num (JSNum.ofNat 0))) = Lookup.absent
    ∧ Obj.getProp (getDatasetStats sampleRender falsyKindData).anomalyCounts "" = Lookup.absent
    ∧ Obj.getProp (getDatasetStats sampleRender falsyKindData).anomalyCounts "UNKNOWN"
      = Lookup.own (JSVal.num (JSNum.ofNat 2)) := by
  refine ⟨by decide, by decide, by decide, ?_⟩
  rw [anomalyCounts_of_kind _ _ _ (by decide)]
  rfl

/-- C21 (amended). For every dataset map, `getDatasetStats` returns `recordsPerFarm[f]` equal to
the length of the dataset of `f` for every installation `f` not named `__proto__`, and
`totalRecords` equal to the sum of the lengths, which is the number of records. The kind of a
record is its `anomaly_type`, or `UNKNOWN` when the `anomaly_type` is falsy (absent, null, the
empty text, zero or NaN), read as a property name: a non-empty text is its own kind. For every
name `t` that `Object.prototype` does not define, `anomalyCounts[t]` is the number of records of
kind `t`, and is absent when there is none. When no record has a kind that `Object.prototype`
defines, every count is such a number and the counts sum to `totalRecords`. -/
theorem dataset_stats_counts (render : JSVal → String) (farmsData : Obj (List Record)) :
    (∀ (f : String) (data : List Record), Obj.getOwn farmsData f = some data →
        f ≠ "__proto__" →
        Obj.getProp (getDatasetStats render farmsData).recordsPerFarm f = Lookup.own data.length)
    ∧ (getDatasetStats render farmsData).totalRecords
        = ((Obj.keys farmsData).map
            (fun f => ((Obj.getOwn farmsData f).getD []).length)).sum
    ∧ (getDatasetStats render farmsData).totalRecords = (allRecords farmsData).length
    ∧ (∀ (r : Record) (s : String), Record.field r "anomaly_type" = JSVal.str s → s ≠ "" →
        anomalyKey render r = s)
    ∧ (∀ r : Record, (Record.field r "anomaly_type").truthy = false →
        anomalyKey render r = "UNKNOWN")
    ∧ (∀ t : String, t ∉ objectPrototypeKeys →
        Obj.getProp (getDatasetStats render farmsData).anomalyCounts t
          = if List.count t (anomalyKinds render farmsData) = 0 then Lookup.absent
            else Lookup.own
              (JSVal.num (JSNum.ofNat (List.count t (anomalyKinds render farmsData)))))
    ∧ ((∀ t ∈ anomalyKinds render farmsData, t ∉ objectPrototypeKeys) →
        (∀ t ∈ Obj.keys (getDatasetStats render farmsData).anomalyCounts,
          Obj.getProp (getDatasetStats render farmsData).anomalyCounts t
            = Lookup.own
                (JSVal.num (JSNum.ofNat (List.count t (anomalyKinds render farmsData)))))
        ∧ ((Obj.keys (getDatasetStats render farmsData).anomalyCounts).map
              (fun t => List.count t (anomalyKinds render farmsData))).sum
            = (getDatasetStats render farmsData).totalRecords) := by
  refine ⟨recordsPerFarm_of_own render farmsData, totalRecords_eq_sum render farmsData,
    (totalRecords_eq_sum render farmsData).trans (allRecords_length farmsData).symm,
    anomalyKey_of_text render, anomalyKey_of_falsy render,
    anomalyCounts_of_kind render farmsData, fun hkinds => ⟨?_, ?_⟩⟩
  · intro t ht
    have hmem : t ∈ anomalyKinds render farmsData :=
      (anomalyCounts_keys render farmsData hkinds t).mp ht
    rw [anomalyCounts_of_kind render farmsData t (hkinds t hmem),
      if_neg (List.count_pos_iff.mpr hmem).ne']
  · exact anomalyCounts_sum render farmsData hkinds

theorem dataset_stats_counts_witness :
    Obj.getProp (getDatasetStats sampleRender statsData).recordsPerFarm "provence"
      = Lookup.own 3
    ∧ Obj.getProp (getDatasetStats sampleRender statsData).recordsPerFarm "occitanie"
      = Lookup.own 1
    ∧ (getDatasetStats sampleRender statsData).totalRecords = 4
    ∧ Obj.getProp (getDatasetStats sampleRender statsData).anomalyCounts "NORMAL"
      = Lookup.own (JSVal.num (JSNum.ofNat 3))
    ∧ Obj.getProp (getDatasetStats sampleRender statsData).anomalyCounts "OVERHEAT"
      = Lookup.own (JSVal.num (JSNum.ofNat 1))
    ∧ ((Obj.keys (getDatasetStats sampleRender statsData).anomalyCounts).map
          (fun t => List.count t (anomalyKinds sampleRender statsData))).sum
        = (getDatasetStats sampleRender statsData).totalRecords :=
  ⟨(dataset_stats_counts sampleRender statsData).1 "provence" _ rfl (by decide),
   (dataset_stats_counts sampleRender statsData).1 "occitanie" _ rfl (by decide),
   (dataset_stats_counts sampleRender statsData).2.2.1.trans (by decide),
   ((dataset_stats_counts sampleRender statsData).2.2.2.2.2.1 "NORMAL" (by decide)).trans rfl,
   ((dataset_stats_counts sampleRender statsData).2.2.2.2.2.1 "OVERHEAT" (by decide)).trans rfl,
   ((dataset_stats_counts sampleRender statsData).2.2.2.2.2.2 (by decide)).2⟩


end SolarSimulator
